import Mathlib

/-!
# TwitterAPI: session lifecycle and authenticated action protocol

A shallow embedding of the Go sources of the TwitterAPI client
(`client/*.go`, `client/addons/*.go`, `utils/*.go`, `twitter_utils/*.go`,
`models/*.go`) together with theorems about them.

Modelling conventions.

* A Go `string` / `[]byte` holding text is a `List Char` (the code points of a
  valid UTF-8 text).  `len` is the UTF-8 byte count (`byteLen`).  Substring
  search and splitting on code points agree with the byte-level Go functions on
  valid UTF-8.
* Go `int` is `Int` (no arithmetic is performed on it apart from loop counters).
* External capabilities (the TLS transport, `http.NewRequest`, the random
  source, `json.Marshal`) are fields of an `Env` value; the sequence of requests
  handed to the transport is recorded in a `World`.
* The Unicode table `unicode.SimpleFold`, which `strings.EqualFold` reads, is a
  parameter of `EqualFold` and of `IsValid`.
* Logging and `RandomSleep` have no effect on the values modelled here and are
  left out.
* A run-time failure of the Go program (index out of range, nil dereference) is
  a value of type `Panic`.
-/

namespace TwitterAPI

/-! ## Go strings -/


namespace strings

/-- Go `strings.HasPrefix(s, p)`: `s` begins with `p`. -/
def startsWith : List Char → List Char → Bool
  | _, [] => true
  | [], _ :: _ => false
  | c :: cs, p :: ps => c == p && startsWith cs ps

/-- Go `strings.Contains(s, substr)`. -/
def Contains : List Char → List Char → Bool
  | [], substr => substr.isEmpty
  | c :: cs, substr => startsWith (c :: cs) substr || Contains cs substr

/-- Worker of `Split` for a non-empty separator.  `skip` counts the characters
of a separator occurrence that are still to be dropped; `acc` is the current
piece, reversed. -/
def splitGo (sep : List Char) : Nat → List Char → List Char → List (List Char)
  | _, [], acc => [acc.reverse]
  | skip + 1, _ :: cs, acc => splitGo sep skip cs acc
  | 0, c :: cs, acc =>
    if startsWith (c :: cs) sep then acc.reverse :: splitGo sep (sep.length - 1) cs []
    else splitGo sep 0 cs (c :: acc)

/-- Go `strings.Split(s, sep)`: the pieces of `s` between the successive
leftmost non-overlapping occurrences of `sep`; with an empty `sep` the string
is exploded into its characters. -/
def Split (s sep : List Char) : List (List Char) :=
  if sep.isEmpty then s.map (fun c => [c]) else splitGo sep 0 s []

/-- White space in the sense of `unicode.IsSpace`. -/
def isSpace (c : Char) : Bool :=
  let n := c.toNat
  n == 0x20 || (0x09 ≤ n && n ≤ 0x0D) || n == 0x85 || n == 0xA0 || n == 0x1680 ||
    (0x2000 ≤ n && n ≤ 0x200A) || n == 0x2028 || n == 0x2029 || n == 0x202F ||
    n == 0x205F || n == 0x3000

/-- Go `strings.TrimSpace(s)`. -/
def TrimSpace (s : List Char) : List Char :=
  ((s.dropWhile isSpace).reverse.dropWhile isSpace).reverse

/-- Go `strings.Join(elems, sep)`. -/
def Join : List (List Char) → List Char → List Char
  | [], _ => []
  | [a], _ => a
  | a :: b :: rest, sep => a ++ sep ++ Join (b :: rest) sep

end strings

/-! ## Errors and run-time failures -/

/-- Run-time failures that abort the Go program instead of returning. -/
inductive Panic where
  | indexOutOfRange
  | nilDereference
  deriving DecidableEq

/-- The bytes of the UTF-8 encoding of a character. -/
def utf8Bytes (c : Char) : List Nat :=
  let n := c.toNat
  if n < 0x80 then [n]
  else if n < 0x800 then [0xC0 + n / 64, 0x80 + n % 64]
  else if n < 0x10000 then [0xE0 + n / 4096, 0x80 + (n / 64) % 64, 0x80 + n % 64]
  else [0xF0 + n / 262144, 0x80 + (n / 4096) % 64, 0x80 + (n / 64) % 64, 0x80 + n % 64]

/-- Go `len(s)` for a string: the number of bytes of its UTF-8 encoding. -/
def byteLen (s : List Char) : Nat :=
  (s.map (fun c => (utf8Bytes c).length)).sum

deriving instance DecidableEq for Except

/-- Go `xs[i]`: the element, or the run-time failure when `i` is out of range. -/
def index {α : Type} (xs : List α) (i : Nat) : Except Panic α :=
  match xs.get? i with
  | some x => .ok x
  | none => .error .indexOutOfRange

/-- Decimal rendering of an integer, as `%d` prints it. -/
def fmtInt (i : Int) : List Char :=
  (toString i).toList

/-- Errors reported by `encoding/json`'s `Unmarshal`. -/
inductive JsonError where
  /-- The `*json.SyntaxError` of an input that is not a JSON text. -/
  | syntaxError
  /-- The `*json.UnmarshalTypeError`; `value` is its `Value` field
  ("object", "array", "string", "bool", "number", "number " followed by the literal). -/
  | unmarshalType (value : List Char)
  deriving DecidableEq

/-- Go `error` values.  The four sentinels of `models/constants.go` are
constructors of their own; `New` is an `errors.New` / `fmt.Errorf` value with
the given text; `Wrap pre e` is `fmt.Errorf(pre + "%w", e)`; `Fmt pre e` is
`fmt.Errorf(pre + "%v", e)`; the remaining constructors are errors produced by
the libraries. -/
inductive Error where
  | ErrAccountLocked
  | ErrAuthFailed
  | ErrInvalidToken
  | ErrUnknown
  | New (text : List Char)
  | Wrap (pre : List Char) (inner : Error)
  | Fmt (pre : List Char) (inner : Error)
  | Json (e : JsonError)
  | Lib (detail : List Char)
  deriving DecidableEq

/-- Go `errors.Is(e, target)` for the errors above: `target` is reached by
unwrapping `%w` layers. -/
def Error.Is : Error → Error → Bool
  | .Wrap pre inner, target => (Error.Wrap pre inner == target) || Error.Is inner target
  | e, target => e == target

/-! ## `encoding/json`: syntax

`json.Unmarshal` first checks that the whole input is one JSON text
(`checkValid`, driven by the scanner of `scanner.go`) and only then stores the
value into the target.  `parse` is that check, returning the value read. -/

namespace json

/-- A JSON number literal, split into its parts: sign, integer digits, the
digits after the point (empty when there is no fraction) and the exponent
(sign and digits) when present; `text` is the literal as it is written in the
input. -/
structure NumberLit where
  neg : Bool
  int : List Char
  frac : List Char
  exp : Option (Bool × List Char)
  text : List Char
  deriving DecidableEq

/-- JSON values. Strings and object keys are stored unquoted. -/
inductive Value where
  | null
  | bool (b : Bool)
  | number (n : NumberLit)
  | string (s : List Char)
  | array (elems : List Value)
  | object (members : List (List Char × Value))

/-- The nesting limit `maxNestingDepth` of the scanner. -/
def maxNestingDepth : Nat := 10000

/-- The scanner's `isSpace`: space, tab, carriage return, line feed. -/
def isSpace (c : Char) : Bool :=
  c.toNat == 0x20 || c.toNat == 0x09 || c.toNat == 0x0D || c.toNat == 0x0A

/-- Drop leading JSON white space. -/
def skipSpace : List Char → List Char
  | [] => []
  | c :: cs => if isSpace c then skipSpace cs else c :: cs

/-- Decimal digit test. -/
def isDigit (c : Char) : Bool :=
  48 ≤ c.toNat && c.toNat ≤ 57

/-- Value of a hexadecimal digit, `none` for any other character. -/
def hexVal (c : Char) : Option Nat :=
  let n := c.toNat
  if 48 ≤ n ∧ n ≤ 57 then some (n - 48)
  else if 97 ≤ n ∧ n ≤ 102 then some (n - 87)
  else if 65 ≤ n ∧ n ≤ 70 then some (n - 55)
  else none

/-- The four hexadecimal digits of a `\u` escape, as in `getu4`. -/
def getu4 (a b c d : Char) : Option Nat :=
  match hexVal a, hexVal b, hexVal c, hexVal d with
  | some x, some y, some z, some w => some (((x * 16 + y) * 16 + z) * 16 + w)
  | _, _, _, _ => none

/-- One unit of a string literal's content: a character (written literally or
through a one-letter escape) or the 16-bit value of a `\u` escape. -/
inductive StrUnit where
  | ch (c : Char)
  | u4 (n : Nat)
  deriving DecidableEq

/-- The character denoted by a one-letter escape. -/
def escapeChar (e : Char) : Option Char :=
  if e = Char.ofNat 34 then some (Char.ofNat 34)
  else if e = Char.ofNat 92 then some (Char.ofNat 92)
  else if e = '/' then some '/'
  else if e = 'b' then some (Char.ofNat 8)
  else if e = 'f' then some (Char.ofNat 12)
  else if e = 'n' then some (Char.ofNat 10)
  else if e = 'r' then some (Char.ofNat 13)
  else if e = 't' then some (Char.ofNat 9)
  else none

/-- Scan a string literal whose opening quote has been consumed: the units up
to the closing quote and the input after it.  Characters below U+0020 and
malformed escapes are syntax errors. -/
def scanString : List Char → Option (List StrUnit × List Char)
  | [] => none
  | c :: rest =>
    if c = Char.ofNat 34 then some ([], rest)
    else if c = Char.ofNat 92 then
      match rest with
      | [] => none
      | e :: rest1 =>
        if e = 'u' then
          match rest1 with
          | a :: b :: c4 :: d :: rest2 =>
            match getu4 a b c4 d with
            | none => none
            | some n => (scanString rest2).map (fun r => (StrUnit.u4 n :: r.1, r.2))
          | _ => none
        else
          match escapeChar e with
          | none => none
          | some x => (scanString rest1).map (fun r => (StrUnit.ch x :: r.1, r.2))
    else if c.toNat < 0x20 then none
    else (scanString rest).map (fun r => (StrUnit.ch c :: r.1, r.2))

/-- Go `utf16.IsSurrogate`. -/
def isSurrogate (n : Nat) : Bool := 0xD800 ≤ n && n < 0xE000

/-- The Unicode replacement character U+FFFD. -/
def replacementChar : Char := Char.ofNat 0xFFFD

/-- Worker of `unquoteUnits`; the first argument is a high surrogate escape
read just before and still waiting for its low surrogate. -/
def unquoteGo : Option Nat → List StrUnit → List Char
  | none, [] => []
  | some _, [] => [replacementChar]
  | none, .ch c :: rest => c :: unquoteGo none rest
  | some _, .ch c :: rest => replacementChar :: c :: unquoteGo none rest
  | none, .u4 n :: rest =>
    if isSurrogate n then
      if n < 0xDC00 then unquoteGo (some n) rest
      else replacementChar :: unquoteGo none rest
    else Char.ofNat n :: unquoteGo none rest
  | some h, .u4 m :: rest =>
    if isSurrogate m then
      if m < 0xDC00 then replacementChar :: unquoteGo (some m) rest
      else Char.ofNat ((h - 0xD800) * 0x400 + (m - 0xDC00) + 0x10000) :: unquoteGo none rest
    else replacementChar :: Char.ofNat m :: unquoteGo none rest

/-- The text denoted by the units of a string literal (`unquote`): a high
surrogate escape directly followed by a low surrogate escape is one character,
any other surrogate escape is U+FFFD. -/
def unquoteUnits (us : List StrUnit) : List Char :=
  unquoteGo none us

/-- The longest run of decimal digits at the head of the input, and the rest. -/
def spanDigits : List Char → List Char × List Char
  | [] => ([], [])
  | c :: cs =>
    if isDigit c then ((c :: (spanDigits cs).1), (spanDigits cs).2) else ([], c :: cs)

/-- Optional exponent part of a number literal. -/
def scanExp (s : List Char) : Option (Option (Bool × List Char) × List Char) :=
  match s with
  | e :: t =>
    if e = 'e' ∨ e = 'E' then
      let signed : Bool × List Char :=
        match t with
        | sg :: t1 => if sg = '-' then (true, t1) else if sg = '+' then (false, t1) else (false, t)
        | [] => (false, t)
      let ds := spanDigits signed.2
      if ds.1.isEmpty then none else some (some (signed.1, ds.1), ds.2)
    else some (none, s)
  | [] => some (none, s)

/-- Optional fraction part of a number literal. -/
def scanFrac (s : List Char) : Option (List Char × List Char) :=
  match s with
  | p :: t =>
    if p = '.' then
      let ds := spanDigits t
      if ds.1.isEmpty then none else some ds
    else some ([], s)
  | [] => some ([], s)

/-- Scan a number literal at the head of the input: `-`? then `0` or a
non-zero digit followed by digits, then an optional fraction and exponent. -/
def scanNumber (s : List Char) : Option (NumberLit × List Char) :=
  let signed : Bool × List Char :=
    match s with
    | sg :: t => if sg = '-' then (true, t) else (false, s)
    | [] => (false, s)
  let intPart : Option (List Char × List Char) :=
    match signed.2 with
    | d :: t =>
      if d = '0' then some (['0'], t)
      else if isDigit d then some (d :: (spanDigits t).1, (spanDigits t).2)
      else none
    | [] => none
  match intPart with
  | none => none
  | some (ds, r) =>
    match scanFrac r with
    | none => none
    | some (fr, r1) =>
      match scanExp r1 with
      | none => none
      | some (ex, r2) =>
        some ({ neg := signed.1, int := ds, frac := fr, exp := ex
                text := s.take (s.length - r2.length) }, r2)

mutual
/-- Read one JSON value at the head of the input (white space before it
already skipped); `depth` is the number of enclosing arrays and objects.
`none` is a syntax error. -/
def parseValue : Nat → Nat → List Char → Option (Value × List Char)
  | 0, _, _ => none
  | fuel + 1, depth, s =>
    match s with
    | [] => none
    | c :: t =>
      if c = '{' then
        if depth + 1 > maxNestingDepth then none
        else match skipSpace t with
          | [] => none
          | c1 :: t1 =>
            if c1 = '}' then some (.object [], t1)
            else (parseMembers fuel (depth + 1) (c1 :: t1)).map (fun r => (.object r.1, r.2))
      else if c = '[' then
        if depth + 1 > maxNestingDepth then none
        else match skipSpace t with
          | [] => none
          | c1 :: t1 =>
            if c1 = ']' then some (.array [], t1)
            else (parseElems fuel (depth + 1) (c1 :: t1)).map (fun r => (.array r.1, r.2))
      else if c = Char.ofNat 34 then
        (scanString t).map (fun r => (.string (unquoteUnits r.1), r.2))
      else if strings.startsWith s "true".toList then some (.bool true, s.drop 4)
      else if strings.startsWith s "false".toList then some (.bool false, s.drop 5)
      else if strings.startsWith s "null".toList then some (.null, s.drop 4)
      else (scanNumber s).map (fun r => (.number r.1, r.2))
/-- Read the elements of a non-empty array up to and including the closing
bracket; the input starts at the first element. -/
def parseElems : Nat → Nat → List Char → Option (List Value × List Char)
  | 0, _, _ => none
  | fuel + 1, depth, s =>
    match parseValue fuel depth s with
    | none => none
    | some (v, r) =>
      match skipSpace r with
      | [] => none
      | c :: t =>
        if c = ',' then (parseElems fuel depth (skipSpace t)).map (fun q => (v :: q.1, q.2))
        else if c = ']' then some ([v], t)
        else none
/-- Read the members of a non-empty object up to and including the closing
brace; the input starts at the first key. -/
def parseMembers : Nat → Nat → List Char → Option (List (List Char × Value) × List Char)
  | 0, _, _ => none
  | fuel + 1, depth, s =>
    match s with
    | [] => none
    | q :: t =>
      if q = Char.ofNat 34 then
        match scanString t with
        | none => none
        | some (ks, r) =>
          match skipSpace r with
          | [] => none
          | c :: t1 =>
            if c = ':' then
              match parseValue fuel depth (skipSpace t1) with
              | none => none
              | some (v, r1) =>
                match skipSpace r1 with
                | [] => none
                | c2 :: t2 =>
                  if c2 = ',' then
                    (parseMembers fuel depth (skipSpace t2)).map
                      (fun m => ((unquoteUnits ks, v) :: m.1, m.2))
                  else if c2 = '}' then some ([(unquoteUnits ks, v)], t2)
                  else none
            else none
      else none
end

/-- The JSON text check of `Unmarshal`: the input is white space, one value,
white space.  The fuel covers every input (each call consumes a character at
least every second step). -/
def parse (data : List Char) : Option Value :=
  match parseValue (2 * data.length + 2) 0 (skipSpace data) with
  | none => none
  | some (v, r) => if (skipSpace r).isEmpty then some v else none

/-! ## `encoding/json`: storing a value into a Go variable

A Go variable that `Unmarshal` writes into is a `GoValue`: it carries its Go
type in its shape, like a `reflect.Value`.  Only the kinds that occur in the
response types of this repository are modelled: `string`, `bool`, the signed
integers, `interface{}`, slices, maps with string keys, and structs whose
fields all carry a `json:"name"` tag. -/

/-- A Go variable as seen by the decoder. -/
inductive GoValue where
  | string (s : List Char)
  | bool (b : Bool)
  /-- A signed integer of the given width (`int` and `int64` are 64 bits wide). -/
  | int (bits : Nat) (i : Int)
  /-- An `interface{}`: nil, or the JSON value that was stored into it. -/
  | any (v : Option Value)
  /-- A slice: the zero value of its element type, its length, and its backing
  array (at least `len` elements; a nil or empty slice has no backing array). -/
  | slice (zeroElem : GoValue) (len : Nat) (backing : List GoValue)
  /-- A map with string keys: the zero value of its element type and its
  entries (`none` is the nil map). -/
  | map (zeroElem : GoValue) (entries : Option (List (List Char × GoValue)))
  /-- A struct: its fields under their JSON names, in declaration order. -/
  | struct (fields : List (List Char × GoValue))

/-- Value of a run of decimal digits. -/
def digitsVal (ds : List Char) : Nat :=
  ds.foldl (fun a c => a * 10 + (c.toNat - 48)) 0

/-- Go `strconv.ParseInt(lit, 10, 64)` followed by the overflow check for an
integer of `bits` bits: the literal must be an optional sign and digits only,
and its value must fit. -/
def parseInt (n : NumberLit) (bits : Nat) : Option Int :=
  if n.frac.isEmpty ∧ n.exp.isNone then
    let v : Int := if n.neg then - (digitsVal n.int : Int) else (digitsVal n.int : Int)
    if - (2 : Int) ^ (bits - 1) ≤ v ∧ v < (2 : Int) ^ (bits - 1) then some v else none
  else none

/-- Whether `strconv.ParseFloat(lit, 64)` reports a range error: the value of
the literal is at least `2^1024 - 2^970` in magnitude, the point from which
rounding to nearest leaves the finite `float64` values. -/
def floatOverflows (n : NumberLit) : Bool :=
  let m : Nat := digitsVal (n.int ++ n.frac)
  let e : Int :=
    (match n.exp with
      | none => 0
      | some (true, ds) => - (digitsVal ds : Int)
      | some (false, ds) => (digitsVal ds : Int)) - (n.frac.length : Int)
  let limit : Nat := (2 ^ 54 - 1) * 2 ^ 970
  if 0 ≤ e then decide (limit ≤ m * 10 ^ e.toNat) else decide (limit * 10 ^ (-e).toNat ≤ m)

mutual
/-- The first number of a JSON value, in the order of the text, that does not
convert to a `float64`: its literal, or `none` when the value can be stored
into an `interface{}` without error. -/
def firstOverflow : Value → Option (List Char)
  | .number n => if floatOverflows n then some n.text else none
  | .array elems => firstOverflowList elems
  | .object members => firstOverflowMembers members
  | _ => none
/-- The search `firstOverflow` through the elements of an array. -/
def firstOverflowList : List Value → Option (List Char)
  | [] => none
  | v :: vs =>
    match firstOverflow v with
    | some lit => some lit
    | none => firstOverflowList vs
/-- The search `firstOverflow` through the members of an object. -/
def firstOverflowMembers : List (List Char × Value) → Option (List Char)
  | [] => none
  | (_, v) :: ms =>
    match firstOverflow v with
    | some lit => some lit
    | none => firstOverflowMembers ms
end

/-- Case folding of a key for the case-insensitive field match.  The struct tags
of this repository are lower-case ASCII, so it is enough to fold the characters
whose simple case folding is an ASCII letter: the letters themselves, the Kelvin
sign (to `K`) and the long s (to `S`). -/
def foldChar (c : Char) : Char :=
  if 97 ≤ c.toNat ∧ c.toNat ≤ 122 then Char.ofNat (c.toNat - 32)
  else if c.toNat = 0x212A then 'K'
  else if c.toNat = 0x017F then 'S'
  else c

/-- The struct field an object key is stored into: the field with exactly that
name, else the first field whose name matches ignoring case. -/
def findField (fields : List (List Char × GoValue)) (key : List Char) :
    Option (List Char × GoValue) :=
  match fields.find? (fun f => f.1 == key) with
  | some f => some f
  | none => fields.find? (fun f => f.1.map foldChar == key.map foldChar)

/-- Replace the value of the field called `name`. -/
def setField (fields : List (List Char × GoValue)) (name : List Char) (v : GoValue) :
    List (List Char × GoValue) :=
  fields.map (fun f => if f.1 == name then (f.1, v) else f)

/-- Go `m[key] = v` on the entries of a map. -/
def setEntry (entries : List (List Char × GoValue)) (key : List Char) (v : GoValue) :
    List (List Char × GoValue) :=
  if entries.any (fun e => e.1 == key) then
    entries.map (fun e => if e.1 == key then (e.1, v) else e)
  else entries ++ [(key, v)]

mutual
/-- Store the JSON value into the Go variable `cur` (`decodeState.value`):
the new content of the variable, or the first `UnmarshalTypeError`. -/
def decode : GoValue → Value → Except JsonError GoValue
  | cur, .null =>
    match cur with
    | .any _ => .ok (.any none)
    | .slice z _ _ => .ok (.slice z 0 [])
    | .map z _ => .ok (.map z none)
    | _ => .ok cur
  | cur, .bool b =>
    match cur with
    | .bool _ => .ok (.bool b)
    | .any _ => .ok (.any (some (.bool b)))
    | _ => .error (.unmarshalType "bool".toList)
  | cur, .string s =>
    match cur with
    | .string _ => .ok (.string s)
    | .any _ => .ok (.any (some (.string s)))
    | _ => .error (.unmarshalType "string".toList)
  | cur, .number n =>
    match cur with
    | .int bits _ =>
      match parseInt n bits with
      | some i => .ok (.int bits i)
      | none => .error (.unmarshalType ("number ".toList ++ n.text))
    | .any _ =>
      if floatOverflows n then .error (.unmarshalType ("number ".toList ++ n.text))
      else .ok (.any (some (.number n)))
    | _ => .error (.unmarshalType "number".toList)
  | cur, .array elems =>
    match cur with
    | .slice z _ backing =>
      match decodeElems z backing elems with
      | .error e => .error e
      | .ok stored => .ok (if elems.isEmpty then .slice z 0 [] else .slice z elems.length stored)
    | .any _ =>
      match firstOverflowList elems with
      | none => .ok (.any (some (.array elems)))
      | some lit => .error (.unmarshalType ("number ".toList ++ lit))
    | _ => .error (.unmarshalType "array".toList)
  | cur, .object members =>
    match cur with
    | .struct fields =>
      match decodeFields fields members with
      | .error e => .error e
      | .ok fs => .ok (.struct fs)
    | .map z entries =>
      match decodeEntries z (entries.getD []) members with
      | .error e => .error e
      | .ok es => .ok (.map z (some es))
    | .any _ =>
      match firstOverflowMembers members with
      | none => .ok (.any (some (.object members)))
      | some lit => .error (.unmarshalType ("number ".toList ++ lit))
    | _ => .error (.unmarshalType "object".toList)
/-- Store the elements of a JSON array into a slice: element `i` goes into
slot `i` of the backing array when there is one, else into a fresh zero
element; the slots after the last element keep their old content. -/
def decodeElems : GoValue → List GoValue → List Value → Except JsonError (List GoValue)
  | _, backing, [] => .ok backing
  | z, backing, v :: vs =>
    match decode (backing.headD z) v with
    | .error e => .error e
    | .ok x =>
      match decodeElems z backing.tail vs with
      | .error e => .error e
      | .ok xs => .ok (x :: xs)
/-- Store the members of a JSON object into the fields of a struct, in
document order; members with no matching field are skipped. -/
def decodeFields : List (List Char × GoValue) → List (List Char × Value) →
    Except JsonError (List (List Char × GoValue))
  | fields, [] => .ok fields
  | fields, (k, v) :: ms =>
    match findField fields k with
    | none => decodeFields fields ms
    | some (name, cur) =>
      match decode cur v with
      | .error e => .error e
      | .ok x => decodeFields (setField fields name x) ms
/-- Store the members of a JSON object into a map: each value is stored into a
fresh zero element which is then assigned to its key. -/
def decodeEntries : GoValue → List (List Char × GoValue) → List (List Char × Value) →
    Except JsonError (List (List Char × GoValue))
  | _, entries, [] => .ok entries
  | z, entries, (k, v) :: ms =>
    match decode z v with
    | .error e => .error e
    | .ok x => decodeEntries z (setEntry entries k x) ms
end

/-- Go `json.Unmarshal(data, &v)` where `v` currently holds `cur`: a syntax
error when `data` is not a JSON text, else the result of storing the value. -/
def Unmarshal (data : List Char) (cur : GoValue) : Except JsonError GoValue :=
  match parse data with
  | none => .error .syntaxError
  | some v => decode cur v

/-- Field selection `v.name` on a struct (the value itself when there is no
such field). -/
def GoValue.field (v : GoValue) (name : List Char) : GoValue :=
  match v with
  | .struct fields =>
    match fields.find? (fun f => f.1 == name) with
    | some f => f.2
    | none => v
  | _ => v

/-- The text of a `string` variable (empty for other kinds). -/
def GoValue.str : GoValue → List Char
  | .string s => s
  | _ => []

/-- The value of a `bool` variable (false for other kinds). -/
def GoValue.toBool : GoValue → Bool
  | .bool b => b
  | _ => false

/-- The elements of a slice, `v[0:len(v)]`. -/
def GoValue.elems : GoValue → List GoValue
  | .slice _ len backing => backing.take len
  | _ => []

/-- Go `m[key]` on a `map[string]string`: the entry and whether it is present. -/
def GoValue.lookup (m : GoValue) (key : List Char) : Option GoValue :=
  match m with
  | .map _ (some entries) => (entries.find? (fun e => e.1 == key)).map (fun e => e.2)
  | _ => none

end json

/-! ## `net/url` -/

namespace url

/-- Upper-case hexadecimal digit. -/
def upperhex (n : Nat) : Char :=
  if n < 10 then Char.ofNat (48 + n) else Char.ofNat (55 + n)

/-- Whether `QueryEscape` leaves the character as it is: ASCII letters and
digits and `-`, `_`, `.`, `~`. -/
def unreserved (c : Char) : Bool :=
  let n := c.toNat
  (97 ≤ n && n ≤ 122) || (65 ≤ n && n ≤ 90) || (48 ≤ n && n ≤ 57) ||
    c == '-' || c == '_' || c == '.' || c == '~'

/-- Go `url.QueryEscape(s)`: a space becomes `+`, every other byte that is not
unreserved becomes `%XX`. -/
def QueryEscape (s : List Char) : List Char :=
  s.flatMap (fun c =>
    if unreserved c then [c]
    else if c == ' ' then ['+']
    else (utf8Bytes c).flatMap (fun b => ['%', upperhex (b / 16), upperhex (b % 16)]))

/-- Go `url.Values`: the values of each key, in the order they were added. -/
structure Values where
  entries : List (List Char × List (List Char))

/-- The empty `url.Values{}`. -/
def Values.empty : Values := ⟨[]⟩

/-- Go `v.Set(key, value)`: the key now has exactly this value. -/
def Values.Set (v : Values) (key value : List Char) : Values :=
  if v.entries.any (fun e => e.1 == key) then
    ⟨v.entries.map (fun e => if e.1 == key then (e.1, [value]) else e)⟩
  else ⟨v.entries ++ [(key, [value])]⟩

/-- Go `v.Add(key, value)`: one more value for the key. -/
def Values.Add (v : Values) (key value : List Char) : Values :=
  if v.entries.any (fun e => e.1 == key) then
    ⟨v.entries.map (fun e => if e.1 == key then (e.1, e.2 ++ [value]) else e)⟩
  else ⟨v.entries ++ [(key, [value])]⟩

/-- Byte-wise string order `a <= b` (on valid UTF-8 it is the order of the
code points). -/
def strLe : List Char → List Char → Bool
  | [], _ => true
  | _ :: _, [] => false
  | a :: as, b :: bs => a.toNat < b.toNat || (a == b && strLe as bs)

/-- Insert an entry into a list of entries sorted by key. -/
def insertSorted (e : List Char × List (List Char)) :
    List (List Char × List (List Char)) → List (List Char × List (List Char))
  | [] => [e]
  | x :: xs => if strLe e.1 x.1 then e :: x :: xs else x :: insertSorted e xs

/-- Go `v.Encode()`: `key=value` pairs joined by `&`, sorted by key, keys and
values query-escaped. -/
def Values.Encode (v : Values) : List Char :=
  strings.Join
    ((v.entries.foldr insertSorted []).flatMap
      (fun e => e.2.map (fun value => QueryEscape e.1 ++ ['='] ++ QueryEscape value)))
    ['&']

end url

/-! ## `models` -/

namespace models

/-- The constant `UserAgent`. -/
def UserAgent : List Char :=
  "Mozilla/5.0 (Windows NT 10.0; Win64; x64) AppleWebKit/537.36 (KHTML, like Gecko) Chrome/133.0.0.0 Safari/537.36".toList

/-- The constant `BearerToken`. -/
def BearerToken : List Char :=
  "Bearer AAAAAAAAAAAAAAAAAAAAANRILgAAAAAAnNwIzUejRCOuH5E6I8xnZz4puTs%3D1Zv7ttfk8LF81IUq16cHjhLTvJu4FA33AGWWjCpTnA".toList

/-- The query identifiers of the GraphQL operations (`TwitterConstants.QueryID`). -/
structure QueryID where
  Like : List Char
  Unlike : List Char
  Retweet : List Char
  Unretweet : List Char
  Tweet : List Char

/-- Go `TwitterConstants`. -/
structure TwitterConstants where
  BearerToken : List Char
  UserAgent : List Char
  QueryID : QueryID

/-- Go `Config`; the fields `Timeout`, `FollowRedirects` and `LogLevel` are read
by no function modelled here and are left out. -/
structure Config where
  MaxRetries : Int
  Constants : TwitterConstants

/-- Go `NewConfig()`. -/
def NewConfig : Config :=
  { MaxRetries := 3
    Constants :=
      { UserAgent := UserAgent
        BearerToken := BearerToken
        QueryID :=
          { Like := "lI07N6Otwv1PhnEgXILM7A".toList
            Unlike := "ZYKSe-w7KEslx3JhSIk5LA".toList
            Retweet := "ojPdsZsimiJrUGLR1sjUtA".toList
            Unretweet := "iQtK4dl5hBmXewYZLkNG9A".toList
            Tweet := "bDE2rBtZb3uyrczSZ_pI9g".toList } } }

/-- Go `ActionStatus`. -/
inductive ActionStatus where
  | StatusSuccess
  | StatusAlreadyDone
  | StatusLocked
  | StatusNotFound
  | StatusRateLimited
  | StatusAuthError
  | StatusInvalidToken
  | StatusUnknown
  deriving DecidableEq

/-- Go `ActionResponse`; a nil `Error` is `none`. -/
structure ActionResponse where
  Success : Bool
  Error : Option Error
  Status : ActionStatus
  deriving DecidableEq

/-- Go `Account`, restricted to the fields that the client reads or writes
(`Ct0`, `AuthToken`, `Proxy`, `Username`); the remaining fields are never
touched. -/
structure Account where
  Ct0 : List Char
  AuthToken : List Char
  Proxy : List Char
  Username : List Char
  deriving DecidableEq

open json in
/-- The element type of the `Errors` field shared by the GraphQL response types. -/
def graphQLErrorZero : GoValue :=
  .struct
    [("message".toList, .string []),
     ("locations".toList,
        .slice (.struct [("line".toList, .int 64 0), ("column".toList, .int 64 0)]) 0 []),
     ("path".toList, .slice (.string []) 0 []),
     ("extensions".toList,
        .struct
          [("name".toList, .string []),
           ("source".toList, .string []),
           ("code".toList, .int 64 0),
           ("kind".toList, .string []),
           ("tracing".toList, .struct [("trace_id".toList, .string [])])])]

open json in
/-- The zero value of `LikeGraphQLResponse`. -/
def LikeGraphQLResponse : GoValue :=
  .struct
    [("data".toList, .struct [("favorite_tweet".toList, .string [])]),
     ("errors".toList, .slice graphQLErrorZero 0 [])]

open json in
/-- The zero value of `RetweetGraphQLResponse`. -/
def RetweetGraphQLResponse : GoValue :=
  .struct
    [("data".toList,
        .struct
          [("create_retweet".toList,
              .struct
                [("retweet_results".toList,
                    .struct
                      [("result".toList,
                          .struct
                            [("rest_id".toList, .string []),
                             ("legacy".toList,
                                .struct [("full_text".toList, .string [])])])])])]),
     ("errors".toList, .slice graphQLErrorZero 0 [])]

open json in
/-- The zero value of `TweetGraphQLResponse`. -/
def TweetGraphQLResponse : GoValue :=
  .struct
    [("data".toList,
        .struct
          [("create_tweet".toList,
              .struct
                [("tweet_results".toList,
                    .struct
                      [("result".toList, .struct [("rest_id".toList, .string [])])])])]),
     ("errors".toList, .slice graphQLErrorZero 0 [])]

open json in
/-- The zero value of `MediaUploadResponse`. -/
def MediaUploadResponse : GoValue :=
  .struct
    [("media_id_string".toList, .string []),
     ("size".toList, .int 64 0),
     ("expires_after_secs".toList, .int 64 0)]

open json in
/-- The zero value of `UserResponse`. -/
def UserResponse : GoValue :=
  .struct
    [("id".toList, .int 64 0),
     ("id_str".toList, .string []),
     ("name".toList, .string []),
     ("screen_name".toList, .string []),
     ("location".toList, .string []),
     ("description".toList, .string []),
     ("url".toList, .any none),
     ("protected".toList, .bool false),
     ("followers_count".toList, .int 64 0),
     ("friends_count".toList, .int 64 0),
     ("listed_count".toList, .int 64 0),
     ("created_at".toList, .string []),
     ("favourites_count".toList, .int 64 0),
     ("verified".toList, .bool false),
     ("statuses_count".toList, .int 64 0),
     ("media_count".toList, .int 64 0),
     ("following".toList, .bool false),
     ("follow_request_sent".toList, .bool false),
     ("notifications".toList, .bool false),
     ("entities".toList,
        .struct [("description".toList, .struct [("urls".toList, .slice (.any none) 0 [])])])]

end models

/-! ## `utils`: requests, responses and the cookie store -/

namespace utils

/-- An `http.Cookie`, reduced to its name and value. -/
structure Cookie where
  Name : List Char
  Value : List Char
  deriving DecidableEq

/-- Go `HeaderPair`. -/
structure HeaderPair where
  Key : List Char
  Value : List Char
  deriving DecidableEq

/-- Go `RequestConfig`; `Body` is `none` for a nil reader. -/
structure RequestConfig where
  Method : List Char
  URL : List Char
  Body : Option (List Char)
  Headers : List HeaderPair
  deriving DecidableEq

/-- The `*http.Request` handed to the transport.  `Header` is the header map
`map[string][]string`, an association list with one entry per key: `Header.Set`
leaves one value under the canonical form of a key, and the two order lists are
the entries that `MakeRequest` stores under `http.HeaderOrderKey` and
`http.PHeaderOrderKey` of the same map. -/
structure Request where
  Method : List Char
  URL : List Char
  Body : Option (List Char)
  Header : List (List Char × List (List Char))
  deriving DecidableEq

/-- The `*http.Response` returned by the transport: its status code, the
cookies of its `Set-Cookie` headers (those that parse, in order), and the
outcome of reading its body with `io.ReadAll`. -/
structure Response where
  StatusCode : Int
  Cookies : List Cookie
  Body : Except Error (List Char)

/-- A `tlsClient.HttpClient`: `Do n req` is its answer to `req` when `n`
requests have been handed to the transport before. -/
structure HttpClient where
  Do : Nat → Request → Except Error Response

/-- Go `validHeaderFieldByte(c)` of `net/textproto`: the characters of an HTTP
token: digits, letters, and the punctuation marks with the codes 33, 35 to 39,
42, 43, 45, 46, 94 to 96, 124 and 126. -/
def validHeaderFieldByte (c : Char) : Bool :=
  let n := c.toNat
  (48 ≤ n && n ≤ 57) || (65 ≤ n && n ≤ 90) || (97 ≤ n && n ≤ 122) ||
    n == 33 || (35 ≤ n && n ≤ 39) || n == 42 || n == 43 || n == 45 || n == 46 ||
    (94 ≤ n && n ≤ 96) || n == 124 || n == 126

/-- The loop of Go `canonicalMIMEHeaderKey`: the first letter and every letter
after a dash become upper case, the other letters lower case; `upper` says
whether the next character follows a dash. -/
def canonicalLoop : Bool → List Char → List Char
  | _, [] => []
  | upper, c :: cs =>
    let c1 : Char :=
      if upper = true ∧ 97 ≤ c.toNat ∧ c.toNat ≤ 122 then Char.ofNat (c.toNat - 32)
      else if upper = false ∧ 65 ≤ c.toNat ∧ c.toNat ≤ 90 then Char.ofNat (c.toNat + 32)
      else c
    c1 :: canonicalLoop (c1 == '-') cs

/-- Go `textproto.CanonicalMIMEHeaderKey(s)`: a key with a character that is
not valid in a header field is returned unchanged, every other key in its
canonical form (`x-csrf-token` becomes `X-Csrf-Token`). -/
def CanonicalMIMEHeaderKey (s : List Char) : List Char :=
  if s.all validHeaderFieldByte then canonicalLoop true s else s

/-- The constant `http.HeaderOrderKey` of the HTTP library: the key of the
header map under which the transport looks for the order of the headers. -/
def HeaderOrderKey : List Char := "Header-Order:".toList

/-- The constant `http.PHeaderOrderKey` of the HTTP library: the key of the
header map under which the transport looks for the order of the pseudo
headers. -/
def PHeaderOrderKey : List Char := "PHeader-Order:".toList

/-- The assignment `h[key] = values` on a header map. -/
def headerAssign : List (List Char × List (List Char)) → List Char → List (List Char) →
    List (List Char × List (List Char))
  | [], key, values => [(key, values)]
  | e :: es, key, values =>
    if e.1 = key then (key, values) :: es else e :: headerAssign es key values

/-- The lookup `h[key]` on a header map: the values under the key (none when
the key is absent). -/
def headerIndex : List (List Char × List (List Char)) → List Char → List (List Char)
  | [], _ => []
  | e :: es, key => if e.1 = key then e.2 else headerIndex es key

/-- Go `h.Set(key, value)` on a header map: the canonical form of the key now
has this one value. -/
def headerSet (h : List (List Char × List (List Char))) (key value : List Char) :
    List (List Char × List (List Char)) :=
  headerAssign h (CanonicalMIMEHeaderKey key) [value]

/-- Go `h.Get(key)` on a header map: the first value under the canonical form
of the key ("" when there is none). -/
def headerGet (h : List (List Char × List (List Char))) (key : List Char) : List Char :=
  match headerIndex h (CanonicalMIMEHeaderKey key) with
  | [] => []
  | v :: _ => v

/-- Go `DefaultConfig()`: the common request headers and their order. -/
def DefaultConfig : RequestConfig :=
  { Method := []
    URL := []
    Body := none
    Headers :=
      [⟨"accept".toList, "*/*".toList⟩,
       ⟨"accept-encoding".toList, "gzip, deflate, br".toList⟩,
       ⟨"content-type".toList, "application/x-www-form-urlencoded".toList⟩,
       ⟨"origin".toList, "https://twitter.com".toList⟩,
       ⟨"sec-ch-ua-mobile".toList, "?0".toList⟩,
       ⟨"sec-ch-ua-platform".toList, "\"Windows\"".toList⟩,
       ⟨"sec-fetch-dest".toList, "empty".toList⟩,
       ⟨"sec-fetch-mode".toList, "cors".toList⟩,
       ⟨"sec-fetch-site".toList, "same-origin".toList⟩,
       ⟨"user-agent".toList, models.UserAgent⟩] }

/-- Modelled from the spec: the cookie store `CookieClient` (its source file is
not part of the sources at hand).  A mapping from cookie name to value, names
unique, kept in the order of first insertion. -/
structure CookieClient where
  cookies : List Cookie
  deriving DecidableEq

/-- Modelled from the spec: `NewCookieClient()`, the empty cookie store. -/
def NewCookieClient : CookieClient := ⟨[]⟩

/-- Modelled from the spec: `set(name, value)` on the list of cookies, an
upsert where the last write wins. -/
def upsertCookie : List Cookie → Cookie → List Cookie
  | [], k => [k]
  | x :: xs, k => if x.Name = k.Name then k :: xs else x :: upsertCookie xs k

/-- Modelled from the spec: `set(name, value)`, an upsert where the last write
wins. -/
def CookieClient.set (c : CookieClient) (k : Cookie) : CookieClient :=
  ⟨upsertCookie c.cookies k⟩

/-- Modelled from the spec: `AddCookies(cookies)`, one `set` per cookie, in
order. -/
def CookieClient.AddCookies (c : CookieClient) (ks : List Cookie) : CookieClient :=
  ks.foldl CookieClient.set c

/-- Modelled from the spec: `SetCookieFromResponse(resp)`, one `set` per
`Set-Cookie` directive of the response. -/
def CookieClient.SetCookieFromResponse (c : CookieClient) (resp : Response) : CookieClient :=
  resp.Cookies.foldl CookieClient.set c

/-- Modelled from the spec: the point lookup `get(name) -> (value, found)` on
the list of cookies. -/
def lookupCookie : List Cookie → List Char → Option (List Char)
  | [], _ => none
  | x :: xs, name => if x.Name = name then some x.Value else lookupCookie xs name

/-- Modelled from the spec: `GetCookieValue(name)`, the point lookup
`get(name) -> (value, found)`. -/
def CookieClient.GetCookieValue (c : CookieClient) (name : List Char) : Option (List Char) :=
  lookupCookie c.cookies name

/-- Modelled from the spec: `CookiesToHeader()`, the store rendered as
`name=value; name=value`. -/
def CookieClient.CookiesToHeader (c : CookieClient) : List Char :=
  strings.Join (c.cookies.map (fun x => x.Name ++ ['='] ++ x.Value)) "; ".toList

/-- Go `IsNumeric(s)`: no character of `s` lies outside `'0'..'9'`. -/
def IsNumeric (s : List Char) : Bool :=
  s.all (fun c => !(decide (c.toNat < 48) || decide (c.toNat > 57)))

end utils

/-! ## The environment -/

/-- The history of the interaction with the outside: the requests handed to the
transport so far, and how many HTTP clients and random tokens were asked for. -/
structure World where
  sent : List utils.Request
  clients : Nat
  randomReads : Nat
  deriving DecidableEq

/-- The external capabilities.
* `NewRequest method url` is the error of `http.NewRequest` (`none`: no error).
* `NewHttpClient n proxy` is the outcome of the `n`-th call of
  `tlsClient.NewHttpClient` (counting from 0) with the options of
  `CreateHttpClient`, `proxy` being the proxy URL option when there is one.
* `RandRead n` is the outcome of the `n`-th call of `crypto/rand.Read` on a
  16-byte buffer: an error or the 16 bytes.
* `Marshal v` is `json.Marshal` applied to the Go value that renders as `v`. -/
structure Env where
  NewRequest : List Char → List Char → Option Error
  NewHttpClient : Nat → Option (List Char) → Except Error utils.HttpClient
  RandRead : Nat → Except Error (Fin 16 → Fin 256)
  Marshal : json.Value → Except Error (List Char)

namespace utils

/-- Go `CreateHttpClient(proxies)`. -/
def CreateHttpClient (env : Env) (proxies : List Char) (w : World) :
    Except Error HttpClient × World :=
  let proxyOption : Option (List Char) :=
    if proxies ≠ [] then some ("http://".toList ++ proxies) else none
  (env.NewHttpClient w.clients proxyOption, { w with clients := w.clients + 1 })

/-- The request that `MakeRequest` assembles from a request configuration: the
headers are set one after the other with `Header.Set`, then the list of the
keys as they come is stored under `http.HeaderOrderKey` and the four pseudo
header names under `http.PHeaderOrderKey`, both by plain assignments to the
same header map. -/
def buildRequest (config : RequestConfig) : Request :=
  { Method := config.Method
    URL := config.URL
    Body := config.Body
    Header :=
      headerAssign
        (headerAssign (config.Headers.foldl (fun h p => headerSet h p.Key p.Value) [])
          HeaderOrderKey (config.Headers.map (fun p => p.Key)))
        PHeaderOrderKey
        [":authority".toList, ":method".toList, ":path".toList, ":scheme".toList] }

/-- Go `MakeRequest(client, config)`.  The result is the run-time failure of a
nil client, or the pair `(bodyBytes, resp)` of a nil error, or the error; the
request is recorded in the world when it reaches the transport. -/
def MakeRequest (env : Env) (client : Option HttpClient) (config : RequestConfig) (w : World) :
    Except Panic (Except Error (List Char × Response) × World) :=
  match env.NewRequest config.Method config.URL with
  | some err => .ok (.error (.Wrap "failed to build request: ".toList err), w)
  | none =>
    match client with
    | none => .error .nilDereference
    | some c =>
      let w1 : World := { w with sent := w.sent ++ [buildRequest config] }
      match c.Do w.sent.length (buildRequest config) with
      | .error err => .ok (.error (.Wrap "failed to do request: ".toList err), w1)
      | .ok resp =>
        match resp.Body with
        | .error err => .ok (.error (.Wrap "failed to read response body: ".toList err), w1)
        | .ok bodyBytes => .ok (.ok (bodyBytes, resp), w1)

end utils

/-! ## `twitter_utils` -/

namespace twitter_utils

/-- Lower-case hexadecimal digit. -/
def hexDigit (n : Nat) : Char :=
  if n < 10 then Char.ofNat (48 + n) else Char.ofNat (87 + n)

/-- Go `hex.EncodeToString(bytes)`. -/
def EncodeToString (bytes : List (Fin 256)) : List Char :=
  bytes.flatMap (fun b => [hexDigit (b.val / 16), hexDigit (b.val % 16)])

/-- Go `GenerateCSRFToken()`: 16 random bytes in hexadecimal. -/
def GenerateCSRFToken (env : Env) (w : World) : Except Error (List Char) × World :=
  let w1 : World := { w with randomReads := w.randomReads + 1 }
  match env.RandRead w.randomReads with
  | .error err => (.error (.Wrap "failed to generate random bytes: ".toList err), w1)
  | .ok bytes => (.ok (EncodeToString (List.ofFn bytes)), w1)

end twitter_utils

/-! ## `client/addons` -/

namespace addons

open strings models utils

/-- Go `ExtractTweetID(tweetLink, username, logger)`; the last two arguments
only feed the log.  The result is the pair `(tweetID, err)` or the run-time
failure of an index out of range. -/
def ExtractTweetID (tweetLink : List Char) : Except Panic (List Char × Option Error) :=
  let tweetLink := TrimSpace tweetLink
  if Contains tweetLink "tweet_id=".toList then
    match index (Split tweetLink "tweet_id=".toList) 1 with
    | .error p => .error p
    | .ok part =>
      match index (Split part "&".toList) 0 with
      | .error p => .error p
      | .ok tweetID => .ok (tweetID, none)
  else if Contains tweetLink "?".toList then
    match index (Split tweetLink "status/".toList) 1 with
    | .error p => .error p
    | .ok part =>
      match index (Split part "?".toList) 0 with
      | .error p => .error p
      | .ok tweetID => .ok (tweetID, none)
  else if Contains tweetLink "status/".toList then
    match index (Split tweetLink "status/".toList) 1 with
    | .error p => .error p
    | .ok tweetID => .ok (tweetID, none)
  else
    .ok ([], some (.New ("failed to get tweet ID from your link: ".toList ++ tweetLink)))

/-- The zero value of the local `cookiesJson []map[string]string`. -/
def cookiesJson : json.GoValue :=
  .slice (.map (.string []) none) 0 []

/-- One turn of the loop of `SetAuthCookies` over the decoded cookies: the
state is the cookie store, `csrfToken` and `authToken`. -/
def setAuthCookiesStep (st : CookieClient × List Char × List Char) (cookie : json.GoValue) :
    CookieClient × List Char × List Char :=
  match cookie.lookup "name".toList with
  | some name =>
    let value : List Char :=
      match cookie.lookup "value".toList with
      | some v => v.str
      | none => []
    let store := st.1.AddCookies [⟨name.str, value⟩]
    let csrfToken := if name.str = "ct0".toList then value else st.2.1
    let authToken := if name.str = "auth_token".toList then value else st.2.2
    (store, csrfToken, authToken)
  | none => st

/-- Go `SetAuthCookies(accountIndex, cookieClient, twitterAuth)`: the triple
`(authToken, csrfToken, err)` together with the cookie store and the world
after the call. -/
def SetAuthCookies (env : Env) (accountIndex : Int) (cookieClient : CookieClient)
    (twitterAuth : List Char) (w : World) :
    Except Panic ((List Char × List Char × Option Error) × CookieClient × World) :=
  if Contains twitterAuth "[".toList && Contains twitterAuth "]".toList then
    match index (Split twitterAuth "[".toList) 1 with
    | .error p => .error p
    | .ok afterOpen =>
      match index (Split afterOpen "]".toList) 0 with
      | .error p => .error p
      | .ok jsonPart =>
        match json.Unmarshal jsonPart cookiesJson with
        | .error e =>
          .ok (([], [], some (.Fmt (fmtInt accountIndex ++
            " | Failed to decode account json cookies: ".toList) (.Json e))), cookieClient, w)
        | .ok decoded =>
          let st := decoded.elems.foldl setAuthCookiesStep (cookieClient, [], [])
          if st.2.1 = [] then
            .ok (([], [], some (.New "failed to get csrf token".toList)), st.1, w)
          else .ok ((st.2.2, st.2.1, none), st.1, w)
  else if byteLen twitterAuth < 60 then
    match twitter_utils.GenerateCSRFToken env w with
    | (.error err, w1) =>
      .ok (([], [], some (.Fmt (fmtInt accountIndex ++
        " | Failed to generate CSRF token: ".toList) err)), cookieClient, w1)
    | (.ok csrfToken, w1) =>
      let store := cookieClient.AddCookies
        [⟨"auth_token".toList, twitterAuth⟩, ⟨"ct0".toList, csrfToken⟩,
         ⟨"des_opt_in".toList, "Y".toList⟩]
      if csrfToken = [] then
        .ok (([], [], some (.New "failed to get csrf token".toList)), store, w1)
      else .ok ((twitterAuth, csrfToken, none), store, w1)
  else
    .ok (([], [], some (.New "failed to get csrf token".toList)), cookieClient, w)

/-- The zero value of `getUsernameJSON`. -/
def getUsernameJSON : json.GoValue :=
  .struct
    [("data".toList,
        .struct
          [("viewer".toList,
              .struct
                [("user_results".toList,
                    .struct
                      [("result".toList,
                          .struct
                            [("legacy".toList,
                                .struct [("screen_name".toList, .string [])])])])])])]

/-- The selector `responseData.Data.Viewer.UserResults.Result.Legacy.ScreenName`. -/
def screenNameOf (responseData : json.GoValue) : List Char :=
  ((((((responseData.field "data".toList).field "viewer".toList).field
    "user_results".toList).field "result".toList).field "legacy".toList).field
    "screen_name".toList).str

/-- The request of `GetTwitterUsername`: the `Viewer` query with the cookie
header of the store and the given CSRF token. -/
def viewerRequest (config : Config) (cookieClient : CookieClient) (csrfToken : List Char) :
    RequestConfig :=
  let params := ((url.Values.empty.Add "variables".toList
      "\x7b\"withCommunitiesMemberships\":true\x7d".toList).Add "features".toList
      "\x7b\"rweb_tipjar_consumption_enabled\":true,\"responsive_web_graphql_exclude_directive_enabled\":true,\"verified_phone_label_enabled\":false,\"creator_subscriptions_tweet_preview_api_enabled\":true,\"responsive_web_graphql_skip_user_profile_image_extensions_enabled\":false,\"responsive_web_graphql_timeline_navigation_enabled\":true\x7d".toList).Add "fieldToggles".toList
      "\x7b\"isDelegate\":false,\"withAuxiliaryUserLabels\":false\x7d".toList
  { DefaultConfig with
    Method := "GET".toList
    URL := "https://api.x.com/graphql/UhddhjWCl-JMqeiG4vPtvw/Viewer".toList ++ "?".toList ++
      params.Encode
    Headers := DefaultConfig.Headers ++
      [⟨"authorization".toList, config.Constants.BearerToken⟩,
       ⟨"cookie".toList, cookieClient.CookiesToHeader⟩,
       ⟨"origin".toList, "https://twitter.com".toList⟩,
       ⟨"referer".toList, "https://twitter.com/".toList⟩,
       ⟨"x-csrf-token".toList, csrfToken⟩,
       ⟨"x-twitter-active-user".toList, "no".toList⟩,
       ⟨"user-agent".toList, UserAgent⟩] }

/-- The loop of `GetTwitterUsername` with `n` turns left.  The result is the
tuple `(username, newCsrfToken, err, status)` with the cookie store and the
world after the call. -/
def getTwitterUsernameLoop (env : Env) (httpClient : Option HttpClient) (config : Config)
    (csrfToken : List Char) :
    Nat → CookieClient → World →
    Except Panic ((List Char × List Char × Option Error × ActionStatus) × CookieClient × World)
  | 0, cookieClient, w => .ok (([], [], some .ErrUnknown, .StatusUnknown), cookieClient, w)
  | n + 1, cookieClient, w =>
    match MakeRequest env httpClient (viewerRequest config cookieClient csrfToken) w with
    | .error p => .error p
    | .ok (.error _, w1) => getTwitterUsernameLoop env httpClient config csrfToken n cookieClient w1
    | .ok (.ok (bodyBytes, resp), w1) =>
      let store := cookieClient.SetCookieFromResponse resp
      match store.GetCookieValue "ct0".toList with
      | none => getTwitterUsernameLoop env httpClient config csrfToken n store w1
      | some newCsrfToken =>
        if Contains bodyBytes "screen_name".toList then
          match json.Unmarshal bodyBytes getUsernameJSON with
          | .error _ => getTwitterUsernameLoop env httpClient config csrfToken n store w1
          | .ok responseData =>
            .ok ((screenNameOf responseData, newCsrfToken, none, .StatusSuccess), store, w1)
        else if Contains bodyBytes "this account is temporarily locked".toList then
          .ok (([], newCsrfToken, some .ErrAccountLocked, .StatusLocked), store, w1)
        else if Contains bodyBytes "Could not authenticate you".toList then
          .ok (([], newCsrfToken, some .ErrInvalidToken, .StatusAuthError), store, w1)
        else getTwitterUsernameLoop env httpClient config csrfToken n store w1

/-- Go `GetTwitterUsername(httpClient, cookieClient, config, logger, csrfToken)`:
the loop runs for `i = 0 .. MaxRetries - 1`. -/
def GetTwitterUsername (env : Env) (httpClient : Option HttpClient) (cookieClient : CookieClient)
    (config : Config) (csrfToken : List Char) (w : World) :
    Except Panic ((List Char × List Char × Option Error × ActionStatus) × CookieClient × World) :=
  getTwitterUsernameLoop env httpClient config csrfToken config.MaxRetries.toNat cookieClient w

end addons

/-! ## `client` -/

namespace client

open strings models utils

/-- Go `Twitter`, the client instance.  `Client` is `none` while the interface
value is nil; the logger is left out.  `Account` and `Cookies` are pointers in
Go: every function below returns the `Twitter` value it leaves behind. -/
structure Twitter where
  Account : Account
  Client : Option HttpClient
  Config : Config
  Cookies : CookieClient

/-- Go `NewAccount(authToken, ct0, proxy)`. -/
def NewAccount (authToken ct0 proxy : List Char) : Account :=
  { AuthToken := authToken, Ct0 := ct0, Proxy := proxy, Username := [] }

/-- The block `// Update cookies` that follows every request that returned
without error: the response's cookies are merged into the store, and
`Account.Ct0` is overwritten when the store holds a `ct0` cookie. -/
def Twitter.updateCookies (t : Twitter) (resp : Response) : Twitter :=
  let store := t.Cookies.SetCookieFromResponse resp
  match store.GetCookieValue "ct0".toList with
  | some newCt0 => { t with Cookies := store, Account := { t.Account with Ct0 := newCt0 } }
  | none => { t with Cookies := store }

/-- The `switch` under `// Handle error responses` that ends every action. -/
def errorResponse (bodyString : List Char) : ActionResponse :=
  if Contains bodyString "this account is temporarily locked".toList then
    { Success := false, Error := some .ErrAccountLocked, Status := .StatusLocked }
  else if Contains bodyString "Could not authenticate you".toList then
    { Success := false, Error := some .ErrAuthFailed, Status := .StatusAuthError }
  else
    { Success := false
      Error := some (.New ("unknown response: ".toList ++ bodyString))
      Status := .StatusUnknown }

/-- The block `// Extract tweet ID if URL was provided` that opens `Like`,
`Retweet`, `Comment` and `VotePoll`: the tweet ID to use, or the response to
return at once. -/
def resolveTweetID (tweetID : List Char) : Except Panic (ActionResponse ⊕ List Char) :=
  if Contains tweetID "twitter.com".toList || Contains tweetID "x.com".toList then
    match addons.ExtractTweetID tweetID with
    | .error p => .error p
    | .ok (_, some err) =>
      .ok (.inl { Success := false
                  Error := some (.Wrap "invalid tweet URL: ".toList err)
                  Status := .StatusUnknown })
    | .ok (extracted, none) => .ok (.inr extracted)
  else .ok (.inr tweetID)

/-- The action headers shared by `Like` and `Retweet`. -/
def graphqlHeaders (t : Twitter) : List HeaderPair :=
  [⟨"accept".toList, "*/*".toList⟩,
   ⟨"authorization".toList, t.Config.Constants.BearerToken⟩,
   ⟨"content-type".toList, "application/json".toList⟩,
   ⟨"cookie".toList, t.Cookies.CookiesToHeader⟩,
   ⟨"origin".toList, "https://twitter.com".toList⟩,
   ⟨"x-csrf-token".toList, t.Account.Ct0⟩,
   ⟨"x-twitter-active-user".toList, "yes".toList⟩,
   ⟨"x-twitter-auth-type".toList, "OAuth2Session".toList⟩]

/-! ### `init` and `NewTwitter` -/

/-- The loop of `init` with `n` turns left, `i` being the loop counter.  The
result is the error returned (`none` for nil) with the client and the world
left behind. -/
def initLoop (env : Env) :
    Nat → Int → Twitter → World → Except Panic (Option Error × Twitter × World)
  | 0, _, t, w =>
    .ok (some (.New ("failed to initialize after ".toList ++ fmtInt t.Config.MaxRetries ++
      " retries".toList)), t, w)
  | n + 1, i, t, w =>
    match CreateHttpClient env t.Account.Proxy w with
    | (.error _, w1) => initLoop env n (i + 1) t w1
    | (.ok client, w1) =>
      let t1 : Twitter := { t with Client := some client }
      match addons.SetAuthCookies env i t1.Cookies t1.Account.AuthToken w1 with
      | .error p => .error p
      | .ok ((_, _, some _), store, w2) => initLoop env n (i + 1) { t1 with Cookies := store } w2
      | .ok ((authToken, ct0, none), store, w2) =>
        let t2 : Twitter :=
          { t1 with Cookies := store
                    Account := { t1.Account with AuthToken := authToken, Ct0 := ct0 } }
        match addons.GetTwitterUsername env t2.Client t2.Cookies t2.Config t2.Account.Ct0 w2 with
        | .error p => .error p
        | .ok ((username, newCsrfToken, err, status), store3, w3) =>
          let t3 : Twitter := { t2 with Cookies := store3 }
          let updated : Twitter :=
            { t3 with Account := { t3.Account with Username := username, Ct0 := newCsrfToken } }
          match err with
          | some e =>
            match status with
            | .StatusLocked => .ok (some (.Wrap "account is locked: ".toList e), t3, w3)
            | .StatusAuthError => .ok (some (.Wrap "authentication failed: ".toList e), t3, w3)
            | .StatusInvalidToken => .ok (some (.Wrap "invalid token: ".toList e), t3, w3)
            | .StatusUnknown => initLoop env n (i + 1) t3 w3
            | _ => .ok (none, updated, w3)
          | none => .ok (none, updated, w3)

/-- Go `(t *Twitter).init()`: the loop runs for `i = 0 .. MaxRetries - 1`. -/
def init (env : Env) (t : Twitter) (w : World) : Except Panic (Option Error × Twitter × World) :=
  initLoop env t.Config.MaxRetries.toNat 0 t w

/-- Go `NewTwitter(account, config)`; a nil `config` is `none`.  The result is
the pair `(twitter, err)` returned, reading `(nil, err)` as `(none, some err)`;
the client left behind by `init` is returned too, because the account is
shared with the caller by pointer. -/
def NewTwitter (env : Env) (account : Account) (config : Option Config) (w : World) :
    Except Panic ((Option Twitter × Option Error) × Twitter × World) :=
  let config := config.getD NewConfig
  let twitter : Twitter :=
    { Account := account, Client := none, Config := config, Cookies := NewCookieClient }
  match init env twitter w with
  | .error p => .error p
  | .ok (some err, t, w1) =>
    .ok ((none, some (.Wrap "failed to initialize Twitter client: ".toList err)), t, w1)
  | .ok (none, t, w1) => .ok ((some t, none), t, w1)

/-! ### `Like` -/

/-- The request built by `Like`. -/
def LikeRequest (t : Twitter) (tweetID : List Char) : RequestConfig :=
  { DefaultConfig with
    Method := "POST".toList
    URL := "https://twitter.com/i/api/graphql/".toList ++ t.Config.Constants.QueryID.Like ++
      "/FavoriteTweet".toList
    Body := some ("\x7b\"variables\":\x7b\"tweet_id\":\"".toList ++ tweetID ++
      "\"\x7d,\"queryId\":\"".toList ++ t.Config.Constants.QueryID.Like ++ "\"\x7d".toList)
    Headers := DefaultConfig.Headers ++ graphqlHeaders t }

/-- The part of `Like` after `// Update cookies`: the response returned for a
status code and body. -/
def LikeResult (statusCode : Int) (bodyBytes : List Char) : ActionResponse :=
  if statusCode ≥ 200 ∧ statusCode ≤ 299 then
    if Contains bodyBytes "already".toList then
      { Success := true, Error := none, Status := .StatusAlreadyDone }
    else
      match json.Unmarshal bodyBytes LikeGraphQLResponse with
      | .error e => { Success := false, Error := some (.Json e), Status := .StatusUnknown }
      | .ok response =>
        if ((response.field "data".toList).field "favorite_tweet".toList).str = "Done".toList then
          { Success := true, Error := none, Status := .StatusSuccess }
        else
          { Success := false
            Error := some (.New ("unexpected response: ".toList ++
              ((response.field "data".toList).field "favorite_tweet".toList).str))
            Status := .StatusUnknown }
  else errorResponse bodyBytes

/-- Go `(t *Twitter).Like(tweetID)`. -/
def Like (env : Env) (tweetID : List Char) (t : Twitter) (w : World) :
    Except Panic (ActionResponse × Twitter × World) :=
  match resolveTweetID tweetID with
  | .error p => .error p
  | .ok (.inl r) => .ok (r, t, w)
  | .ok (.inr tweetID) =>
    match MakeRequest env t.Client (LikeRequest t tweetID) w with
    | .error p => .error p
    | .ok (.error err, w1) =>
      .ok ({ Success := false, Error := some err, Status := .StatusUnknown }, t, w1)
    | .ok (.ok (bodyBytes, resp), w1) =>
      .ok (LikeResult resp.StatusCode bodyBytes, t.updateCookies resp, w1)

/-! ### `Retweet` -/

/-- The request built by `Retweet`. -/
def RetweetRequest (t : Twitter) (tweetID : List Char) : RequestConfig :=
  { DefaultConfig with
    Method := "POST".toList
    URL := "https://twitter.com/i/api/graphql/".toList ++ t.Config.Constants.QueryID.Retweet ++
      "/CreateRetweet".toList
    Body := some ("\x7b\"variables\":\x7b\"tweet_id\":\"".toList ++ tweetID ++
      "\",\"dark_request\":false\x7d,\"queryId\":\"".toList ++
      t.Config.Constants.QueryID.Retweet ++ "\"\x7d".toList)
    Headers := DefaultConfig.Headers ++ graphqlHeaders t }

/-- The selector `response.Data.CreateRetweet.RetweetResults.Result.RestID`. -/
def retweetRestID (response : json.GoValue) : List Char :=
  (((((response.field "data".toList).field "create_retweet".toList).field
    "retweet_results".toList).field "result".toList).field "rest_id".toList).str

/-- The part of `Retweet` after `// Update cookies`. -/
def RetweetResult (statusCode : Int) (bodyBytes : List Char) : ActionResponse :=
  if statusCode ≥ 200 ∧ statusCode ≤ 299 then
    if Contains bodyBytes "already".toList then
      { Success := true, Error := none, Status := .StatusAlreadyDone }
    else
      match json.Unmarshal bodyBytes RetweetGraphQLResponse with
      | .error e => { Success := false, Error := some (.Json e), Status := .StatusUnknown }
      | .ok response =>
        if retweetRestID response ≠ [] then
          { Success := true, Error := none, Status := .StatusSuccess }
        else errorResponse bodyBytes
  else errorResponse bodyBytes

/-- Go `(t *Twitter).Retweet(tweetID)`. -/
def Retweet (env : Env) (tweetID : List Char) (t : Twitter) (w : World) :
    Except Panic (ActionResponse × Twitter × World) :=
  match resolveTweetID tweetID with
  | .error p => .error p
  | .ok (.inl r) => .ok (r, t, w)
  | .ok (.inr tweetID) =>
    match MakeRequest env t.Client (RetweetRequest t tweetID) w with
    | .error p => .error p
    | .ok (.error err, w1) =>
      .ok ({ Success := false, Error := some err, Status := .StatusUnknown }, t, w1)
    | .ok (.ok (bodyBytes, resp), w1) =>
      .ok (RetweetResult resp.StatusCode bodyBytes, t.updateCookies resp, w1)

/-! ### `Follow` and `Unfollow` -/

/-- The form of `Follow`. -/
def followForm (username : List Char) : url.Values :=
  (((((((((url.Values.empty.Set "include_profile_interstitial_type".toList "1".toList).Set
    "include_blocking".toList "1".toList).Set
    "include_blocked_by".toList "1".toList).Set
    "include_followed_by".toList "1".toList).Set
    "include_want_retweets".toList "1".toList).Set
    "include_mute_edge".toList "1".toList).Set
    "include_can_dm".toList "1".toList).Set
    "include_can_media_tag".toList "1".toList).Set
    "skip_status".toList "1".toList).Set
    "screen_name".toList username

/-- The request built by `Follow`. -/
def FollowRequest (t : Twitter) (username : List Char) : RequestConfig :=
  { DefaultConfig with
    Method := "POST".toList
    URL := "https://twitter.com/i/api/1.1/friendships/create.json".toList
    Body := some (followForm username).Encode
    Headers := DefaultConfig.Headers ++
      [⟨"accept".toList, "*/*".toList⟩,
       ⟨"authorization".toList, t.Config.Constants.BearerToken⟩,
       ⟨"content-type".toList, "application/x-www-form-urlencoded".toList⟩,
       ⟨"cookie".toList, t.Cookies.CookiesToHeader⟩,
       ⟨"origin".toList, "https://twitter.com".toList⟩,
       ⟨"referer".toList, "https://twitter.com/".toList ++ username⟩,
       ⟨"x-csrf-token".toList, t.Account.Ct0⟩,
       ⟨"x-twitter-active-user".toList, "yes".toList⟩,
       ⟨"x-twitter-auth-type".toList, "OAuth2Session".toList⟩] }

/-- The part of `Follow` and of `Unfollow` after `// Update cookies`. -/
def FollowResult (statusCode : Int) (bodyBytes : List Char) : ActionResponse :=
  if statusCode ≥ 200 ∧ statusCode ≤ 299 then
    match json.Unmarshal bodyBytes UserResponse with
    | .error e => { Success := false, Error := some (.Json e), Status := .StatusUnknown }
    | .ok response =>
      if (response.field "screen_name".toList).str ≠ [] then
        { Success := true, Error := none, Status := .StatusSuccess }
      else errorResponse bodyBytes
  else errorResponse bodyBytes

/-- Go `(t *Twitter).Follow(username)`. -/
def Follow (env : Env) (username : List Char) (t : Twitter) (w : World) :
    Except Panic (ActionResponse × Twitter × World) :=
  match MakeRequest env t.Client (FollowRequest t username) w with
  | .error p => .error p
  | .ok (.error err, w1) =>
    .ok ({ Success := false, Error := some err, Status := .StatusUnknown }, t, w1)
  | .ok (.ok (bodyBytes, resp), w1) =>
    .ok (FollowResult resp.StatusCode bodyBytes, t.updateCookies resp, w1)

/-- The zero value of `UserInfoResponse`. -/
def UserInfoResponse : json.GoValue :=
  .struct
    [("data".toList,
        .struct
          [("user".toList,
              .struct
                [("result".toList,
                    .struct
                      [("rest_id".toList, .string []),
                       ("legacy".toList,
                          .struct
                            [("following".toList, .bool false),
                             ("created_at".toList, .string []),
                             ("description".toList, .string []),
                             ("favourites_count".toList, .int 64 0),
                             ("followers_count".toList, .int 64 0),
                             ("friends_count".toList, .int 64 0),
                             ("listed_count".toList, .int 64 0),
                             ("location".toList, .string []),
                             ("media_count".toList, .int 64 0),
                             ("name".toList, .string []),
                             ("normal_followers_count".toList, .int 64 0),
                             ("screen_name".toList, .string []),
                             ("statuses_count".toList, .int 64 0),
                             ("verified".toList, .bool false)]),
                       ("is_blue_verified".toList, .bool false)])])])]

/-- The request built by `GetUserInfoByUsername`. -/
def UserInfoRequest (t : Twitter) (username : List Char) : RequestConfig :=
  let params := ((url.Values.empty.Add "variables".toList
      ("\x7b\"screen_name\":\"".toList ++ username ++ "\"\x7d".toList)).Add "features".toList
      "\x7b\"hidden_profile_subscriptions_enabled\":true, \"subscriptions_feature_can_gift_premium\": true, \"profile_label_improvements_pcf_label_in_post_enabled\":true,\"rweb_tipjar_consumption_enabled\":true,\"responsive_web_graphql_exclude_directive_enabled\":true,\"verified_phone_label_enabled\":false,\"subscriptions_verification_info_is_identity_verified_enabled\":true,\"subscriptions_verification_info_verified_since_enabled\":true,\"highlights_tweets_tab_ui_enabled\":true,\"responsive_web_twitter_article_notes_tab_enabled\":true,\"creator_subscriptions_tweet_preview_api_enabled\":true,\"responsive_web_graphql_skip_user_profile_image_extensions_enabled\":false,\"responsive_web_graphql_timeline_navigation_enabled\":true\x7d".toList).Add "fieldToggles".toList
      "\x7b\"withAuxiliaryUserLabels\":false\x7d".toList
  { DefaultConfig with
    Method := "GET".toList
    URL := "https://x.com/i/api/graphql/32pL5BWe9WKeSK1MoPvFQQ/UserByScreenName".toList ++
      "?".toList ++ params.Encode
    Headers := DefaultConfig.Headers ++
      [⟨"accept".toList, "*/*".toList⟩,
       ⟨"authorization".toList, t.Config.Constants.BearerToken⟩,
       ⟨"content-type".toList, "application/json".toList⟩,
       ⟨"cookie".toList, t.Cookies.CookiesToHeader⟩,
       ⟨"referer".toList, "https://x.com/".toList ++ username⟩,
       ⟨"x-csrf-token".toList, t.Account.Ct0⟩,
       ⟨"x-twitter-active-user".toList, "no".toList⟩,
       ⟨"x-twitter-auth-type".toList, "OAuth2Session".toList⟩,
       ⟨"x-twitter-client-language".toList, "en".toList⟩] }

/-- The part of `GetUserInfoByUsername` after `// Update cookies`: the pair
`(info, response)` returned, a nil `info` being `none`. -/
def UserInfoResult (statusCode : Int) (bodyBytes : List Char) :
    Option json.GoValue × ActionResponse :=
  if statusCode ≥ 200 ∧ statusCode ≤ 299 ∧ Contains bodyBytes "screen_name".toList then
    match json.Unmarshal bodyBytes UserInfoResponse with
    | .error e => (none, { Success := false, Error := some (.Json e), Status := .StatusUnknown })
    | .ok response =>
      if ((((((response.field "data".toList).field "user".toList).field "result".toList).field
          "legacy".toList).field "screen_name".toList).str) ≠ [] then
        (some response, { Success := true, Error := none, Status := .StatusSuccess })
      else (none, errorResponse bodyBytes)
  else (none, errorResponse bodyBytes)

/-- Go `(t *Twitter).GetUserInfoByUsername(username)`. -/
def GetUserInfoByUsername (env : Env) (username : List Char) (t : Twitter) (w : World) :
    Except Panic ((Option json.GoValue × ActionResponse) × Twitter × World) :=
  match MakeRequest env t.Client (UserInfoRequest t username) w with
  | .error p => .error p
  | .ok (.error err, w1) =>
    .ok ((none, { Success := false, Error := some err, Status := .StatusUnknown }), t, w1)
  | .ok (.ok (bodyBytes, resp), w1) =>
    .ok (UserInfoResult resp.StatusCode bodyBytes, t.updateCookies resp, w1)

/-- The form of `Unfollow`. -/
def unfollowForm (userID : List Char) : url.Values :=
  ((((((((((((url.Values.empty.Set "include_profile_interstitial_type".toList "1".toList).Set
    "include_blocking".toList "1".toList).Set
    "include_blocked_by".toList "1".toList).Set
    "include_followed_by".toList "1".toList).Set
    "include_want_retweets".toList "1".toList).Set
    "include_mute_edge".toList "1".toList).Set
    "include_can_dm".toList "1".toList).Set
    "include_can_media_tag".toList "1".toList).Set
    "include_ext_is_blue_verified".toList "1".toList).Set
    "include_ext_verified_type".toList "1".toList).Set
    "include_ext_profile_image_shape".toList "1".toList).Set
    "skip_status".toList "1".toList).Set
    "user_id".toList userID

/-- The request built by `Unfollow` for a numeric user ID. -/
def UnfollowRequest (t : Twitter) (userID : List Char) : RequestConfig :=
  { DefaultConfig with
    Method := "POST".toList
    URL := "https://x.com/i/api/1.1/friendships/destroy.json".toList
    Body := some (unfollowForm userID).Encode
    Headers := DefaultConfig.Headers ++
      [⟨"accept".toList, "*/*".toList⟩,
       ⟨"authorization".toList, t.Config.Constants.BearerToken⟩,
       ⟨"content-type".toList, "application/x-www-form-urlencoded".toList⟩,
       ⟨"cookie".toList, t.Cookies.CookiesToHeader⟩,
       ⟨"origin".toList, "https://x.com".toList⟩,
       ⟨"x-csrf-token".toList, t.Account.Ct0⟩,
       ⟨"x-twitter-active-user".toList, "yes".toList⟩,
       ⟨"x-twitter-auth-type".toList, "OAuth2Session".toList⟩] }

/-- The part of `Unfollow` from `// Build URL and request body` on, for the
user ID settled by then. -/
def unfollowByID (env : Env) (userID : List Char) (t : Twitter) (w : World) :
    Except Panic (ActionResponse × Twitter × World) :=
  match MakeRequest env t.Client (UnfollowRequest t userID) w with
  | .error p => .error p
  | .ok (.error err, w1) =>
    .ok ({ Success := false, Error := some err, Status := .StatusUnknown }, t, w1)
  | .ok (.ok (bodyBytes, resp), w1) =>
    .ok (FollowResult resp.StatusCode bodyBytes, t.updateCookies resp, w1)

/-- Go `(t *Twitter).Unfollow(userIDOrUsername)`. -/
def Unfollow (env : Env) (userIDOrUsername : List Char) (t : Twitter) (w : World) :
    Except Panic (ActionResponse × Twitter × World) :=
  if !IsNumeric userIDOrUsername then
    match GetUserInfoByUsername env userIDOrUsername t w with
    | .error p => .error p
    | .ok ((info, resp), t1, w1) =>
      if !resp.Success then .ok (resp, t1, w1)
      else
        match info with
        | none => .error .nilDereference
        | some i =>
          unfollowByID env
            ((((i.field "data".toList).field "user".toList).field "result".toList).field
              "rest_id".toList).str t1 w1
  else unfollowByID env userIDOrUsername t w

/-! ### `UploadMedia`, `Tweet` and `Comment` -/

/-- The request built by `UploadMedia`. -/
def UploadMediaRequest (t : Twitter) (mediaBase64 : List Char) : RequestConfig :=
  { DefaultConfig with
    Method := "POST".toList
    URL := "https://upload.twitter.com/1.1/media/upload.json".toList
    Body := some (url.Values.empty.Set "media_data".toList mediaBase64).Encode
    Headers := DefaultConfig.Headers ++
      [⟨"authorization".toList, t.Config.Constants.BearerToken⟩,
       ⟨"content-type".toList, "application/x-www-form-urlencoded".toList⟩,
       ⟨"cookie".toList, t.Cookies.CookiesToHeader⟩,
       ⟨"x-csrf-token".toList, t.Account.Ct0⟩] }

/-- Go `(t *Twitter).UploadMedia(mediaBase64)`: the pair `(mediaID, err)`.
When the response carries no `media_id_string` the function returns the `err`
of `MakeRequest`, which is nil at that point. -/
def UploadMedia (env : Env) (mediaBase64 : List Char) (t : Twitter) (w : World) :
    Except Panic ((List Char × Option Error) × Twitter × World) :=
  match MakeRequest env t.Client (UploadMediaRequest t mediaBase64) w with
  | .error p => .error p
  | .ok (.error err, w1) => .ok (([], some err), t, w1)
  | .ok (.ok (bodyBytes, resp), w1) =>
    let t1 := t.updateCookies resp
    match json.Unmarshal bodyBytes MediaUploadResponse with
    | .error e => .ok (([], some (.Json e)), t1, w1)
    | .ok response =>
      if (response.field "media_id_string".toList).str = [] then .ok (([], none), t1, w1)
      else .ok (((response.field "media_id_string".toList).str, none), t1, w1)

/-- Go `TweetOptions`. -/
structure TweetOptions where
  QuoteTweetURL : List Char
  MediaBase64 : List Char

/-- Go `CommentOptions`. -/
structure CommentOptions where
  MediaBase64 : List Char

/-- The value of `variables["media"]` in `Tweet` and `Comment`. -/
def mediaVariable (mediaID : List Char) : json.Value :=
  if mediaID ≠ [] then
    .object
      [("media_entities".toList,
          .array [.object [("media_id".toList, .string mediaID),
                           ("tagged_users".toList, .array [])]]),
       ("possibly_sensitive".toList, .bool false)]
  else
    .object [("media_entities".toList, .array []), ("possibly_sensitive".toList, .bool false)]

/-- The `features` map of `Tweet`. -/
def tweetFeatures : json.Value :=
  .object
    [
     ("tweetypie_unmention_optimization_enabled".toList, .bool true),
     ("responsive_web_edit_tweet_api_enabled".toList, .bool true),
     ("graphql_is_translatable_rweb_tweet_is_translatable_enabled".toList, .bool true),
     ("view_counts_everywhere_api_enabled".toList, .bool true),
     ("longform_notetweets_consumption_enabled".toList, .bool true),
     ("responsive_web_twitter_article_tweet_consumption_enabled".toList, .bool false),
     ("tweet_awards_web_tipping_enabled".toList, .bool false),
     ("freedom_of_speech_not_reach_fetch_enabled".toList, .bool true),
     ("standardized_nudges_misinfo".toList, .bool true),
     ("tweet_with_visibility_results_prefer_gql_limited_actions_policy_enabled".toList, .bool true),
     ("longform_notetweets_rich_text_read_enabled".toList, .bool true),
     ("longform_notetweets_inline_media_enabled".toList, .bool true),
     ("responsive_web_graphql_exclude_directive_enabled".toList, .bool true),
     ("verified_phone_label_enabled".toList, .bool false),
     ("responsive_web_media_download_video_enabled".toList, .bool false),
     ("responsive_web_graphql_skip_user_profile_image_extensions_enabled".toList, .bool false),
     ("responsive_web_graphql_timeline_navigation_enabled".toList, .bool true),
     ("rweb_video_timestamps_enabled".toList, .bool false),
     ("c9s_tweet_anatomy_moderator_badge_enabled".toList, .bool false),
     ("responsive_web_enhance_cards_enabled".toList, .bool false)]

/-- The `features` map of `Comment`. -/
def commentFeatures : json.Value :=
  .object
    [
     ("tweetypie_unmention_optimization_enabled".toList, .bool true),
     ("responsive_web_edit_tweet_api_enabled".toList, .bool true),
     ("graphql_is_translatable_rweb_tweet_is_translatable_enabled".toList, .bool true),
     ("view_counts_everywhere_api_enabled".toList, .bool true),
     ("longform_notetweets_consumption_enabled".toList, .bool true),
     ("responsive_web_twitter_article_tweet_consumption_enabled".toList, .bool false),
     ("tweet_awards_web_tipping_enabled".toList, .bool false),
     ("freedom_of_speech_not_reach_fetch_enabled".toList, .bool true),
     ("standardized_nudges_misinfo".toList, .bool true),
     ("tweet_with_visibility_results_prefer_gql_limited_actions_policy_enabled".toList, .bool true),
     ("longform_notetweets_rich_text_read_enabled".toList, .bool true),
     ("longform_notetweets_inline_media_enabled".toList, .bool true),
     ("responsive_web_graphql_exclude_directive_enabled".toList, .bool true),
     ("verified_phone_label_enabled".toList, .bool false),
     ("responsive_web_media_download_video_enabled".toList, .bool false),
     ("responsive_web_graphql_skip_user_profile_image_extensions_enabled".toList, .bool false),
     ("responsive_web_graphql_timeline_navigation_enabled".toList, .bool true),
     ("c9s_tweet_anatomy_moderator_badge_enabled".toList, .bool true),
     ("responsive_web_enhance_cards_enabled".toList, .bool true),
     ("rweb_video_timestamps_enabled".toList, .bool true)]

/-- The `requestBody` map of `Tweet`. -/
def tweetBody (t : Twitter) (content : List Char) (opts : Option TweetOptions)
    (mediaID : List Char) : json.Value :=
  let vars : List (List Char × json.Value) :=
    [("tweet_text".toList, .string content),
     ("dark_request".toList, .bool false),
     ("semantic_annotation_ids".toList, .array []),
     ("media".toList, mediaVariable mediaID)] ++
    (match opts with
      | some o =>
        if o.QuoteTweetURL ≠ [] then [("attachment_url".toList, .string o.QuoteTweetURL)]
        else []
      | none => [])
  .object
    [("variables".toList, .object vars),
     ("features".toList, tweetFeatures),
     ("queryId".toList, .string t.Config.Constants.QueryID.Tweet)]

/-- The `requestBody` map of `Comment`. -/
def commentBody (t : Twitter) (content tweetID mediaID : List Char) : json.Value :=
  .object
    [("variables".toList,
        .object
          [("tweet_text".toList, .string content),
           ("reply".toList,
              .object [("in_reply_to_tweet_id".toList, .string tweetID),
                       ("exclude_reply_user_ids".toList, .array [])]),
           ("dark_request".toList, .bool false),
           ("semantic_annotation_ids".toList, .array []),
           ("media".toList, mediaVariable mediaID)]),
     ("features".toList, commentFeatures),
     ("queryId".toList, .string t.Config.Constants.QueryID.Tweet)]

/-- The request built by `Tweet` and by `Comment` around the marshalled body. -/
def CreateTweetRequest (t : Twitter) (jsonBody : List Char) : RequestConfig :=
  { DefaultConfig with
    Method := "POST".toList
    URL := "https://twitter.com/i/api/graphql/".toList ++ t.Config.Constants.QueryID.Tweet ++
      "/CreateTweet".toList
    Body := some jsonBody
    Headers := DefaultConfig.Headers ++
      [⟨"accept".toList, "*/*".toList⟩,
       ⟨"authorization".toList, t.Config.Constants.BearerToken⟩,
       ⟨"content-type".toList, "application/json".toList⟩,
       ⟨"cookie".toList, t.Cookies.CookiesToHeader⟩,
       ⟨"origin".toList, "https://twitter.com".toList⟩,
       ⟨"referer".toList, "https://twitter.com/compose/tweet".toList⟩,
       ⟨"x-csrf-token".toList, t.Account.Ct0⟩,
       ⟨"x-twitter-active-user".toList, "yes".toList⟩,
       ⟨"x-twitter-auth-type".toList, "OAuth2Session".toList⟩] }

/-- The selector `response.Data.CreateTweet.TweetResults.Result.RestID`. -/
def tweetRestID (response : json.GoValue) : List Char :=
  (((((response.field "data".toList).field "create_tweet".toList).field
    "tweet_results".toList).field "result".toList).field "rest_id".toList).str

/-- The part of `Tweet` and of `Comment` after `// Update cookies`. -/
def TweetResult (statusCode : Int) (bodyBytes : List Char) : ActionResponse :=
  if statusCode ≥ 200 ∧ statusCode ≤ 299 then
    if Contains bodyBytes "duplicate".toList then
      { Success := true, Error := none, Status := .StatusAlreadyDone }
    else
      match json.Unmarshal bodyBytes TweetGraphQLResponse with
      | .error e => { Success := false, Error := some (.Json e), Status := .StatusUnknown }
      | .ok response =>
        if tweetRestID response ≠ [] then
          { Success := true, Error := none, Status := .StatusSuccess }
        else errorResponse bodyBytes
  else errorResponse bodyBytes

/-- The part of `Tweet` and of `Comment` from `json.Marshal(requestBody)` on. -/
def postTweet (env : Env) (requestBody : Twitter → json.Value) (t : Twitter) (w : World) :
    Except Panic (ActionResponse × Twitter × World) :=
  match env.Marshal (requestBody t) with
  | .error err =>
    .ok ({ Success := false
           Error := some (.Wrap "failed to marshal request body: ".toList err)
           Status := .StatusUnknown }, t, w)
  | .ok jsonBody =>
    match MakeRequest env t.Client (CreateTweetRequest t jsonBody) w with
    | .error p => .error p
    | .ok (.error err, w1) =>
      .ok ({ Success := false, Error := some err, Status := .StatusUnknown }, t, w1)
    | .ok (.ok (bodyBytes, resp), w1) =>
      .ok (TweetResult resp.StatusCode bodyBytes, t.updateCookies resp, w1)

/-- The block `// If media is provided, upload it first` of `Tweet` and
`Comment`: the media ID (empty without media), or the response to return at
once. -/
def uploadIfMedia (env : Env) (mediaBase64 : Option (List Char)) (t : Twitter) (w : World) :
    Except Panic ((ActionResponse ⊕ List Char) × Twitter × World) :=
  match mediaBase64 with
  | none => .ok (.inr [], t, w)
  | some m =>
    if m ≠ [] then
      match UploadMedia env m t w with
      | .error p => .error p
      | .ok ((_, some err), t1, w1) =>
        .ok (.inl { Success := false
                    Error := some (.Wrap "failed to upload media: ".toList err)
                    Status := .StatusUnknown }, t1, w1)
      | .ok ((mediaID, none), t1, w1) => .ok (.inr mediaID, t1, w1)
    else .ok (.inr [], t, w)

/-- Go `(t *Twitter).Tweet(content, opts)`; a nil `opts` is `none`. -/
def Tweet (env : Env) (content : List Char) (opts : Option TweetOptions) (t : Twitter)
    (w : World) : Except Panic (ActionResponse × Twitter × World) :=
  match uploadIfMedia env (opts.map (fun o => o.MediaBase64)) t w with
  | .error p => .error p
  | .ok (.inl r, t1, w1) => .ok (r, t1, w1)
  | .ok (.inr mediaID, t1, w1) =>
    postTweet env (fun t => tweetBody t content opts mediaID) t1 w1

/-- Go `(t *Twitter).Comment(content, tweetID, opts)`; a nil `opts` is `none`. -/
def Comment (env : Env) (content tweetID : List Char) (opts : Option CommentOptions)
    (t : Twitter) (w : World) : Except Panic (ActionResponse × Twitter × World) :=
  match resolveTweetID tweetID with
  | .error p => .error p
  | .ok (.inl r) => .ok (r, t, w)
  | .ok (.inr tweetID) =>
    match uploadIfMedia env (opts.map (fun o => o.MediaBase64)) t w with
    | .error p => .error p
    | .ok (.inl r, t1, w1) => .ok (r, t1, w1)
    | .ok (.inr mediaID, t1, w1) =>
      postTweet env (fun t => commentBody t content tweetID mediaID) t1 w1

/-! ### `VotePoll` -/

/-- The request built by `getTweetDetails`. -/
def TweetDetailsRequest (t : Twitter) (tweetID : List Char) : RequestConfig :=
  { DefaultConfig with
    Method := "GET".toList
    URL :=
      "https://twitter.com/i/api/graphql/B9_KmbkLhXt6jRwGjJrweg/TweetDetail?variables=%7B%22focalTweetId%22%3A%22".toList ++ tweetID ++
      "%22%2C%22with_rux_injections%22%3Afalse%2C%22includePromotedContent%22%3Atrue%2C%22withCommunity%22%3Atrue%2C%22withQuickPromoteEligibilityTweetFields%22%3Atrue%2C%22withBirdwatchNotes%22%3Atrue%2C%22withVoice%22%3Atrue%2C%22withV2Timeline%22%3Atrue%7D&features=%7B%22responsive_web_graphql_exclude_directive_enabled%22%3Atrue%2C%22verified_phone_label_enabled%22%3Afalse%2C%22creator_subscriptions_tweet_preview_api_enabled%22%3Atrue%2C%22responsive_web_graphql_timeline_navigation_enabled%22%3Atrue%2C%22responsive_web_graphql_skip_user_profile_image_extensions_enabled%22%3Afalse%2C%22tweetypie_unmention_optimization_enabled%22%3Atrue%2C%22responsive_web_edit_tweet_api_enabled%22%3Atrue%2C%22graphql_is_translatable_rweb_tweet_is_translatable_enabled%22%3Atrue%2C%22view_counts_everywhere_api_enabled%22%3Atrue%2C%22longform_notetweets_consumption_enabled%22%3Atrue%2C%22tweet_awards_web_tipping_enabled%22%3Afalse%2C%22freedom_of_speech_not_reach_fetch_enabled%22%3Atrue%2C%22standardized_nudges_misinfo%22%3Atrue%2C%22tweet_with_visibility_results_prefer_gql_limited_actions_policy_enabled%22%3Atrue%2C%22longform_notetweets_rich_text_read_enabled%22%3Atrue%2C%22longform_notetweets_inline_media_enabled%22%3Atrue%2C%22responsive_web_enhance_cards_enabled%22%3Afalse%7D&fieldToggles=%7B%22withArticleRichContentState%22%3Atrue%7D".toList
    Headers := DefaultConfig.Headers ++
      [⟨"accept".toList, "*/*".toList⟩,
       ⟨"authorization".toList, t.Config.Constants.BearerToken⟩,
       ⟨"content-type".toList, "application/json".toList⟩,
       ⟨"cookie".toList, t.Cookies.CookiesToHeader⟩,
       ⟨"referer".toList, "https://twitter.com/i/status/".toList ++ tweetID⟩,
       ⟨"x-csrf-token".toList, t.Account.Ct0⟩,
       ⟨"x-twitter-active-user".toList, "yes".toList⟩,
       ⟨"x-twitter-auth-type".toList, "OAuth2Session".toList⟩,
       ⟨"x-twitter-client-language".toList, "en".toList⟩] }

/-- Go `(t *Twitter).getTweetDetails(tweetID)`: the pair `(details, err)`. -/
def getTweetDetails (env : Env) (tweetID : List Char) (t : Twitter) (w : World) :
    Except Panic ((List Char × Option Error) × Twitter × World) :=
  match MakeRequest env t.Client (TweetDetailsRequest t tweetID) w with
  | .error p => .error p
  | .ok (.error err, w1) =>
    .ok (([], some (.Wrap "failed to get tweet details: ".toList err)), t, w1)
  | .ok (.ok (bodyBytes, resp), w1) => .ok ((bodyBytes, none), t.updateCookies resp, w1)

/-- The request built by `VotePoll`. -/
def VotePollRequest (t : Twitter) (cardID tweetID pollName answer : List Char) : RequestConfig :=
  { DefaultConfig with
    Method := "POST".toList
    URL := "https://caps.twitter.com/v2/capi/passthrough/1".toList
    Body := some ("twitter%3Astring%3Acard_uri=card%3A%2F%2F".toList ++ cardID ++
      "&twitter%3Along%3Aoriginal_tweet_id=".toList ++ tweetID ++
      "&twitter%3Astring%3Aresponse_card_name=".toList ++ pollName ++
      "&twitter%3Astring%3Acards_platform=Web-12&twitter%3Astring%3Aselected_choice=".toList ++
      answer)
    Headers := DefaultConfig.Headers ++
      [⟨"accept".toList, "*/*".toList⟩,
       ⟨"authorization".toList, t.Config.Constants.BearerToken⟩,
       ⟨"content-type".toList, "application/x-www-form-urlencoded".toList⟩,
       ⟨"cookie".toList, t.Cookies.CookiesToHeader⟩,
       ⟨"origin".toList, "https://twitter.com".toList⟩,
       ⟨"referer".toList, "https://twitter.com/".toList⟩,
       ⟨"x-csrf-token".toList, t.Account.Ct0⟩,
       ⟨"x-twitter-active-user".toList, "yes".toList⟩,
       ⟨"x-twitter-auth-type".toList, "OAuth2Session".toList⟩] }

/-- The part of `VotePoll` after `// Update cookies`. -/
def VotePollResult (statusCode : Int) (bodyBytes : List Char) : ActionResponse :=
  if statusCode ≥ 200 ∧ statusCode ≤ 299 then
    { Success := true, Error := none, Status := .StatusSuccess }
  else errorResponse bodyBytes

/-- The block `// Extract poll info from tweet details` of `VotePoll`: the pair
`(pollName, cardID)`, or the run-time failure of an index out of range. -/
def pollInfo (tweetDetails : List Char) : Except Panic (List Char × List Char) :=
  match index (Split tweetDetails "\"name\":\"poll".toList) 1 with
  | .error p => .error p
  | .ok afterName =>
    match index (Split afterName "\"".toList) 0 with
    | .error p => .error p
    | .ok nameTail =>
      match index (Split tweetDetails "card://".toList) 1 with
      | .error p => .error p
      | .ok afterCard =>
        match index (Split afterCard "\"".toList) 0 with
        | .error p => .error p
        | .ok cardID => .ok ("poll".toList ++ nameTail, cardID)

/-- Go `(t *Twitter).VotePoll(tweetID, answer)`. -/
def VotePoll (env : Env) (tweetID answer : List Char) (t : Twitter) (w : World) :
    Except Panic (ActionResponse × Twitter × World) :=
  match resolveTweetID tweetID with
  | .error p => .error p
  | .ok (.inl r) => .ok (r, t, w)
  | .ok (.inr tweetID) =>
    match getTweetDetails env tweetID t w with
    | .error p => .error p
    | .ok ((_, some err), t1, w1) =>
      .ok ({ Success := false
             Error := some (.Wrap "failed to get tweet details: ".toList err)
             Status := .StatusUnknown }, t1, w1)
    | .ok ((tweetDetails, none), t1, w1) =>
      match pollInfo tweetDetails with
      | .error p => .error p
      | .ok (pollName, cardID) =>
        match MakeRequest env t1.Client (VotePollRequest t1 cardID tweetID pollName answer) w1 with
        | .error p => .error p
        | .ok (.error err, w2) =>
          .ok ({ Success := false, Error := some err, Status := .StatusUnknown }, t1, w2)
        | .ok (.ok (bodyBytes, resp), w2) =>
          .ok (VotePollResult resp.StatusCode bodyBytes, t1.updateCookies resp, w2)

end client

/-! ## Specification predicates and test fixtures -/

open utils client addons strings models

/-- The structural success check of `Like`, in the words of the specification:
the body decodes as JSON and its `data.favorite_tweet` is `Done`. -/
def LikeSuccessCheck (body : List Char) : Bool :=
  match json.Unmarshal body LikeGraphQLResponse with
  | .ok response =>
    decide (((response.field "data".toList).field "favorite_tweet".toList).str = "Done".toList)
  | .error _ => false

/-- The ordered decision list of the specification for a response that is not a
success: never a success; `Locked` when the body has the locked phrase; else
`AuthError` when it has the authentication phrase; else `Unknown` with the raw
body as detail. -/
def OrderedErrorOutcome (body : List Char) (r : ActionResponse) : Prop :=
  r.Success = false ∧
  (Contains body "this account is temporarily locked".toList = true →
    r.Status = .StatusLocked) ∧
  (Contains body "this account is temporarily locked".toList = false →
    Contains body "Could not authenticate you".toList = true →
    r.Status = .StatusAuthError) ∧
  (Contains body "this account is temporarily locked".toList = false →
    Contains body "Could not authenticate you".toList = false →
    r.Status = .StatusUnknown ∧
    r.Error = some (.New ("unknown response: ".toList ++ body)))

/-- A transport that answers every request with the same response. -/
def fixedClient (resp : Response) : HttpClient :=
  ⟨fun _ _ => .ok resp⟩

/-- A transport that fails on every request. -/
def deadClient : HttpClient :=
  ⟨fun _ _ => .error (.Lib "connection refused".toList)⟩

/-- An environment in which requests can be built, marshalling works, every
random byte is 7 and every new HTTP client is `c`. -/
def envWith (c : HttpClient) : Env :=
  { NewRequest := fun _ _ => none
    NewHttpClient := fun _ _ => .ok c
    RandRead := fun _ => .ok (fun _ => 7)
    Marshal := fun _ => .ok "body".toList }

/-- A session over the transport `c`, with an empty cookie store. -/
def sessionWith (c : HttpClient) : Twitter :=
  { Account := NewAccount "secret".toList "csrf0".toList []
    Client := some c
    Config := NewConfig
    Cookies := NewCookieClient }

/-- The world before any interaction. -/
def world0 : World := ⟨[], 0, 0⟩

/-- The body of a like response that reports success and also carries the word
`already`. -/
def doneAlreadyBody : List Char :=
  "\x7b\"data\":\x7b\"favorite_tweet\":\"Done\"\x7d,\"already\":1\x7d".toList

/-- The plain-text body of a locked-account response. -/
def lockedBody : List Char :=
  "this account is temporarily locked".toList

/-- The body of a response that reports the action as done before. -/
def alreadyBody : List Char :=
  "\x7b\"errors\":[\x7b\"message\":\"You have already retweeted this Tweet.\"\x7d]\x7d".toList

/-- The structured cookie export
`[{"name":"auth_token","value":"X"},{"name":"ct0","value":"Y"}]`. -/
def exportXY : List Char :=
  "[\x7b\"name\":\"auth_token\",\"value\":\"X\"\x7d,\x7b\"name\":\"ct0\",\"value\":\"Y\"\x7d]".toList

/-- The session `sessionWith c` with the retry budget `n`. -/
def sessionRetries (c : HttpClient) (n : Int) : Twitter :=
  { sessionWith c with Config := { NewConfig with MaxRetries := n } }

/-- A locked-account answer to the identity request that also sets a `ct0`
cookie. -/
def lockedViewerResponse : Response :=
  ⟨403, [⟨"ct0".toList, "rotated".toList⟩], .ok lockedBody⟩

/-- A call of one of the request-issuing methods of the client. -/
inductive Call where
  | like (tweetID : List Char)
  | retweet (tweetID : List Char)
  | follow (username : List Char)
  | unfollow (userIDOrUsername : List Char)
  | userInfo (username : List Char)
  | uploadMedia (mediaBase64 : List Char)
  | tweet (content : List Char) (opts : Option TweetOptions)
  | comment (content tweetID : List Char) (opts : Option CommentOptions)
  | votePoll (tweetID answer : List Char)

/-- Run a call on a session: the session and the world it leaves behind (the
value returned to the caller is dropped). -/
def perform (env : Env) : Call → Twitter → World → Except Panic (Twitter × World)
  | .like tweetID, t, w => (Like env tweetID t w).map (fun r => r.2)
  | .retweet tweetID, t, w => (Retweet env tweetID t w).map (fun r => r.2)
  | .follow username, t, w => (Follow env username t w).map (fun r => r.2)
  | .unfollow u, t, w => (Unfollow env u t w).map (fun r => r.2)
  | .userInfo username, t, w => (GetUserInfoByUsername env username t w).map (fun r => r.2)
  | .uploadMedia m, t, w => (UploadMedia env m t w).map (fun r => r.2)
  | .tweet content opts, t, w => (Tweet env content opts t w).map (fun r => r.2)
  | .comment content tweetID opts, t, w =>
    (Comment env content tweetID opts t w).map (fun r => r.2)
  | .votePoll tweetID answer, t, w => (VotePoll env tweetID answer t w).map (fun r => r.2)

/-- The session's security token agrees with its cookie store: whenever the
store holds a `ct0` value, `Account.Ct0` is that value. -/
def Synced (t : Twitter) : Prop :=
  ∀ v, t.Cookies.GetCookieValue "ct0".toList = some v → t.Account.Ct0 = v

/-- `Exchanges env t w t1 w1`: the session goes from `(t, w)` to `(t1, w1)` by
a sequence of calls of `MakeRequest`, each for a request that carries the
session's current `Account.Ct0` as `x-csrf-token`; a call that returns an error
leaves the session as it is, a call that returns a response is followed by the
`// Update cookies` block. -/
inductive Exchanges (env : Env) : Twitter → World → Twitter → World → Prop where
  | done (t : Twitter) (w : World) : Exchanges env t w t w
  | failed (t t2 : Twitter) (w w1 w2 : World) (config : RequestConfig) (e : Error) :
    headerGet (buildRequest config).Header "x-csrf-token".toList = t.Account.Ct0 →
    MakeRequest env t.Client config w = .ok (.error e, w1) →
    Exchanges env t w1 t2 w2 → Exchanges env t w t2 w2
  | answered (t t2 : Twitter) (w w1 w2 : World) (config : RequestConfig) (body : List Char)
    (resp : Response) :
    headerGet (buildRequest config).Header "x-csrf-token".toList = t.Account.Ct0 →
    MakeRequest env t.Client config w = .ok (.ok (body, resp), w1) →
    Exchanges env (t.updateCookies resp) w1 t2 w2 → Exchanges env t w t2 w2

/-- An answer with status 500 that rotates the `ct0` cookie. -/
def rotatingResponse : Response :=
  ⟨500, [⟨"ct0".toList, "rotated".toList⟩], .ok "Internal Server Error".toList⟩

/-- The text `q` without its trailing white space, the second half of what
`TrimSpace` does. -/
def trimRight (q : List Char) : List Char :=
  (q.reverse.dropWhile strings.isSpace).reverse

/-- The lower-case hexadecimal alphabet, in the words of the specification. -/
def hextable : List Char := "0123456789abcdef".toList

/-- A credential of 60 letters without brackets. -/
def longCredential : List Char := List.replicate 60 'a'

/-- The body of an identity response for the user `bob`. -/
def identityBody : List Char :=
  "\x7b\"data\":\x7b\"viewer\":\x7b\"user_results\":\x7b\"result\":\x7b\"legacy\":\x7b\"screen_name\":\"bob\"\x7d\x7d\x7d\x7d\x7d\x7d".toList

/-- An identity response that answers for `bob` and sets the `ct0` cookie to
the empty value (`Set-Cookie: ct0=`). -/
def emptyTokenResponse : Response :=
  ⟨200, [⟨"ct0".toList, []⟩], .ok identityBody⟩

/-- The answer to the tweet-details request of a locked account. -/
def lockedDetailsResponse : Response :=
  ⟨403, [], .ok lockedBody⟩

/-! ## `IsValid` -/

namespace strings

/-- The loop `for r != sr && r < tr { r = unicode.SimpleFold(r) }` of
`EqualFold`, followed by its test `r == tr`.  The table `unicode.SimpleFold` is
a parameter.  The fuel exceeds the number of runes, so it runs out only where
the Go loop would not end. -/
def foldOrbit (simpleFold : Char → Char) (sr tr : Char) : Nat → Char → Bool
  | 0, _ => false
  | fuel + 1, r =>
    if r ≠ sr ∧ r.toNat < tr.toNat then foldOrbit simpleFold sr tr fuel (simpleFold r)
    else r == tr

/-- One turn of the loop of `EqualFold`: whether the runes `sr` and `tr` are
equal under simple case folding. -/
def equalFoldRune (simpleFold : Char → Char) (sr tr : Char) : Bool :=
  if tr = sr then true
  else
    let lo := if tr.toNat < sr.toNat then tr else sr
    let hi := if tr.toNat < sr.toNat then sr else tr
    if hi.toNat < 0x80 then
      decide (65 ≤ lo.toNat ∧ lo.toNat ≤ 90 ∧ hi.toNat = lo.toNat + 32)
    else foldOrbit simpleFold lo hi 0x110001 (simpleFold lo)

/-- Go `strings.EqualFold(s, t)` over the table `unicode.SimpleFold`: the two
strings have the same number of runes, equal pairwise under simple case
folding. -/
def EqualFold (simpleFold : Char → Char) : List Char → List Char → Bool
  | [], [] => true
  | [], _ :: _ => false
  | _ :: _, [] => false
  | sr :: s, tr :: t => equalFoldRune simpleFold sr tr && EqualFold simpleFold s t

end strings

namespace client

/-- Go `AccountInfo`. -/
structure AccountInfo where
  Name : List Char
  Username : List Char
  CreationDate : List Char
  Suspended : Bool
  Protected : Bool
  Verified : Bool
  FollowedBy : Bool
  Followers : Int
  IsFollowing : Bool
  FriendsCount : Int
  TweetCount : Int
  deriving DecidableEq

/-- The zero value of `AccountInfo`. -/
def AccountInfo.zero : AccountInfo :=
  { Name := [], Username := [], CreationDate := [], Suspended := false, Protected := false,
    Verified := false, FollowedBy := false, Followers := 0, IsFollowing := false,
    FriendsCount := 0, TweetCount := 0 }

/-- The zero value of `User`. -/
def User : json.GoValue :=
  .struct
    [("user_id".toList, .string []),
     ("name".toList, .string []),
     ("screen_name".toList, .string []),
     ("avatar_image_url".toList, .string []),
     ("is_suspended".toList, .bool false),
     ("is_verified".toList, .bool false),
     ("is_protected".toList, .bool false),
     ("is_auth_valid".toList, .bool false)]

/-- The zero value of `MultiUserResponse`. -/
def MultiUserResponse : json.GoValue :=
  .struct [("users".toList, .slice User 0 [])]

/-- The request built by `IsValid`. -/
def IsValidRequest (t : Twitter) : RequestConfig :=
  { DefaultConfig with
    Method := "GET".toList
    URL := "https://api.x.com/1.1/account/multi/list.json".toList
    Headers := DefaultConfig.Headers ++
      [⟨"accept".toList, "*/*".toList⟩,
       ⟨"authorization".toList, t.Config.Constants.BearerToken⟩,
       ⟨"content-type".toList, "application/x-www-form-urlencoded".toList⟩,
       ⟨"cookie".toList, t.Cookies.CookiesToHeader⟩,
       ⟨"origin".toList, "https://x.com".toList⟩,
       ⟨"x-csrf-token".toList, t.Account.Ct0⟩,
       ⟨"x-twitter-active-user".toList, "yes".toList⟩,
       ⟨"x-twitter-auth-type".toList, "OAuth2Session".toList⟩,
       ⟨"user-agent".toList, UserAgent⟩] }

/-- The loop `// Find the current user in the response` of `IsValid`: the
first user whose `ScreenName` equals `username` under `EqualFold` (`none` while
`currentUser` stays nil). -/
def findCurrentUser (simpleFold : Char → Char) (username : List Char) :
    List json.GoValue → Option json.GoValue
  | [] => none
  | user :: users =>
    if EqualFold simpleFold (user.field "screen_name".toList).str username then some user
    else findCurrentUser simpleFold username users

/-- The part of `IsValid` after `// Update cookies`: the pair `(info, response)`
returned, a nil `info` being `none`. -/
def IsValidResult (simpleFold : Char → Char) (username : List Char) (statusCode : Int)
    (bodyBytes : List Char) : Option AccountInfo × ActionResponse :=
  if statusCode ≥ 200 ∧ statusCode ≤ 299 then
    match json.Unmarshal bodyBytes MultiUserResponse with
    | .error e => (none, { Success := false, Error := some (.Json e), Status := .StatusUnknown })
    | .ok response =>
      match findCurrentUser simpleFold username (response.field "users".toList).elems with
      | none =>
        (none, { Success := false
                 Error := some (.New "account not found in response".toList)
                 Status := .StatusUnknown })
      | some currentUser =>
        if !(currentUser.field "is_auth_valid".toList).toBool then
          (some { AccountInfo.zero with
                  Username := (currentUser.field "screen_name".toList).str
                  Suspended := (currentUser.field "is_suspended".toList).toBool },
            { Success := false, Error := some .ErrAuthFailed, Status := .StatusAuthError })
        else
          (some { AccountInfo.zero with
                  Username := (currentUser.field "screen_name".toList).str
                  Name := (currentUser.field "name".toList).str
                  Suspended := (currentUser.field "is_suspended".toList).toBool
                  Protected := (currentUser.field "is_protected".toList).toBool
                  Verified := (currentUser.field "is_verified".toList).toBool },
            { Success := true, Error := none, Status := .StatusSuccess })
  else if Contains bodyBytes "this account is temporarily locked".toList then
    (none, { Success := false, Error := some .ErrAccountLocked, Status := .StatusLocked })
  else if Contains bodyBytes "Could not authenticate you".toList then
    (none, { Success := false, Error := some .ErrAuthFailed, Status := .StatusAuthError })
  else if Contains bodyBytes "User has been suspended".toList then
    (some { AccountInfo.zero with Username := username, Suspended := true },
      { Success := true, Error := none, Status := .StatusSuccess })
  else
    (none, { Success := false
             Error := some (.New ("unknown response: ".toList ++ bodyBytes))
             Status := .StatusUnknown })

/-- Go `(t *Twitter).IsValid()`, over the table `unicode.SimpleFold` that
`strings.EqualFold` reads. -/
def IsValid (env : Env) (simpleFold : Char → Char) (t : Twitter) (w : World) :
    Except Panic ((Option AccountInfo × ActionResponse) × Twitter × World) :=
  match MakeRequest env t.Client (IsValidRequest t) w with
  | .error p => .error p
  | .ok (.error err, w1) =>
    .ok ((none, { Success := false, Error := some err, Status := .StatusUnknown }), t, w1)
  | .ok (.ok (bodyBytes, resp), w1) =>
    .ok (IsValidResult simpleFold (t.updateCookies resp).Account.Username resp.StatusCode
      bodyBytes, t.updateCookies resp, w1)

end client

/-- The identity table, a folding table without case pairs: over it `EqualFold`
folds the ASCII letters only (those are handled without the table). -/
def asciiFold : Char → Char := fun c => c

/-- The session `sessionWith c` of the account named `username`. -/
def sessionNamed (c : HttpClient) (username : List Char) : Twitter :=
  { sessionWith c with Account := { (sessionWith c).Account with Username := username } }

/-- The five shapes of `ActionResponse` that the methods of the client build:
a failure with `StatusUnknown` and some error, the two successes, and the two
account conditions with their fixed errors. -/
def FiveShapes (r : ActionResponse) : Prop :=
  (∃ e, r = { Success := false, Error := some e, Status := .StatusUnknown }) ∨
  r = { Success := true, Error := none, Status := .StatusSuccess } ∨
  r = { Success := true, Error := none, Status := .StatusAlreadyDone } ∨
  r = { Success := false, Error := some .ErrAccountLocked, Status := .StatusLocked } ∨
  r = { Success := false, Error := some .ErrAuthFailed, Status := .StatusAuthError }

/-- Outcome well-formedness in the words of the specification: `Success` is
true if and only if `Error` is nil, and if and only if `Status` is
`StatusSuccess` or `StatusAlreadyDone`. -/
def WellFormed (r : ActionResponse) : Prop :=
  (r.Success = true ↔ r.Error = none) ∧
  (r.Success = true ↔ (r.Status = .StatusSuccess ∨ r.Status = .StatusAlreadyDone))

/-- The outcome kinds that are never produced. -/
def UnusedStatus (s : ActionStatus) : Prop :=
  s = .StatusNotFound ∨ s = .StatusRateLimited ∨ s = .StatusInvalidToken

/-- One entry of a decoded user list. -/
def userEntry (screenName name : List Char) (isProtected authValid : Bool) : json.GoValue :=
  .struct
    [("user_id".toList, .string []),
     ("name".toList, .string name),
     ("screen_name".toList, .string screenName),
     ("avatar_image_url".toList, .string []),
     ("is_suspended".toList, .bool false),
     ("is_verified".toList, .bool false),
     ("is_protected".toList, .bool isProtected),
     ("is_auth_valid".toList, .bool authValid)]

/-- The body of an account list with the entries `Alice`, `BOB` and `bob`. -/
def accountsBody : List Char :=
  "\x7b\"users\":[\x7b\"screen_name\":\"Alice\",\"is_auth_valid\":true\x7d,\x7b\"screen_name\":\"BOB\",\"name\":\"B\",\"is_protected\":true,\"is_auth_valid\":true\x7d,\x7b\"screen_name\":\"bob\",\"is_auth_valid\":true\x7d]\x7d".toList

/-- The value that `accountsBody` decodes to. -/
def accountsDecoded : json.GoValue :=
  .struct [("users".toList, .slice User 3
    [userEntry "Alice".toList [] false true, userEntry "BOB".toList "B".toList true true,
     userEntry "bob".toList [] false true])]

/-- The answer to the account check that carries `accountsBody`. -/
def accountsResponse : Response :=
  ⟨200, [], .ok accountsBody⟩

/-- An answer to the upload request that decodes as JSON and carries no
`media_id_string`. -/
def emptyUploadResponse : Response :=
  ⟨200, [], .ok "\x7b\x7d".toList⟩

/-- An answer to the `CreateTweet` request that reports the tweet `1`. -/
def tweetPostedResponse : Response :=
  ⟨200, [], .ok "\x7b\"data\":\x7b\"create_tweet\":\x7b\"tweet_results\":\x7b\"result\":\x7b\"rest_id\":\"1\"\x7d\x7d\x7d\x7d\x7d".toList⟩

/-- A transport that answers the first request with `emptyUploadResponse` and
every later one with `tweetPostedResponse`. -/
def uploadThenTweetClient : HttpClient :=
  ⟨fun n _ => if n = 0 then .ok emptyUploadResponse else .ok tweetPostedResponse⟩

/-- The body of an identity response that mentions `screen_name` without
giving one. -/
def namelessIdentityBody : List Char :=
  "\x7b\"errors\":[\x7b\"message\":\"screen_name is required\"\x7d]\x7d".toList

/-- An identity response with status 400 that carries `namelessIdentityBody`
and a `ct0` cookie. -/
def namelessIdentityResponse : Response :=
  ⟨400, [⟨"ct0".toList, "abc".toList⟩], .ok namelessIdentityBody⟩

/-- An identity response that rejects the token and sets a `ct0` cookie. -/
def rejectedViewerResponse : Response :=
  ⟨401, [⟨"ct0".toList, "rotated".toList⟩], .ok "Could not authenticate you".toList⟩

/-- A request configuration with two header pairs, both with the key
`Header-Order:`. -/
def orderKeyConfig : RequestConfig :=
  { Method := "GET".toList
    URL := "https://twitter.com/".toList
    Body := none
    Headers :=
      [⟨"Header-Order:".toList, "a".toList⟩, ⟨"Header-Order:".toList, "b".toList⟩] }

/-! # Theorems -/

/-! ## Runs of the actions -/

theorem errorResponse_ordered (body : List Char) : OrderedErrorOutcome body (errorResponse body) := by
  unfold OrderedErrorOutcome errorResponse
  cases h1 : Contains body "this account is temporarily locked".toList <;>
    cases h2 : Contains body "Could not authenticate you".toList <;> simp

theorem Like_answered (env : Env) (tweetID resolved body : List Char) (t : Twitter) (w w1 : World)
    (resp : Response) (hid : resolveTweetID tweetID = .ok (.inr resolved))
    (hreq : MakeRequest env t.Client (LikeRequest t resolved) w = .ok (.ok (body, resp), w1)) :
    Like env tweetID t w = .ok (LikeResult resp.StatusCode body, t.updateCookies resp, w1) := by
  simp only [Like, hid, hreq]

theorem Like_failed (env : Env) (tweetID resolved : List Char) (t : Twitter) (w w1 : World)
    (e : Error) (hid : resolveTweetID tweetID = .ok (.inr resolved))
    (hreq : MakeRequest env t.Client (LikeRequest t resolved) w = .ok (.error e, w1)) :
    Like env tweetID t w =
      .ok ({ Success := false, Error := some e, Status := .StatusUnknown }, t, w1) := by
  simp only [Like, hid, hreq]

theorem Retweet_answered (env : Env) (tweetID resolved body : List Char) (t : Twitter)
    (w w1 : World) (resp : Response) (hid : resolveTweetID tweetID = .ok (.inr resolved))
    (hreq : MakeRequest env t.Client (RetweetRequest t resolved) w = .ok (.ok (body, resp), w1)) :
    Retweet env tweetID t w =
      .ok (RetweetResult resp.StatusCode body, t.updateCookies resp, w1) := by
  simp only [Retweet, hid, hreq]

theorem Retweet_failed (env : Env) (tweetID resolved : List Char) (t : Twitter) (w w1 : World)
    (e : Error) (hid : resolveTweetID tweetID = .ok (.inr resolved))
    (hreq : MakeRequest env t.Client (RetweetRequest t resolved) w = .ok (.error e, w1)) :
    Retweet env tweetID t w =
      .ok ({ Success := false, Error := some e, Status := .StatusUnknown }, t, w1) := by
  simp only [Retweet, hid, hreq]

theorem Follow_answered (env : Env) (username body : List Char) (t : Twitter) (w w1 : World)
    (resp : Response)
    (hreq : MakeRequest env t.Client (FollowRequest t username) w = .ok (.ok (body, resp), w1)) :
    Follow env username t w = .ok (FollowResult resp.StatusCode body, t.updateCookies resp, w1) := by
  simp only [Follow, hreq]

theorem Follow_failed (env : Env) (username : List Char) (t : Twitter) (w w1 : World) (e : Error)
    (hreq : MakeRequest env t.Client (FollowRequest t username) w = .ok (.error e, w1)) :
    Follow env username t w =
      .ok ({ Success := false, Error := some e, Status := .StatusUnknown }, t, w1) := by
  simp only [Follow, hreq]

theorem unfollowByID_answered (env : Env) (userID body : List Char) (t : Twitter) (w w1 : World)
    (resp : Response)
    (hreq : MakeRequest env t.Client (UnfollowRequest t userID) w = .ok (.ok (body, resp), w1)) :
    unfollowByID env userID t w =
      .ok (FollowResult resp.StatusCode body, t.updateCookies resp, w1) := by
  simp only [unfollowByID, hreq]

theorem unfollowByID_failed (env : Env) (userID : List Char) (t : Twitter) (w w1 : World)
    (e : Error)
    (hreq : MakeRequest env t.Client (UnfollowRequest t userID) w = .ok (.error e, w1)) :
    unfollowByID env userID t w =
      .ok ({ Success := false, Error := some e, Status := .StatusUnknown }, t, w1) := by
  simp only [unfollowByID, hreq]

theorem Unfollow_numeric (env : Env) (userID : List Char) (t : Twitter) (w : World)
    (hnum : IsNumeric userID = true) :
    Unfollow env userID t w = unfollowByID env userID t w := by
  simp [Unfollow, hnum]

theorem uploadIfMedia_none (env : Env) (m : Option (List Char)) (t : Twitter) (w : World)
    (hm : ∀ x, m = some x → x = []) : uploadIfMedia env m t w = .ok (.inr [], t, w) := by
  cases m with
  | none => rfl
  | some x => simp [uploadIfMedia, hm x rfl]

theorem postTweet_answered (env : Env) (requestBody : Twitter → json.Value)
    (jsonBody body : List Char) (t : Twitter) (w w1 : World) (resp : Response)
    (hm : env.Marshal (requestBody t) = .ok jsonBody)
    (hreq : MakeRequest env t.Client (CreateTweetRequest t jsonBody) w =
      .ok (.ok (body, resp), w1)) :
    postTweet env requestBody t w =
      .ok (TweetResult resp.StatusCode body, t.updateCookies resp, w1) := by
  simp only [postTweet, hm, hreq]

theorem postTweet_failed (env : Env) (requestBody : Twitter → json.Value)
    (jsonBody : List Char) (t : Twitter) (w w1 : World) (e : Error)
    (hm : env.Marshal (requestBody t) = .ok jsonBody)
    (hreq : MakeRequest env t.Client (CreateTweetRequest t jsonBody) w = .ok (.error e, w1)) :
    postTweet env requestBody t w =
      .ok ({ Success := false, Error := some e, Status := .StatusUnknown }, t, w1) := by
  simp only [postTweet, hm, hreq]

theorem Tweet_after_upload (env : Env) (content mediaID : List Char) (opts : Option TweetOptions)
    (t t1 : Twitter) (w w1 : World)
    (hup : uploadIfMedia env (opts.map (fun o => o.MediaBase64)) t w = .ok (.inr mediaID, t1, w1)) :
    Tweet env content opts t w =
      postTweet env (fun t => tweetBody t content opts mediaID) t1 w1 := by
  simp only [Tweet, hup]

theorem Comment_after_upload (env : Env) (content tweetID resolved mediaID : List Char)
    (opts : Option CommentOptions) (t t1 : Twitter) (w w1 : World)
    (hid : resolveTweetID tweetID = .ok (.inr resolved))
    (hup : uploadIfMedia env (opts.map (fun o => o.MediaBase64)) t w = .ok (.inr mediaID, t1, w1)) :
    Comment env content tweetID opts t w =
      postTweet env (fun t => commentBody t content resolved mediaID) t1 w1 := by
  simp only [Comment, hid, hup]

theorem VotePoll_answered (env : Env) (tweetID resolved answer details pollName cardID body :
    List Char) (t t1 : Twitter) (w w1 w2 : World) (resp : Response)
    (hid : resolveTweetID tweetID = .ok (.inr resolved))
    (hdet : getTweetDetails env resolved t w = .ok ((details, none), t1, w1))
    (hpoll : pollInfo details = .ok (pollName, cardID))
    (hreq : MakeRequest env t1.Client (VotePollRequest t1 cardID resolved pollName answer) w1 =
      .ok (.ok (body, resp), w2)) :
    VotePoll env tweetID answer t w =
      .ok (VotePollResult resp.StatusCode body, t1.updateCookies resp, w2) := by
  simp only [VotePoll, hid, hdet, hpoll, hreq]

theorem GetUserInfoByUsername_answered (env : Env) (username body : List Char) (t : Twitter)
    (w w1 : World) (resp : Response)
    (hreq : MakeRequest env t.Client (UserInfoRequest t username) w = .ok (.ok (body, resp), w1)) :
    GetUserInfoByUsername env username t w =
      .ok (UserInfoResult resp.StatusCode body, t.updateCookies resp, w1) := by
  simp only [GetUserInfoByUsername, hreq]

theorem LikeResult_error (status : Int) (body : List Char) (h : ¬ (200 ≤ status ∧ status ≤ 299)) :
    LikeResult status body = errorResponse body := by
  simp only [LikeResult, ge_iff_le, h, if_false]

theorem RetweetResult_error (status : Int) (body : List Char)
    (h : ¬ (200 ≤ status ∧ status ≤ 299)) : RetweetResult status body = errorResponse body := by
  simp only [RetweetResult, ge_iff_le, h, if_false]

theorem FollowResult_error (status : Int) (body : List Char)
    (h : ¬ (200 ≤ status ∧ status ≤ 299)) : FollowResult status body = errorResponse body := by
  simp only [FollowResult, ge_iff_le, h, if_false]

theorem TweetResult_error (status : Int) (body : List Char)
    (h : ¬ (200 ≤ status ∧ status ≤ 299)) : TweetResult status body = errorResponse body := by
  simp only [TweetResult, ge_iff_le, h, if_false]

theorem VotePollResult_error (status : Int) (body : List Char)
    (h : ¬ (200 ≤ status ∧ status ≤ 299)) : VotePollResult status body = errorResponse body := by
  simp only [VotePollResult, ge_iff_le, h, if_false]

theorem UserInfoResult_error (status : Int) (body : List Char)
    (h : ¬ (200 ≤ status ∧ status ≤ 299)) :
    UserInfoResult status body = (none, errorResponse body) := by
  have h3 : ¬ (200 ≤ status ∧ status ≤ 299 ∧ Contains body "screen_name".toList = true) :=
    fun h3 => h ⟨h3.1, h3.2.1⟩
  simp only [UserInfoResult, ge_iff_le, h3, if_false]

/-! ## Auxiliary facts -/

theorem EncodeToString_ne_nil (bytes : Fin 16 → Fin 256) :
    twitter_utils.EncodeToString (List.ofFn bytes) ≠ [] := by
  simp [twitter_utils.EncodeToString, List.ofFn_succ]

/-- A token returned by `GenerateCSRFToken` is never empty. -/
theorem GenerateCSRFToken_ne_nil (env : Env) (w w1 : World) (tok : List Char)
    (h : twitter_utils.GenerateCSRFToken env w = (.ok tok, w1)) : tok ≠ [] := by
  unfold twitter_utils.GenerateCSRFToken at h
  cases hr : env.RandRead w.randomReads with
  | error e => simp [hr] at h
  | ok bytes =>
    simp only [hr, Prod.mk.injEq, Except.ok.injEq] at h
    rw [← h.1]
    exact EncodeToString_ne_nil bytes

/-- The bare-secret branch of `SetAuthCookies`. -/
theorem SetAuthCookies_of_bare (env : Env) (accountIndex : Int) (store : CookieClient)
    (credential tok : List Char) (w w1 : World)
    (hbrackets : ¬ (Contains credential "[".toList = true ∧
      Contains credential "]".toList = true))
    (hlen : byteLen credential < 60)
    (hgen : twitter_utils.GenerateCSRFToken env w = (.ok tok, w1)) :
    SetAuthCookies env accountIndex store credential w =
      .ok ((credential, tok, none),
        store.AddCookies [⟨"auth_token".toList, credential⟩, ⟨"ct0".toList, tok⟩,
          ⟨"des_opt_in".toList, "Y".toList⟩], w1) := by
  have hne : tok ≠ [] := GenerateCSRFToken_ne_nil env w w1 tok hgen
  have hb : (Contains credential "[".toList && Contains credential "]".toList) = false := by
    cases h1 : Contains credential "[".toList <;> cases h2 : Contains credential "]".toList <;>
      simp_all
  simp only [SetAuthCookies, hb, hlen, hgen, hne, if_true, if_false, Bool.false_eq_true]

/-! ## C9 -/

/-- C9. Bare-secret bootstrap: for a credential that does not contain both `[`
and `]` and is shorter than 60 bytes, when `GenerateCSRFToken` succeeds with the
token `tok`, `SetAuthCookies` returns `(credential, tok, nil)` and its cookie
store is the old one with the three cookies `auth_token=credential`, `ct0=tok`,
`des_opt_in=Y` added. -/
theorem SetAuthCookies_bare_secret (env : Env) (accountIndex : Int) (store : CookieClient)
    (credential tok : List Char) (w w1 : World)
    (hbrackets : ¬ (Contains credential "[".toList = true ∧
      Contains credential "]".toList = true))
    (hlen : byteLen credential < 60)
    (hgen : twitter_utils.GenerateCSRFToken env w = (.ok tok, w1)) :
    SetAuthCookies env accountIndex store credential w =
      .ok ((credential, tok, none),
        store.AddCookies [⟨"auth_token".toList, credential⟩, ⟨"ct0".toList, tok⟩,
          ⟨"des_opt_in".toList, "Y".toList⟩], w1) :=
  SetAuthCookies_of_bare env accountIndex store credential tok w w1 hbrackets hlen hgen

theorem SetAuthCookies_bare_secret_witness :
    SetAuthCookies (envWith deadClient) 0 NewCookieClient "secret".toList world0 =
      .ok (("secret".toList, "07070707070707070707070707070707".toList, none),
        NewCookieClient.AddCookies [⟨"auth_token".toList, "secret".toList⟩,
          ⟨"ct0".toList, "07070707070707070707070707070707".toList⟩,
          ⟨"des_opt_in".toList, "Y".toList⟩], ⟨[], 0, 1⟩) :=
  SetAuthCookies_bare_secret (envWith deadClient) 0 NewCookieClient "secret".toList
    "07070707070707070707070707070707".toList world0 ⟨[], 0, 1⟩ (by decide) (by decide)
    (by decide)

/-! ## C2 -/

/-- C2. Transport errors leave the session untouched: when `MakeRequest` returns
an error for the single request of `Like`, `Retweet`, `Follow`, `Unfollow` with
a numeric ID, `Tweet` without media or `Comment` without media, the action
returns `Success=false`, `Status=StatusUnknown` and that error, and the client
(hence `Account.Ct0` and the cookie store) is exactly what it was before. -/
theorem transport_error_leaves_session_untouched (env : Env) (t : Twitter) (w w1 : World)
    (e : Error) :
    (∀ tweetID resolved, resolveTweetID tweetID = .ok (.inr resolved) →
      MakeRequest env t.Client (LikeRequest t resolved) w = .ok (.error e, w1) →
      Like env tweetID t w =
        .ok ({ Success := false, Error := some e, Status := .StatusUnknown }, t, w1)) ∧
    (∀ tweetID resolved, resolveTweetID tweetID = .ok (.inr resolved) →
      MakeRequest env t.Client (RetweetRequest t resolved) w = .ok (.error e, w1) →
      Retweet env tweetID t w =
        .ok ({ Success := false, Error := some e, Status := .StatusUnknown }, t, w1)) ∧
    (∀ username,
      MakeRequest env t.Client (FollowRequest t username) w = .ok (.error e, w1) →
      Follow env username t w =
        .ok ({ Success := false, Error := some e, Status := .StatusUnknown }, t, w1)) ∧
    (∀ userID, IsNumeric userID = true →
      MakeRequest env t.Client (UnfollowRequest t userID) w = .ok (.error e, w1) →
      Unfollow env userID t w =
        .ok ({ Success := false, Error := some e, Status := .StatusUnknown }, t, w1)) ∧
    (∀ content (opts : Option TweetOptions) jsonBody,
      (∀ o, opts = some o → o.MediaBase64 = []) →
      env.Marshal (tweetBody t content opts []) = .ok jsonBody →
      MakeRequest env t.Client (CreateTweetRequest t jsonBody) w = .ok (.error e, w1) →
      Tweet env content opts t w =
        .ok ({ Success := false, Error := some e, Status := .StatusUnknown }, t, w1)) ∧
    (∀ content tweetID resolved (opts : Option CommentOptions) jsonBody,
      resolveTweetID tweetID = .ok (.inr resolved) →
      (∀ o, opts = some o → o.MediaBase64 = []) →
      env.Marshal (commentBody t content resolved []) = .ok jsonBody →
      MakeRequest env t.Client (CreateTweetRequest t jsonBody) w = .ok (.error e, w1) →
      Comment env content tweetID opts t w =
        .ok ({ Success := false, Error := some e, Status := .StatusUnknown }, t, w1)) := by
  refine ⟨?_, ?_, ?_, ?_, ?_, ?_⟩
  · intro tweetID resolved hid hreq
    exact Like_failed env tweetID resolved t w w1 e hid hreq
  · intro tweetID resolved hid hreq
    exact Retweet_failed env tweetID resolved t w w1 e hid hreq
  · intro username hreq
    exact Follow_failed env username t w w1 e hreq
  · intro userID hnum hreq
    rw [Unfollow_numeric env userID t w hnum]
    exact unfollowByID_failed env userID t w w1 e hreq
  · intro content opts jsonBody hmedia hm hreq
    have hup : uploadIfMedia env (opts.map (fun o => o.MediaBase64)) t w = .ok (.inr [], t, w) :=
      uploadIfMedia_none env _ t w (by
        intro x hx
        cases opts with
        | none => simp at hx
        | some o => simp at hx; rw [← hx]; exact hmedia o rfl)
    rw [Tweet_after_upload env content [] opts t t w w hup]
    exact postTweet_failed env _ jsonBody t w w1 e hm hreq
  · intro content tweetID resolved opts jsonBody hid hmedia hm hreq
    have hup : uploadIfMedia env (opts.map (fun o => o.MediaBase64)) t w = .ok (.inr [], t, w) :=
      uploadIfMedia_none env _ t w (by
        intro x hx
        cases opts with
        | none => simp at hx
        | some o => simp at hx; rw [← hx]; exact hmedia o rfl)
    rw [Comment_after_upload env content tweetID resolved [] opts t t w w hid hup]
    exact postTweet_failed env _ jsonBody t w w1 e hm hreq

theorem transport_error_leaves_session_untouched_witness :
    Like (envWith deadClient) "20".toList (sessionWith deadClient) world0 =
      .ok ({ Success := false
             Error := some (.Wrap "failed to do request: ".toList
               (.Lib "connection refused".toList))
             Status := .StatusUnknown }, sessionWith deadClient,
           { world0 with sent := [buildRequest (LikeRequest (sessionWith deadClient) "20".toList)] }) :=
  (transport_error_leaves_session_untouched (envWith deadClient) (sessionWith deadClient) world0
    { world0 with sent := [buildRequest (LikeRequest (sessionWith deadClient) "20".toList)] }
    (.Wrap "failed to do request: ".toList (.Lib "connection refused".toList))).1
    "20".toList "20".toList (by decide) (by rfl)

/-! ## C5 -/

/-- C5, counterexample. With status 200 and the body
`{"data":{"favorite_tweet":"Done"},"already":1}` the success check of `Like`
holds, yet `Like` returns `StatusAlreadyDone` and not `StatusSuccess`. -/
theorem Like_success_check_not_first :
    ((200 : Int) ≥ 200 ∧ (200 : Int) ≤ 299) ∧
    LikeSuccessCheck doneAlreadyBody = true ∧
    (Like (envWith (fixedClient ⟨200, [], .ok doneAlreadyBody⟩)) "20".toList
      (sessionWith (fixedClient ⟨200, [], .ok doneAlreadyBody⟩)) world0).toOption.map
        (fun r => r.1) =
      some { Success := true, Error := none, Status := .StatusAlreadyDone } ∧
    ActionStatus.StatusAlreadyDone ≠ ActionStatus.StatusSuccess := by
  decide

/-- C5, amended. For every status in 200..299: when the body contains
`already`, `Like` returns `Success=true` with `StatusAlreadyDone`, whatever
else the body holds; when it does not and the success check of `Like` holds,
`Like` returns `Success=true` with `StatusSuccess`. -/
theorem Like_success_after_already_check (env : Env) (tweetID resolved body : List Char)
    (t : Twitter) (w w1 : World) (resp : Response)
    (hid : resolveTweetID tweetID = .ok (.inr resolved))
    (hreq : MakeRequest env t.Client (LikeRequest t resolved) w = .ok (.ok (body, resp), w1))
    (hstatus : resp.StatusCode ≥ 200 ∧ resp.StatusCode ≤ 299) :
    (Contains body "already".toList = true →
      Like env tweetID t w =
        .ok ({ Success := true, Error := none, Status := .StatusAlreadyDone },
          t.updateCookies resp, w1)) ∧
    (Contains body "already".toList = false → LikeSuccessCheck body = true →
      Like env tweetID t w =
        .ok ({ Success := true, Error := none, Status := .StatusSuccess },
          t.updateCookies resp, w1)) := by
  rw [Like_answered env tweetID resolved body t w w1 resp hid hreq]
  constructor
  · intro hal
    simp only [LikeResult, hstatus, hal, and_self, if_true]
  · intro hal hcheck
    unfold LikeSuccessCheck at hcheck
    unfold LikeResult
    cases hdec : json.Unmarshal body LikeGraphQLResponse with
    | error e => simp [hdec] at hcheck
    | ok response =>
      simp only [hdec, decide_eq_true_eq] at hcheck
      simp only [hstatus, hal, hcheck, and_self, if_true, Bool.false_eq_true, if_false]

theorem Like_success_after_already_check_witness :
    (Contains doneAlreadyBody "already".toList = true →
      Like (envWith (fixedClient ⟨200, [], .ok doneAlreadyBody⟩)) "20".toList
        (sessionWith (fixedClient ⟨200, [], .ok doneAlreadyBody⟩)) world0 =
        .ok ({ Success := true, Error := none, Status := .StatusAlreadyDone },
          (sessionWith (fixedClient ⟨200, [], .ok doneAlreadyBody⟩)).updateCookies
            ⟨200, [], .ok doneAlreadyBody⟩,
          { world0 with sent := [buildRequest
            (LikeRequest (sessionWith (fixedClient ⟨200, [], .ok doneAlreadyBody⟩))
              "20".toList)] })) ∧
    (Contains doneAlreadyBody "already".toList = false →
      LikeSuccessCheck doneAlreadyBody = true →
      Like (envWith (fixedClient ⟨200, [], .ok doneAlreadyBody⟩)) "20".toList
        (sessionWith (fixedClient ⟨200, [], .ok doneAlreadyBody⟩)) world0 =
        .ok ({ Success := true, Error := none, Status := .StatusSuccess },
          (sessionWith (fixedClient ⟨200, [], .ok doneAlreadyBody⟩)).updateCookies
            ⟨200, [], .ok doneAlreadyBody⟩,
          { world0 with sent := [buildRequest
            (LikeRequest (sessionWith (fixedClient ⟨200, [], .ok doneAlreadyBody⟩))
              "20".toList)] })) :=
  Like_success_after_already_check (envWith (fixedClient ⟨200, [], .ok doneAlreadyBody⟩))
    "20".toList "20".toList doneAlreadyBody
    (sessionWith (fixedClient ⟨200, [], .ok doneAlreadyBody⟩)) world0
    { world0 with sent := [buildRequest
      (LikeRequest (sessionWith (fixedClient ⟨200, [], .ok doneAlreadyBody⟩)) "20".toList)] }
    ⟨200, [], .ok doneAlreadyBody⟩ (by decide) (by rfl) (by decide)

/-! ## C6 -/

/-- C6, counterexample. A transport that answers every request with status 403
and the plain-text body `this account is temporarily locked`: the status is
outside 200..299 and the body contains the locked phrase, yet `Tweet` and
`Comment` with media return `StatusUnknown`, not `StatusLocked`, and `VotePoll`
returns nothing.  For `Tweet` and `Comment` the answer is the one to the media
upload, which comes first: its body is not JSON, so `UploadMedia` reports the
decoding error and the action returns it wrapped in `failed to upload media: `
after that one request, without sending `CreateTweet`.  For `VotePoll` the
answer is the one to the tweet-details request, in which the poll markers are
looked up by index. -/
theorem locked_answer_to_earlier_request :
    ¬ (200 ≤ (403 : Int) ∧ (403 : Int) ≤ 299) ∧
    Contains lockedBody "this account is temporarily locked".toList = true ∧
    (Tweet (envWith (fixedClient ⟨403, [], .ok lockedBody⟩)) "hi".toList
      (some ⟨[], "aGk=".toList⟩) (sessionWith (fixedClient ⟨403, [], .ok lockedBody⟩))
      world0).toOption.map (fun r => (r.1, r.2.2.sent.map (fun q => q.URL))) =
    some ({ Success := false
            Error := some (.Wrap "failed to upload media: ".toList (.Json .syntaxError))
            Status := .StatusUnknown },
      ["https://upload.twitter.com/1.1/media/upload.json".toList]) ∧
    (Comment (envWith (fixedClient ⟨403, [], .ok lockedBody⟩)) "hi".toList "20".toList
      (some ⟨"aGk=".toList⟩) (sessionWith (fixedClient ⟨403, [], .ok lockedBody⟩))
      world0).toOption.map (fun r => (r.1, r.2.2.sent.map (fun q => q.URL))) =
    some ({ Success := false
            Error := some (.Wrap "failed to upload media: ".toList (.Json .syntaxError))
            Status := .StatusUnknown },
      ["https://upload.twitter.com/1.1/media/upload.json".toList]) ∧
    (VotePoll (envWith (fixedClient ⟨403, [], .ok lockedBody⟩)) "20".toList "1".toList
      (sessionWith (fixedClient ⟨403, [], .ok lockedBody⟩)) world0).map (fun r => r.1) =
    .error .indexOutOfRange := by
  decide

/-- C6, amended. Ordered decision list on the non-2xx response to the request
of the action itself: the one request of `Like`, `Retweet` and `Follow`; for
`Unfollow` its unfollow request or, with a name instead of a numeric ID, the
user lookup before it; for `Tweet` and `Comment` the `CreateTweet` request,
reached when there is no media or the media upload gave a media ID without an
error; for `VotePoll` the vote request, reached when the tweet details were
fetched and both poll markers found in them.  Whenever that response has a
status outside 200..299, whatever its body, the action returns `Success=false`
with `StatusLocked` if the body contains the locked phrase, otherwise
`StatusAuthError` if it contains the authentication phrase, otherwise
`StatusUnknown` with the error `unknown response: ` followed by the raw body. -/
theorem non_2xx_ordered_decision_list (env : Env) (body : List Char) (resp : Response)
    (hstatus : ¬ (200 ≤ resp.StatusCode ∧ resp.StatusCode ≤ 299)) :
    (∀ tweetID resolved t w w1, resolveTweetID tweetID = .ok (.inr resolved) →
      MakeRequest env t.Client (LikeRequest t resolved) w = .ok (.ok (body, resp), w1) →
      ∃ r, Like env tweetID t w = .ok (r, t.updateCookies resp, w1) ∧
        OrderedErrorOutcome body r) ∧
    (∀ tweetID resolved t w w1, resolveTweetID tweetID = .ok (.inr resolved) →
      MakeRequest env t.Client (RetweetRequest t resolved) w = .ok (.ok (body, resp), w1) →
      ∃ r, Retweet env tweetID t w = .ok (r, t.updateCookies resp, w1) ∧
        OrderedErrorOutcome body r) ∧
    (∀ username t w w1,
      MakeRequest env t.Client (FollowRequest t username) w = .ok (.ok (body, resp), w1) →
      ∃ r, Follow env username t w = .ok (r, t.updateCookies resp, w1) ∧
        OrderedErrorOutcome body r) ∧
    (∀ userID t w w1, IsNumeric userID = true →
      MakeRequest env t.Client (UnfollowRequest t userID) w = .ok (.ok (body, resp), w1) →
      ∃ r, Unfollow env userID t w = .ok (r, t.updateCookies resp, w1) ∧
        OrderedErrorOutcome body r) ∧
    (∀ username t w w1, IsNumeric username = false →
      MakeRequest env t.Client (UserInfoRequest t username) w = .ok (.ok (body, resp), w1) →
      ∃ r, Unfollow env username t w = .ok (r, t.updateCookies resp, w1) ∧
        OrderedErrorOutcome body r) ∧
    (∀ username info lookup t t1 w w1 w2, IsNumeric username = false →
      GetUserInfoByUsername env username t w = .ok ((some info, lookup), t1, w1) →
      lookup.Success = true →
      MakeRequest env t1.Client (UnfollowRequest t1
        ((((info.field "data".toList).field "user".toList).field "result".toList).field
          "rest_id".toList).str) w1 = .ok (.ok (body, resp), w2) →
      ∃ r, Unfollow env username t w = .ok (r, t1.updateCookies resp, w2) ∧
        OrderedErrorOutcome body r) ∧
    (∀ content (opts : Option TweetOptions) mediaID jsonBody t t1 w w1 w2,
      uploadIfMedia env (opts.map (fun o => o.MediaBase64)) t w = .ok (.inr mediaID, t1, w1) →
      env.Marshal (tweetBody t1 content opts mediaID) = .ok jsonBody →
      MakeRequest env t1.Client (CreateTweetRequest t1 jsonBody) w1 =
        .ok (.ok (body, resp), w2) →
      ∃ r, Tweet env content opts t w = .ok (r, t1.updateCookies resp, w2) ∧
        OrderedErrorOutcome body r) ∧
    (∀ content tweetID resolved (opts : Option CommentOptions) mediaID jsonBody t t1 w w1 w2,
      resolveTweetID tweetID = .ok (.inr resolved) →
      uploadIfMedia env (opts.map (fun o => o.MediaBase64)) t w = .ok (.inr mediaID, t1, w1) →
      env.Marshal (commentBody t1 content resolved mediaID) = .ok jsonBody →
      MakeRequest env t1.Client (CreateTweetRequest t1 jsonBody) w1 =
        .ok (.ok (body, resp), w2) →
      ∃ r, Comment env content tweetID opts t w = .ok (r, t1.updateCookies resp, w2) ∧
        OrderedErrorOutcome body r) ∧
    (∀ tweetID resolved answer details pollName cardID t t1 w w1 w2,
      resolveTweetID tweetID = .ok (.inr resolved) →
      getTweetDetails env resolved t w = .ok ((details, none), t1, w1) →
      pollInfo details = .ok (pollName, cardID) →
      MakeRequest env t1.Client (VotePollRequest t1 cardID resolved pollName answer) w1 =
        .ok (.ok (body, resp), w2) →
      ∃ r, VotePoll env tweetID answer t w = .ok (r, t1.updateCookies resp, w2) ∧
        OrderedErrorOutcome body r) := by
  refine ⟨?_, ?_, ?_, ?_, ?_, ?_, ?_, ?_, ?_⟩
  · intro tweetID resolved t w w1 hid hreq
    refine ⟨errorResponse body, ?_, errorResponse_ordered body⟩
    rw [Like_answered env tweetID resolved body t w w1 resp hid hreq,
      LikeResult_error _ _ hstatus]
  · intro tweetID resolved t w w1 hid hreq
    refine ⟨errorResponse body, ?_, errorResponse_ordered body⟩
    rw [Retweet_answered env tweetID resolved body t w w1 resp hid hreq,
      RetweetResult_error _ _ hstatus]
  · intro username t w w1 hreq
    refine ⟨errorResponse body, ?_, errorResponse_ordered body⟩
    rw [Follow_answered env username body t w w1 resp hreq, FollowResult_error _ _ hstatus]
  · intro userID t w w1 hnum hreq
    refine ⟨errorResponse body, ?_, errorResponse_ordered body⟩
    rw [Unfollow_numeric env userID t w hnum,
      unfollowByID_answered env userID body t w w1 resp hreq, FollowResult_error _ _ hstatus]
  · intro username t w w1 hnum hreq
    refine ⟨errorResponse body, ?_, errorResponse_ordered body⟩
    have hfalse : (errorResponse body).Success = false := (errorResponse_ordered body).1
    simp only [Unfollow, hnum, Bool.not_false, if_true,
      GetUserInfoByUsername_answered env username body t w w1 resp hreq,
      UserInfoResult_error _ _ hstatus, hfalse]
  · intro username info lookup t t1 w w1 w2 hnum hinfo hsucc hreq
    refine ⟨errorResponse body, ?_, errorResponse_ordered body⟩
    simp only [Unfollow, hnum, Bool.not_false, if_true, hinfo, hsucc, Bool.not_true,
      Bool.false_eq_true, if_false,
      unfollowByID_answered env _ body t1 w1 w2 resp hreq, FollowResult_error _ _ hstatus]
  · intro content opts mediaID jsonBody t t1 w w1 w2 hup hm hreq
    refine ⟨errorResponse body, ?_, errorResponse_ordered body⟩
    rw [Tweet_after_upload env content mediaID opts t t1 w w1 hup,
      postTweet_answered env _ jsonBody body t1 w1 w2 resp hm hreq,
      TweetResult_error _ _ hstatus]
  · intro content tweetID resolved opts mediaID jsonBody t t1 w w1 w2 hid hup hm hreq
    refine ⟨errorResponse body, ?_, errorResponse_ordered body⟩
    rw [Comment_after_upload env content tweetID resolved mediaID opts t t1 w w1 hid hup,
      postTweet_answered env _ jsonBody body t1 w1 w2 resp hm hreq,
      TweetResult_error _ _ hstatus]
  · intro tweetID resolved answer details pollName cardID t t1 w w1 w2 hid hdet hpoll hreq
    refine ⟨errorResponse body, ?_, errorResponse_ordered body⟩
    rw [VotePoll_answered env tweetID resolved answer details pollName cardID body t t1 w w1 w2
      resp hid hdet hpoll hreq, VotePollResult_error _ _ hstatus]

theorem non_2xx_ordered_decision_list_witness :
    ∃ r, Like (envWith (fixedClient ⟨403, [], .ok lockedBody⟩)) "20".toList
        (sessionWith (fixedClient ⟨403, [], .ok lockedBody⟩)) world0 =
        .ok (r, (sessionWith (fixedClient ⟨403, [], .ok lockedBody⟩)).updateCookies
          ⟨403, [], .ok lockedBody⟩,
          { world0 with sent := [buildRequest
            (LikeRequest (sessionWith (fixedClient ⟨403, [], .ok lockedBody⟩)) "20".toList)] }) ∧
      OrderedErrorOutcome lockedBody r :=
  (non_2xx_ordered_decision_list (envWith (fixedClient ⟨403, [], .ok lockedBody⟩)) lockedBody
    ⟨403, [], .ok lockedBody⟩ (by decide)).1 "20".toList "20".toList
    (sessionWith (fixedClient ⟨403, [], .ok lockedBody⟩)) world0
    { world0 with sent := [buildRequest
      (LikeRequest (sessionWith (fixedClient ⟨403, [], .ok lockedBody⟩)) "20".toList)] }
    (by decide) (by rfl)

/-! ## C7 -/

/-- C7, counterexample. With status 200 and the body
`this account is temporarily locked` the success check of `Like` fails, the
body has no `already` marker and contains the locked phrase, yet `Like` returns
`StatusUnknown` with the JSON syntax error, not `StatusLocked`. -/
theorem Like_locked_not_recognised_in_2xx :
    ((200 : Int) ≥ 200 ∧ (200 : Int) ≤ 299) ∧
    LikeSuccessCheck lockedBody = false ∧
    Contains lockedBody "already".toList = false ∧
    Contains lockedBody "this account is temporarily locked".toList = true ∧
    (Like (envWith (fixedClient ⟨200, [], .ok lockedBody⟩)) "20".toList
      (sessionWith (fixedClient ⟨200, [], .ok lockedBody⟩)) world0).toOption.map
        (fun r => r.1) =
      some { Success := false, Error := some (.Json .syntaxError), Status := .StatusUnknown } ∧
    ActionStatus.StatusUnknown ≠ ActionStatus.StatusLocked := by
  decide

/-- C7, amended. Inside the success range `Like` does not look for the locked
phrase: for every status in 200..299 and every body without `already` that does
not decode as JSON, `Like` returns `Success=false`, `StatusUnknown` and the
decode error, whether or not the body contains the locked phrase.  For a status
outside 200..299 and a body that contains the locked phrase, `Like` returns
`StatusLocked` with `ErrAccountLocked`. -/
theorem Like_locked_only_outside_2xx (env : Env) (tweetID resolved body : List Char)
    (t : Twitter) (w w1 : World) (resp : Response)
    (hid : resolveTweetID tweetID = .ok (.inr resolved))
    (hreq : MakeRequest env t.Client (LikeRequest t resolved) w = .ok (.ok (body, resp), w1)) :
    (∀ e, resp.StatusCode ≥ 200 ∧ resp.StatusCode ≤ 299 →
      Contains body "already".toList = false →
      json.Unmarshal body LikeGraphQLResponse = .error e →
      Like env tweetID t w =
        .ok ({ Success := false, Error := some (.Json e), Status := .StatusUnknown },
          t.updateCookies resp, w1)) ∧
    (¬ (resp.StatusCode ≥ 200 ∧ resp.StatusCode ≤ 299) →
      Contains body "this account is temporarily locked".toList = true →
      Like env tweetID t w =
        .ok ({ Success := false, Error := some .ErrAccountLocked, Status := .StatusLocked },
          t.updateCookies resp, w1)) := by
  rw [Like_answered env tweetID resolved body t w w1 resp hid hreq]
  constructor
  · intro e hstatus hal hdec
    simp only [LikeResult, hstatus, hal, hdec, and_self, if_true, Bool.false_eq_true, if_false]
  · intro hstatus hlocked
    simp only [LikeResult, hstatus, errorResponse, hlocked, if_true, if_false]

theorem Like_locked_only_outside_2xx_witness :
    (∀ e, ((200 : Int) ≥ 200 ∧ (200 : Int) ≤ 299) →
      Contains lockedBody "already".toList = false →
      json.Unmarshal lockedBody LikeGraphQLResponse = .error e →
      Like (envWith (fixedClient ⟨200, [], .ok lockedBody⟩)) "20".toList
        (sessionWith (fixedClient ⟨200, [], .ok lockedBody⟩)) world0 =
        .ok ({ Success := false, Error := some (.Json e), Status := .StatusUnknown },
          (sessionWith (fixedClient ⟨200, [], .ok lockedBody⟩)).updateCookies
            ⟨200, [], .ok lockedBody⟩,
          { world0 with sent := [buildRequest
            (LikeRequest (sessionWith (fixedClient ⟨200, [], .ok lockedBody⟩)) "20".toList)] })) ∧
    (¬ ((200 : Int) ≥ 200 ∧ (200 : Int) ≤ 299) →
      Contains lockedBody "this account is temporarily locked".toList = true →
      Like (envWith (fixedClient ⟨200, [], .ok lockedBody⟩)) "20".toList
        (sessionWith (fixedClient ⟨200, [], .ok lockedBody⟩)) world0 =
        .ok ({ Success := false, Error := some .ErrAccountLocked, Status := .StatusLocked },
          (sessionWith (fixedClient ⟨200, [], .ok lockedBody⟩)).updateCookies
            ⟨200, [], .ok lockedBody⟩,
          { world0 with sent := [buildRequest
            (LikeRequest (sessionWith (fixedClient ⟨200, [], .ok lockedBody⟩)) "20".toList)] })) :=
  Like_locked_only_outside_2xx (envWith (fixedClient ⟨200, [], .ok lockedBody⟩))
    "20".toList "20".toList lockedBody
    (sessionWith (fixedClient ⟨200, [], .ok lockedBody⟩)) world0
    { world0 with sent := [buildRequest
      (LikeRequest (sessionWith (fixedClient ⟨200, [], .ok lockedBody⟩)) "20".toList)] }
    ⟨200, [], .ok lockedBody⟩ (by decide) (by rfl)

/-! ## C8 -/

/-- C8. Already-done is a success: when the response to the request of `Like`
or `Retweet` has a status in 200..299 and a body containing `already`, or the
response to the request of `Tweet` or `Comment` has such a status and a body
containing `duplicate`, the action returns `Success=true`,
`Status=StatusAlreadyDone` and a nil error (whether or not the structural check
would hold). -/
theorem already_done_is_success (env : Env) (body : List Char) (resp : Response)
    (hstatus : resp.StatusCode ≥ 200 ∧ resp.StatusCode ≤ 299) :
    (∀ tweetID resolved t w w1, resolveTweetID tweetID = .ok (.inr resolved) →
      MakeRequest env t.Client (LikeRequest t resolved) w = .ok (.ok (body, resp), w1) →
      Contains body "already".toList = true →
      Like env tweetID t w =
        .ok ({ Success := true, Error := none, Status := .StatusAlreadyDone },
          t.updateCookies resp, w1)) ∧
    (∀ tweetID resolved t w w1, resolveTweetID tweetID = .ok (.inr resolved) →
      MakeRequest env t.Client (RetweetRequest t resolved) w = .ok (.ok (body, resp), w1) →
      Contains body "already".toList = true →
      Retweet env tweetID t w =
        .ok ({ Success := true, Error := none, Status := .StatusAlreadyDone },
          t.updateCookies resp, w1)) ∧
    (∀ content (opts : Option TweetOptions) mediaID jsonBody t t1 w w1 w2,
      uploadIfMedia env (opts.map (fun o => o.MediaBase64)) t w = .ok (.inr mediaID, t1, w1) →
      env.Marshal (tweetBody t1 content opts mediaID) = .ok jsonBody →
      MakeRequest env t1.Client (CreateTweetRequest t1 jsonBody) w1 =
        .ok (.ok (body, resp), w2) →
      Contains body "duplicate".toList = true →
      Tweet env content opts t w =
        .ok ({ Success := true, Error := none, Status := .StatusAlreadyDone },
          t1.updateCookies resp, w2)) ∧
    (∀ content tweetID resolved (opts : Option CommentOptions) mediaID jsonBody t t1 w w1 w2,
      resolveTweetID tweetID = .ok (.inr resolved) →
      uploadIfMedia env (opts.map (fun o => o.MediaBase64)) t w = .ok (.inr mediaID, t1, w1) →
      env.Marshal (commentBody t1 content resolved mediaID) = .ok jsonBody →
      MakeRequest env t1.Client (CreateTweetRequest t1 jsonBody) w1 =
        .ok (.ok (body, resp), w2) →
      Contains body "duplicate".toList = true →
      Comment env content tweetID opts t w =
        .ok ({ Success := true, Error := none, Status := .StatusAlreadyDone },
          t1.updateCookies resp, w2)) := by
  refine ⟨?_, ?_, ?_, ?_⟩
  · intro tweetID resolved t w w1 hid hreq hmark
    rw [Like_answered env tweetID resolved body t w w1 resp hid hreq]
    simp only [LikeResult, hstatus, hmark, and_self, if_true]
  · intro tweetID resolved t w w1 hid hreq hmark
    rw [Retweet_answered env tweetID resolved body t w w1 resp hid hreq]
    simp only [RetweetResult, hstatus, hmark, and_self, if_true]
  · intro content opts mediaID jsonBody t t1 w w1 w2 hup hm hreq hmark
    rw [Tweet_after_upload env content mediaID opts t t1 w w1 hup,
      postTweet_answered env _ jsonBody body t1 w1 w2 resp hm hreq]
    simp only [TweetResult, hstatus, hmark, and_self, if_true]
  · intro content tweetID resolved opts mediaID jsonBody t t1 w w1 w2 hid hup hm hreq hmark
    rw [Comment_after_upload env content tweetID resolved mediaID opts t t1 w w1 hid hup,
      postTweet_answered env _ jsonBody body t1 w1 w2 resp hm hreq]
    simp only [TweetResult, hstatus, hmark, and_self, if_true]

theorem already_done_is_success_witness :
    Retweet (envWith (fixedClient ⟨200, [], .ok alreadyBody⟩)) "20".toList
        (sessionWith (fixedClient ⟨200, [], .ok alreadyBody⟩)) world0 =
      .ok ({ Success := true, Error := none, Status := .StatusAlreadyDone },
        (sessionWith (fixedClient ⟨200, [], .ok alreadyBody⟩)).updateCookies
          ⟨200, [], .ok alreadyBody⟩,
        { world0 with sent := [buildRequest
          (RetweetRequest (sessionWith (fixedClient ⟨200, [], .ok alreadyBody⟩))
            "20".toList)] }) :=
  (already_done_is_success (envWith (fixedClient ⟨200, [], .ok alreadyBody⟩)) alreadyBody
    ⟨200, [], .ok alreadyBody⟩ (by decide)).2.1 "20".toList "20".toList
    (sessionWith (fixedClient ⟨200, [], .ok alreadyBody⟩)) world0
    { world0 with sent := [buildRequest
      (RetweetRequest (sessionWith (fixedClient ⟨200, [], .ok alreadyBody⟩)) "20".toList)] }
    (by decide) (by rfl) (by decide)

/-! ## C10 -/

/-- C10, the code at the failing input. Called with the JSON export
`[{"name":"auth_token","value":"X"},{"name":"ct0","value":"Y"}]`,
`SetAuthCookies` hands the text between the brackets to the decoder, which
rejects it, and returns `("", "", err)` with the decode error, leaving the
cookie store as it was; it does not return `(X, Y, nil)`. -/
theorem SetAuthCookies_json_export_fails (env : Env) (accountIndex : Int)
    (store : CookieClient) (w : World) :
    SetAuthCookies env accountIndex store exportXY w =
      .ok (([], [], some (.Fmt (fmtInt accountIndex ++
        " | Failed to decode account json cookies: ".toList) (.Json .syntaxError))), store, w) := by
  have h1 : (Contains exportXY "[".toList && Contains exportXY "]".toList) = true := by decide
  have h2 : index (Split exportXY "[".toList) 1 = .ok (exportXY.drop 1) := by decide
  have h3 : index (Split (exportXY.drop 1) "]".toList) 0 = .ok (exportXY.drop 1).dropLast := by
    decide
  have h4 : json.parse (exportXY.drop 1).dropLast = none :=
    Option.isNone_iff_eq_none.mp (by decide)
  simp only [SetAuthCookies, h1, if_true, h2, h3, json.Unmarshal, h4]

/-! ## Retry loops over a transport that always fails -/

/-- A request over a transport that fails is an error and is recorded. -/
theorem MakeRequest_dead (env : Env) (c : HttpClient) (config : RequestConfig) (w : World)
    (hnew : ∀ m u, env.NewRequest m u = none) (hdead : ∀ k r, ∃ e, c.Do k r = .error e) :
    ∃ e, MakeRequest env (some c) config w =
      .ok (.error e, { w with sent := w.sent ++ [buildRequest config] }) := by
  obtain ⟨e, he⟩ := hdead w.sent.length (buildRequest config)
  exact ⟨.Wrap "failed to do request: ".toList e, by simp only [MakeRequest, hnew, he]⟩

/-- Over a transport that always fails, the loop of `GetTwitterUsername` uses
up its `n` turns, one request each, and reports `StatusUnknown`. -/
theorem getTwitterUsernameLoop_dead (env : Env) (c : HttpClient) (config : Config)
    (csrfToken : List Char) (store : CookieClient)
    (hnew : ∀ m u, env.NewRequest m u = none) (hdead : ∀ k r, ∃ e, c.Do k r = .error e)
    (n : Nat) (w : World) :
    ∃ w1, getTwitterUsernameLoop env (some c) config csrfToken n store w =
        .ok (([], [], some .ErrUnknown, .StatusUnknown), store, w1) ∧
      w1.sent.length = w.sent.length + n ∧ w1.clients = w.clients ∧
      w1.randomReads = w.randomReads := by
  induction n generalizing w with
  | zero => exact ⟨w, rfl, rfl, rfl, rfl⟩
  | succ n ih =>
    obtain ⟨e, he⟩ := MakeRequest_dead env c (viewerRequest config store csrfToken) w hnew hdead
    obtain ⟨w1, h1, h2, h3, h4⟩ :=
      ih { w with sent := w.sent ++ [buildRequest (viewerRequest config store csrfToken)] }
    refine ⟨w1, ?_, ?_, h3, h4⟩
    · simp only [getTwitterUsernameLoop, he, h1]
    · rw [h2]; simp only [List.length_append, List.length_singleton]; omega

/-- Over a transport that always fails, with client creation and the
bare-secret bootstrap succeeding every time, the loop of `init` uses up its `n`
turns, each issuing `MaxRetries` identity requests, and returns the exhaustion
error. -/
theorem initLoop_dead (env : Env) (credential : List Char)
    (hnew : ∀ m u, env.NewRequest m u = none)
    (hclient : ∀ k p, ∃ c, env.NewHttpClient k p = .ok c ∧ ∀ j r, ∃ e, c.Do j r = .error e)
    (hrand : ∀ k, ∃ bytes, env.RandRead k = .ok bytes)
    (hbrackets : ¬ (Contains credential "[".toList = true ∧
      Contains credential "]".toList = true))
    (hlen : byteLen credential < 60)
    (n : Nat) (i : Int) (t : Twitter) (w : World) (hcred : t.Account.AuthToken = credential) :
    ∃ t1 w1, initLoop env n i t w =
        .ok (some (.New ("failed to initialize after ".toList ++ fmtInt t.Config.MaxRetries ++
          " retries".toList)), t1, w1) ∧
      w1.sent.length = w.sent.length + n * t.Config.MaxRetries.toNat ∧
      w1.clients = w.clients + n := by
  induction n generalizing i t w with
  | zero => exact ⟨t, w, rfl, by simp, rfl⟩
  | succ n ih =>
    obtain ⟨c, hc, hdead⟩ := hclient w.clients
      (if t.Account.Proxy ≠ [] then some ("http://".toList ++ t.Account.Proxy) else none)
    obtain ⟨bytes, hbytes⟩ := hrand w.randomReads
    have hgen : twitter_utils.GenerateCSRFToken env { w with clients := w.clients + 1 } =
        (.ok (twitter_utils.EncodeToString (List.ofFn bytes)),
          { w with clients := w.clients + 1, randomReads := w.randomReads + 1 }) := by
      simp only [twitter_utils.GenerateCSRFToken, hbytes]
    have hset := SetAuthCookies_of_bare env i t.Cookies credential _ _ _ hbrackets hlen hgen
    obtain ⟨w3, h3, hsent, hcl, _⟩ := getTwitterUsernameLoop_dead env c t.Config
      (twitter_utils.EncodeToString (List.ofFn bytes))
      (t.Cookies.AddCookies [⟨"auth_token".toList, credential⟩,
        ⟨"ct0".toList, twitter_utils.EncodeToString (List.ofFn bytes)⟩,
        ⟨"des_opt_in".toList, "Y".toList⟩]) hnew hdead t.Config.MaxRetries.toNat
      { w with clients := w.clients + 1, randomReads := w.randomReads + 1 }
    obtain ⟨t1, w1, h1, h1sent, h1cl⟩ := ih (i + 1)
      { Account := { t.Account with AuthToken := credential
                                    Ct0 := twitter_utils.EncodeToString (List.ofFn bytes) }
        Client := some c
        Config := t.Config
        Cookies := t.Cookies.AddCookies [⟨"auth_token".toList, credential⟩,
          ⟨"ct0".toList, twitter_utils.EncodeToString (List.ofFn bytes)⟩,
          ⟨"des_opt_in".toList, "Y".toList⟩] } w3 rfl
    refine ⟨t1, w1, ?_, ?_, ?_⟩
    · simp only [initLoop, CreateHttpClient, hc, hcred, hset, GetTwitterUsername, h3]
      exact h1
    · rw [h1sent, hsent]; simp only [Nat.succ_mul]; omega
    · rw [h1cl, hcl]; simp only; omega

/-! ## C3 -/

/-- C3, counterexample. With `MaxRetries = 2` and a transport that fails on
every request, `init` returns the exhaustion error after issuing 4 identity
requests, not 2. -/
theorem init_issues_more_than_MaxRetries_requests :
    (init (envWith deadClient) (sessionRetries deadClient 2) world0).toOption.map
      (fun r => (r.1, r.2.2.sent.length)) =
    some (some (.New "failed to initialize after 2 retries".toList), 4) ∧
    (4 : Nat) ≠ 2 := by
  decide

/-- C3, amended. For every `MaxRetries >= 1`, when the transport fails on every
request while requests can be built, HTTP clients can be created, the random
source delivers and the credential is a bare secret (not both brackets, shorter
than 60 bytes), `init` terminates after exactly `MaxRetries` attempts (one HTTP
client each), issuing `MaxRetries * MaxRetries` identity requests in all, and
returns the error `failed to initialize after MaxRetries retries`. -/
theorem init_terminates_on_dead_transport (env : Env) (t : Twitter) (w : World)
    (hretries : 1 ≤ t.Config.MaxRetries)
    (hnew : ∀ m u, env.NewRequest m u = none)
    (hclient : ∀ k p, ∃ c, env.NewHttpClient k p = .ok c ∧ ∀ j r, ∃ e, c.Do j r = .error e)
    (hrand : ∀ k, ∃ bytes, env.RandRead k = .ok bytes)
    (hbrackets : ¬ (Contains t.Account.AuthToken "[".toList = true ∧
      Contains t.Account.AuthToken "]".toList = true))
    (hlen : byteLen t.Account.AuthToken < 60) :
    ∃ t1 w1, init env t w =
        .ok (some (.New ("failed to initialize after ".toList ++ fmtInt t.Config.MaxRetries ++
          " retries".toList)), t1, w1) ∧
      (w1.sent.length : Int) = w.sent.length + t.Config.MaxRetries * t.Config.MaxRetries ∧
      (w1.clients : Int) = w.clients + t.Config.MaxRetries := by
  obtain ⟨t1, w1, h1, hsent, hcl⟩ := initLoop_dead env t.Account.AuthToken hnew hclient hrand
    hbrackets hlen t.Config.MaxRetries.toNat 0 t w rfl
  refine ⟨t1, w1, h1, ?_, ?_⟩
  · rw [hsent]
    have : ((t.Config.MaxRetries.toNat : Nat) : Int) = t.Config.MaxRetries :=
      Int.toNat_of_nonneg (by omega)
    push_cast
    rw [this]
  · rw [hcl]
    have : ((t.Config.MaxRetries.toNat : Nat) : Int) = t.Config.MaxRetries :=
      Int.toNat_of_nonneg (by omega)
    push_cast
    rw [this]

theorem init_terminates_on_dead_transport_witness :
    ∃ t1 w1, init (envWith deadClient) (sessionRetries deadClient 2) world0 =
        .ok (some (.New ("failed to initialize after ".toList ++
          fmtInt (sessionRetries deadClient 2).Config.MaxRetries ++ " retries".toList)), t1, w1) ∧
      (w1.sent.length : Int) = world0.sent.length +
        (sessionRetries deadClient 2).Config.MaxRetries *
          (sessionRetries deadClient 2).Config.MaxRetries ∧
      (w1.clients : Int) = world0.clients + (sessionRetries deadClient 2).Config.MaxRetries :=
  init_terminates_on_dead_transport (envWith deadClient) (sessionRetries deadClient 2) world0
    (by decide) (fun _ _ => rfl)
    (fun _ _ => ⟨deadClient, rfl, fun _ _ => ⟨_, rfl⟩⟩)
    (fun _ => ⟨_, rfl⟩) (by decide) (by decide)

/-! ## C4 -/

/-- C4. Account-status failures are terminal for initialization. Suppose a run
of `init` reaches an attempt (with `n` further attempts left) in which the HTTP
client and the auth cookies are set up, and the identity lookup of that attempt
reaches a turn (with `m` further turns left) whose request is answered without
transport error, after which the cookie store holds a `ct0` value, by a body
without `screen_name`. If the body contains the locked phrase, `init` returns
the error `account is locked: ` wrapping `ErrAccountLocked`; if it contains the
authentication phrase and not the locked phrase, `init` returns the error
`authentication failed: ` (wrapping `ErrInvalidToken`). In both cases the world
returned is the one right after that request: no further request is issued,
whatever `n` and `m` are. -/
theorem init_stops_on_account_status (env : Env) (n m : Nat) (i : Int) (t0 t : Twitter)
    (w0 w w1 w2 wK wK1 : World) (c : HttpClient) (authToken ct0 body newCsrfToken : List Char)
    (store storeK : CookieClient) (resp : Response)
    (hinit : init env t0 w0 = initLoop env (n + 1) i t w)
    (hclient : CreateHttpClient env t.Account.Proxy w = (.ok c, w1))
    (hauth : SetAuthCookies env i t.Cookies t.Account.AuthToken w1 =
      .ok ((authToken, ct0, none), store, w2))
    (hturn : GetTwitterUsername env (some c) store t.Config ct0 w2 =
      getTwitterUsernameLoop env (some c) t.Config ct0 (m + 1) storeK wK)
    (hreq : MakeRequest env (some c) (viewerRequest t.Config storeK ct0) wK =
      .ok (.ok (body, resp), wK1))
    (hct0 : (storeK.SetCookieFromResponse resp).GetCookieValue "ct0".toList = some newCsrfToken)
    (hscreen : Contains body "screen_name".toList = false) :
    (Contains body "this account is temporarily locked".toList = true →
      (∃ t1, init env t0 w0 =
        .ok (some (.Wrap "account is locked: ".toList .ErrAccountLocked), t1, wK1)) ∧
      Error.Is (.Wrap "account is locked: ".toList .ErrAccountLocked) .ErrAccountLocked = true) ∧
    (Contains body "this account is temporarily locked".toList = false →
      Contains body "Could not authenticate you".toList = true →
      ∃ t1, init env t0 w0 =
        .ok (some (.Wrap "authentication failed: ".toList .ErrInvalidToken), t1, wK1)) := by
  constructor
  · intro hlocked
    refine ⟨?_, by decide⟩
    rw [hinit]
    simp only [initLoop, hclient, hauth, hturn, getTwitterUsernameLoop, hreq, hct0, hscreen,
      hlocked, if_true, Bool.false_eq_true, if_false]
    exact ⟨_, rfl⟩
  · intro hlocked hauthp
    rw [hinit]
    simp only [initLoop, hclient, hauth, hturn, getTwitterUsernameLoop, hreq, hct0, hscreen,
      hlocked, hauthp, if_true, Bool.false_eq_true, if_false]
    exact ⟨_, rfl⟩

theorem init_stops_on_account_status_witness :
    (Contains lockedBody "this account is temporarily locked".toList = true →
      (∃ t1, init (envWith (fixedClient lockedViewerResponse))
          (sessionWith (fixedClient lockedViewerResponse)) world0 =
        .ok (some (.Wrap "account is locked: ".toList .ErrAccountLocked), t1,
          { sent := [buildRequest (viewerRequest NewConfig
              (NewCookieClient.AddCookies [⟨"auth_token".toList, "secret".toList⟩,
                ⟨"ct0".toList, "07070707070707070707070707070707".toList⟩,
                ⟨"des_opt_in".toList, "Y".toList⟩])
              "07070707070707070707070707070707".toList)]
            clients := 1
            randomReads := 1 })) ∧
      Error.Is (.Wrap "account is locked: ".toList .ErrAccountLocked) .ErrAccountLocked = true) ∧
    (Contains lockedBody "this account is temporarily locked".toList = false →
      Contains lockedBody "Could not authenticate you".toList = true →
      ∃ t1, init (envWith (fixedClient lockedViewerResponse))
          (sessionWith (fixedClient lockedViewerResponse)) world0 =
        .ok (some (.Wrap "authentication failed: ".toList .ErrInvalidToken), t1,
          { sent := [buildRequest (viewerRequest NewConfig
              (NewCookieClient.AddCookies [⟨"auth_token".toList, "secret".toList⟩,
                ⟨"ct0".toList, "07070707070707070707070707070707".toList⟩,
                ⟨"des_opt_in".toList, "Y".toList⟩])
              "07070707070707070707070707070707".toList)]
            clients := 1
            randomReads := 1 })) :=
  init_stops_on_account_status (envWith (fixedClient lockedViewerResponse)) 2 2 0
    (sessionWith (fixedClient lockedViewerResponse))
    (sessionWith (fixedClient lockedViewerResponse)) world0 world0
    { world0 with clients := 1 } { world0 with clients := 1, randomReads := 1 }
    { world0 with clients := 1, randomReads := 1 }
    { sent := [buildRequest (viewerRequest NewConfig
        (NewCookieClient.AddCookies [⟨"auth_token".toList, "secret".toList⟩,
          ⟨"ct0".toList, "07070707070707070707070707070707".toList⟩,
          ⟨"des_opt_in".toList, "Y".toList⟩])
        "07070707070707070707070707070707".toList)]
      clients := 1
      randomReads := 1 }
    (fixedClient lockedViewerResponse) "secret".toList
    "07070707070707070707070707070707".toList lockedBody "rotated".toList
    (NewCookieClient.AddCookies [⟨"auth_token".toList, "secret".toList⟩,
      ⟨"ct0".toList, "07070707070707070707070707070707".toList⟩,
      ⟨"des_opt_in".toList, "Y".toList⟩])
    (NewCookieClient.AddCookies [⟨"auth_token".toList, "secret".toList⟩,
      ⟨"ct0".toList, "07070707070707070707070707070707".toList⟩,
      ⟨"des_opt_in".toList, "Y".toList⟩])
    lockedViewerResponse (by rfl) (by rfl) (by decide) (by rfl) (by rfl) (by decide) (by decide)

/-! ## Header maps -/

theorem headerIndex_headerAssign_same (h : List (List Char × List (List Char)))
    (k : List Char) (vs : List (List Char)) :
    headerIndex (headerAssign h k vs) k = vs := by
  induction h with
  | nil => simp [headerAssign, headerIndex]
  | cons e es ih =>
    by_cases hk : e.1 = k
    · simp [headerAssign, headerIndex, hk]
    · simp [headerAssign, headerIndex, hk, ih]

theorem headerIndex_headerAssign_other (h : List (List Char × List (List Char)))
    (k k2 : List Char) (vs : List (List Char))
    (hne : k2 ≠ k) : headerIndex (headerAssign h k2 vs) k = headerIndex h k := by
  induction h with
  | nil => simp [headerAssign, headerIndex, hne]
  | cons e es ih =>
    by_cases hk2 : e.1 = k2
    · have hek : ¬ e.1 = k := by rw [hk2]; exact hne
      simp [headerAssign, headerIndex, hk2, hne, hek]
    · by_cases hek : e.1 = k
      · have hkk : ¬ k = k2 := fun h => hne h.symm
        simp [headerAssign, headerIndex, hek, hkk]
      · simp [headerAssign, headerIndex, hk2, hek, ih]

theorem headerGet_headerSet_same (h : List (List Char × List (List Char))) (k v : List Char) :
    headerGet (headerSet h k v) k = v := by
  simp only [headerGet, headerSet, headerIndex_headerAssign_same]

theorem headerGet_headerSet_other (h : List (List Char × List (List Char)))
    (k k2 v : List Char)
    (hne : CanonicalMIMEHeaderKey k2 ≠ CanonicalMIMEHeaderKey k) :
    headerGet (headerSet h k2 v) k = headerGet h k := by
  simp only [headerGet, headerSet, headerIndex_headerAssign_other _ _ _ _ hne]

theorem headerIndex_foldl_other (post : List HeaderPair)
    (h : List (List Char × List (List Char))) (ck : List Char)
    (hpost : ∀ p ∈ post, CanonicalMIMEHeaderKey p.Key ≠ ck) :
    headerIndex (post.foldl (fun h p => headerSet h p.Key p.Value) h) ck = headerIndex h ck := by
  induction post generalizing h with
  | nil => rfl
  | cons p ps ih =>
    rw [List.foldl_cons, ih _ (fun q hq => hpost q (List.mem_cons_of_mem _ hq)), headerSet,
      headerIndex_headerAssign_other _ _ _ _ (hpost p (List.mem_cons_self _ _))]

/-- The entry under `http.HeaderOrderKey` is the list of the keys of the
configuration, in order. -/
theorem headerIndex_buildRequest_order (config : RequestConfig) :
    headerIndex (buildRequest config).Header HeaderOrderKey =
      config.Headers.map (fun p => p.Key) := by
  simp only [buildRequest]
  rw [headerIndex_headerAssign_other _ _ _ _ (by decide), headerIndex_headerAssign_same]

/-- The entry under `http.PHeaderOrderKey` is the list of the four pseudo
header names. -/
theorem headerIndex_buildRequest_pseudo (config : RequestConfig) :
    headerIndex (buildRequest config).Header PHeaderOrderKey =
      [":authority".toList, ":method".toList, ":path".toList, ":scheme".toList] := by
  simp only [buildRequest]
  rw [headerIndex_headerAssign_same]

/-- Under a canonical key other than the two order keys the header map holds
one value: that of the last pair whose key has this canonical form. -/
theorem headerIndex_buildRequest (config : RequestConfig) (pre post : List HeaderPair)
    (k v : List Char) (hcfg : config.Headers = pre ++ ⟨k, v⟩ :: post)
    (hpost : ∀ p ∈ post, CanonicalMIMEHeaderKey p.Key ≠ CanonicalMIMEHeaderKey k)
    (hord : CanonicalMIMEHeaderKey k ≠ HeaderOrderKey)
    (hpord : CanonicalMIMEHeaderKey k ≠ PHeaderOrderKey) :
    headerIndex (buildRequest config).Header (CanonicalMIMEHeaderKey k) = [v] := by
  simp only [buildRequest]
  rw [headerIndex_headerAssign_other _ _ _ _ (fun h => hpord h.symm),
    headerIndex_headerAssign_other _ _ _ _ (fun h => hord h.symm), hcfg, List.foldl_append,
    List.foldl_cons, headerIndex_foldl_other _ _ _ hpost, headerSet,
    headerIndex_headerAssign_same]

/-- The value sent for a key other than the two order keys is the value of the
last pair whose key has the same canonical form. -/
theorem headerGet_buildRequest (config : RequestConfig) (pre post : List HeaderPair)
    (k v : List Char) (hcfg : config.Headers = pre ++ ⟨k, v⟩ :: post)
    (hpost : ∀ p ∈ post, CanonicalMIMEHeaderKey p.Key ≠ CanonicalMIMEHeaderKey k)
    (hord : CanonicalMIMEHeaderKey k ≠ HeaderOrderKey)
    (hpord : CanonicalMIMEHeaderKey k ≠ PHeaderOrderKey) :
    headerGet (buildRequest config).Header k = v := by
  simp only [headerGet, headerIndex_buildRequest config pre post k v hcfg hpost hord hpord]

/-- The CSRF header of a request is the value of the last pair with that key. -/
theorem csrf_buildRequest (config : RequestConfig) (pre post : List HeaderPair)
    (v : List Char) (hcfg : config.Headers = pre ++ ⟨"x-csrf-token".toList, v⟩ :: post)
    (hpost : ∀ p ∈ post,
      CanonicalMIMEHeaderKey p.Key ≠ CanonicalMIMEHeaderKey "x-csrf-token".toList) :
    headerGet (buildRequest config).Header "x-csrf-token".toList = v :=
  headerGet_buildRequest config pre post _ v hcfg hpost (by decide) (by decide)

/-- A request whose action headers end with the CSRF token followed by the two
`x-twitter-` headers carries that token. -/
theorem csrf_of_tail2 (config : RequestConfig) (pre : List HeaderPair) (v : List Char)
    (hcfg : config.Headers = pre ++ [⟨"x-csrf-token".toList, v⟩,
      ⟨"x-twitter-active-user".toList, "yes".toList⟩,
      ⟨"x-twitter-auth-type".toList, "OAuth2Session".toList⟩]) :
    headerGet (buildRequest config).Header "x-csrf-token".toList = v := by
  apply csrf_buildRequest config pre _ _ hcfg
  intro p hp
  simp only [List.mem_cons, List.mem_singleton, List.not_mem_nil, or_false] at hp
  rcases hp with rfl | rfl <;> decide

/-- The same with the three trailing headers of the `GET` requests. -/
theorem csrf_of_tail3 (config : RequestConfig) (pre : List HeaderPair) (v : List Char)
    (hcfg : config.Headers = pre ++ [⟨"x-csrf-token".toList, v⟩,
      ⟨"x-twitter-active-user".toList, "no".toList⟩,
      ⟨"x-twitter-auth-type".toList, "OAuth2Session".toList⟩,
      ⟨"x-twitter-client-language".toList, "en".toList⟩] ∨
      config.Headers = pre ++ [⟨"x-csrf-token".toList, v⟩,
      ⟨"x-twitter-active-user".toList, "yes".toList⟩,
      ⟨"x-twitter-auth-type".toList, "OAuth2Session".toList⟩,
      ⟨"x-twitter-client-language".toList, "en".toList⟩]) :
    headerGet (buildRequest config).Header "x-csrf-token".toList = v := by
  rcases hcfg with hcfg | hcfg
  all_goals
    apply csrf_buildRequest config pre _ _ hcfg
    intro p hp
    simp only [List.mem_cons, List.mem_singleton, List.not_mem_nil, or_false] at hp
    rcases hp with rfl | rfl | rfl <;> decide

theorem csrf_LikeRequest (t : Twitter) (id : List Char) :
    headerGet (buildRequest (LikeRequest t id)).Header "x-csrf-token".toList =
      t.Account.Ct0 :=
  csrf_of_tail2 _ (DefaultConfig.Headers ++ (graphqlHeaders t).take 5) _ (by
    simp [LikeRequest, graphqlHeaders])

theorem csrf_RetweetRequest (t : Twitter) (id : List Char) :
    headerGet (buildRequest (RetweetRequest t id)).Header "x-csrf-token".toList =
      t.Account.Ct0 :=
  csrf_of_tail2 _ (DefaultConfig.Headers ++ (graphqlHeaders t).take 5) _ (by
    simp [RetweetRequest, graphqlHeaders])

theorem csrf_FollowRequest (t : Twitter) (u : List Char) :
    headerGet (buildRequest (FollowRequest t u)).Header "x-csrf-token".toList =
      t.Account.Ct0 :=
  csrf_of_tail2 _ (DefaultConfig.Headers ++
    [⟨"accept".toList, "*/*".toList⟩,
     ⟨"authorization".toList, t.Config.Constants.BearerToken⟩,
     ⟨"content-type".toList, "application/x-www-form-urlencoded".toList⟩,
     ⟨"cookie".toList, t.Cookies.CookiesToHeader⟩,
     ⟨"origin".toList, "https://twitter.com".toList⟩,
     ⟨"referer".toList, "https://twitter.com/".toList ++ u⟩]) _ (by
    rw [List.append_assoc]; rfl)

theorem csrf_UnfollowRequest (t : Twitter) (u : List Char) :
    headerGet (buildRequest (UnfollowRequest t u)).Header "x-csrf-token".toList =
      t.Account.Ct0 :=
  csrf_of_tail2 _ (DefaultConfig.Headers ++
    [⟨"accept".toList, "*/*".toList⟩,
     ⟨"authorization".toList, t.Config.Constants.BearerToken⟩,
     ⟨"content-type".toList, "application/x-www-form-urlencoded".toList⟩,
     ⟨"cookie".toList, t.Cookies.CookiesToHeader⟩,
     ⟨"origin".toList, "https://x.com".toList⟩]) _ (by
    rw [List.append_assoc]; rfl)

theorem csrf_CreateTweetRequest (t : Twitter) (b : List Char) :
    headerGet (buildRequest (CreateTweetRequest t b)).Header "x-csrf-token".toList =
      t.Account.Ct0 :=
  csrf_of_tail2 _ (DefaultConfig.Headers ++
    [⟨"accept".toList, "*/*".toList⟩,
     ⟨"authorization".toList, t.Config.Constants.BearerToken⟩,
     ⟨"content-type".toList, "application/json".toList⟩,
     ⟨"cookie".toList, t.Cookies.CookiesToHeader⟩,
     ⟨"origin".toList, "https://twitter.com".toList⟩,
     ⟨"referer".toList, "https://twitter.com/compose/tweet".toList⟩]) _ (by
    rw [List.append_assoc]; rfl)

theorem csrf_VotePollRequest (t : Twitter) (a b c d : List Char) :
    headerGet (buildRequest (VotePollRequest t a b c d)).Header "x-csrf-token".toList =
      t.Account.Ct0 :=
  csrf_of_tail2 _ (DefaultConfig.Headers ++
    [⟨"accept".toList, "*/*".toList⟩,
     ⟨"authorization".toList, t.Config.Constants.BearerToken⟩,
     ⟨"content-type".toList, "application/x-www-form-urlencoded".toList⟩,
     ⟨"cookie".toList, t.Cookies.CookiesToHeader⟩,
     ⟨"origin".toList, "https://twitter.com".toList⟩,
     ⟨"referer".toList, "https://twitter.com/".toList⟩]) _ (by
    rw [List.append_assoc]; rfl)

theorem csrf_UserInfoRequest (t : Twitter) (u : List Char) :
    headerGet (buildRequest (UserInfoRequest t u)).Header "x-csrf-token".toList =
      t.Account.Ct0 :=
  csrf_of_tail3 _ (DefaultConfig.Headers ++
    [⟨"accept".toList, "*/*".toList⟩,
     ⟨"authorization".toList, t.Config.Constants.BearerToken⟩,
     ⟨"content-type".toList, "application/json".toList⟩,
     ⟨"cookie".toList, t.Cookies.CookiesToHeader⟩,
     ⟨"referer".toList, "https://x.com/".toList ++ u⟩]) _ (Or.inl (by
    rw [List.append_assoc]; rfl))

theorem csrf_TweetDetailsRequest (t : Twitter) (u : List Char) :
    headerGet (buildRequest (TweetDetailsRequest t u)).Header "x-csrf-token".toList =
      t.Account.Ct0 :=
  csrf_of_tail3 _ (DefaultConfig.Headers ++
    [⟨"accept".toList, "*/*".toList⟩,
     ⟨"authorization".toList, t.Config.Constants.BearerToken⟩,
     ⟨"content-type".toList, "application/json".toList⟩,
     ⟨"cookie".toList, t.Cookies.CookiesToHeader⟩,
     ⟨"referer".toList, "https://twitter.com/i/status/".toList ++ u⟩]) _ (Or.inr (by
    rw [List.append_assoc]; rfl))

theorem csrf_UploadMediaRequest (t : Twitter) (m : List Char) :
    headerGet (buildRequest (UploadMediaRequest t m)).Header "x-csrf-token".toList =
      t.Account.Ct0 :=
  csrf_buildRequest _ (DefaultConfig.Headers ++
    [⟨"authorization".toList, t.Config.Constants.BearerToken⟩,
     ⟨"content-type".toList, "application/x-www-form-urlencoded".toList⟩,
     ⟨"cookie".toList, t.Cookies.CookiesToHeader⟩]) [] _ (by simp [UploadMediaRequest])
    (by simp)

/-! ## Sequences of exchanges -/

theorem updateCookies_Client (t : Twitter) (resp : Response) :
    (t.updateCookies resp).Client = t.Client := by
  cases h : (t.Cookies.SetCookieFromResponse resp).GetCookieValue "ct0".toList <;>
    simp only [Twitter.updateCookies, h]

theorem updateCookies_Synced (t : Twitter) (resp : Response) : Synced (t.updateCookies resp) := by
  intro v hv
  cases h : (t.Cookies.SetCookieFromResponse resp).GetCookieValue "ct0".toList with
  | none =>
    simp only [Twitter.updateCookies, h] at hv
    cases hv
  | some newCt0 =>
    simp only [Twitter.updateCookies, h] at hv ⊢
    exact Option.some.inj hv

/-- What `MakeRequest` does over a client: either the request cannot be built,
the world stays as it is and the result is an error; or the request is recorded
and the result is decided by the answer of the transport. -/
theorem MakeRequest_cases (env : Env) (cl : HttpClient) (config : RequestConfig) (w w1 : World)
    (res : Except Error (List Char × Response))
    (h : MakeRequest env (some cl) config w = .ok (res, w1)) :
    (w1 = w ∧ ∃ e, res = .error e) ∨
    (w1.sent = w.sent ++ [buildRequest config] ∧
      ((∃ e, res = .error e ∧ ∀ resp body, cl.Do w.sent.length (buildRequest config) = .ok resp →
          resp.Body = .ok body → False) ∨
       (∃ body resp, res = .ok (body, resp)))) := by
  unfold MakeRequest at h
  cases hnew : env.NewRequest config.Method config.URL with
  | some err =>
    simp only [hnew, Except.ok.injEq, Prod.mk.injEq] at h
    exact Or.inl ⟨h.2.symm, _, h.1.symm⟩
  | none =>
    simp only [hnew] at h
    right
    cases hdo : cl.Do w.sent.length (buildRequest config) with
    | error err =>
      simp only [hdo, Except.ok.injEq, Prod.mk.injEq] at h
      refine ⟨by rw [← h.2], Or.inl ⟨_, h.1.symm, ?_⟩⟩
      intro resp body hresp _
      cases hresp
    | ok resp =>
      simp only [hdo] at h
      cases hb : resp.Body with
      | error err =>
        simp only [hb, Except.ok.injEq, Prod.mk.injEq] at h
        refine ⟨by rw [← h.2], Or.inl ⟨_, h.1.symm, ?_⟩⟩
        intro resp2 body hresp hbody
        cases hresp
        rw [hb] at hbody
        cases hbody
      | ok body =>
        simp only [hb, Except.ok.injEq, Prod.mk.injEq] at h
        exact ⟨by rw [← h.2], Or.inr ⟨_, _, h.1.symm⟩⟩

theorem Exchanges_Client (env : Env) (t t1 : Twitter) (w w1 : World)
    (h : Exchanges env t w t1 w1) : t1.Client = t.Client := by
  induction h with
  | done => rfl
  | failed t t2 w w1 w2 config e _ _ _ ih => exact ih
  | answered t t2 w w1 w2 config body resp _ _ _ ih => rw [ih, updateCookies_Client]

/-- If `MakeRequest` returns normally, the requests sent grow by at most the
request asked for. -/
theorem MakeRequest_sent (env : Env) (client : Option HttpClient) (config : RequestConfig)
    (w w1 : World) (res : Except Error (List Char × Response))
    (h : MakeRequest env client config w = .ok (res, w1)) :
    w1.sent = w.sent ∨ w1.sent = w.sent ++ [buildRequest config] := by
  cases client with
  | none =>
    unfold MakeRequest at h
    cases hnew : env.NewRequest config.Method config.URL with
    | some err =>
      simp only [hnew, Except.ok.injEq, Prod.mk.injEq] at h
      exact Or.inl (by rw [← h.2])
    | none => simp [hnew] at h
  | some cl =>
    rcases MakeRequest_cases env cl config w w1 res h with ⟨h1, _⟩ | ⟨h1, _⟩
    · exact Or.inl (by rw [h1])
    · exact Or.inr h1

/-- A request that is answered has been sent. -/
theorem MakeRequest_answered_sent (env : Env) (client : Option HttpClient)
    (config : RequestConfig) (w w1 : World) (body : List Char) (resp : Response)
    (h : MakeRequest env client config w = .ok (.ok (body, resp), w1)) :
    w1.sent = w.sent ++ [buildRequest config] := by
  cases client with
  | none =>
    unfold MakeRequest at h
    cases hnew : env.NewRequest config.Method config.URL with
    | some err => simp [hnew] at h
    | none => simp [hnew] at h
  | some cl =>
    rcases MakeRequest_cases env cl config w w1 _ h with ⟨_, e, he⟩ | ⟨h1, _⟩
    · cases he
    · exact h1

/-- The requests sent during a sequence of exchanges extend the earlier ones,
and the first of them carries the token the session had at the start. -/
theorem Exchanges_sent (env : Env) (t t1 : Twitter) (w w1 : World)
    (h : Exchanges env t w t1 w1) :
    ∃ extra, w1.sent = w.sent ++ extra ∧
      (extra = [] → t1 = t) ∧
      ∀ req rest, extra = req :: rest →
        headerGet req.Header "x-csrf-token".toList = t.Account.Ct0 := by
  induction h with
  | done t w => exact ⟨[], by simp, fun _ => rfl, fun _ _ h => by cases h⟩
  | failed t t2 w w1 w2 config e hhead hreq _ ih =>
    obtain ⟨extra, hex, hnil, hfirst⟩ := ih
    rcases MakeRequest_sent env _ config w w1 _ hreq with h1 | h1
    · exact ⟨extra, by rw [hex, h1], hnil, hfirst⟩
    · refine ⟨buildRequest config :: extra, (by rw [hex, h1]; simp), (fun h => by cases h), ?_⟩
      intro req rest hreqeq
      cases hreqeq
      exact hhead
  | answered t t2 w w1 w2 config body resp hhead hreq _ ih =>
    obtain ⟨extra, hex, _, _⟩ := ih
    have h1 := MakeRequest_answered_sent env _ config w w1 body resp hreq
    refine ⟨buildRequest config :: extra, (by rw [hex, h1]; simp), (fun h => by cases h), ?_⟩
    intro req rest hreqeq
    cases hreqeq
    exact hhead

/-- If the last request sent during a sequence of exchanges was answered by the
transport with a readable body, the session ends up synced with its cookie
store. -/
theorem Exchanges_Synced (env : Env) (t t1 : Twitter) (w w1 : World) (cl : HttpClient)
    (h : Exchanges env t w t1 w1) (hclient : t.Client = some cl)
    (pre : List Request) (req : Request) (resp : Response) (body : List Char)
    (hsent : w1.sent = w.sent ++ pre ++ [req])
    (hdo : cl.Do (w.sent ++ pre).length req = .ok resp) (hbody : resp.Body = .ok body) :
    Synced t1 := by
  induction h generalizing pre with
  | done t w =>
    have := congrArg List.length hsent
    simp at this
  | failed t t2 w w1 w2 config e _ hreq hrest ih =>
    rw [hclient] at hreq
    rcases MakeRequest_cases env cl config w w1 _ hreq with ⟨h1, _⟩ | ⟨h1, h2⟩
    · exact ih hclient pre (by rw [h1]; exact hsent) (by rw [h1]; exact hdo)
    · obtain ⟨extra, hex, _, _⟩ := Exchanges_sent env _ _ _ _ hrest
      rcases h2 with ⟨e2, _, hno⟩ | ⟨b, r, hres⟩
      · cases pre with
        | nil =>
          exfalso
          rw [hex, h1] at hsent
          simp only [List.append_nil, List.append_assoc] at hsent
          have hlen := congrArg List.length hsent
          simp only [List.length_append, List.length_singleton, List.length_cons,
            List.length_nil] at hlen
          have hextra : extra = [] := List.eq_nil_of_length_eq_zero (by omega)
          rw [hextra] at hsent
          have hreqeq : buildRequest config = req := by
            have := List.append_cancel_left hsent
            simpa using this
          rw [List.append_nil] at hdo
          rw [← hreqeq] at hdo
          exact hno resp body hdo hbody
        | cons p ps =>
          rw [hex, h1] at hsent
          have hp : buildRequest config = p ∧ extra = ps ++ [req] := by
            have := List.append_cancel_left (by
              simpa only [List.append_assoc, List.singleton_append, List.cons_append] using hsent)
            simpa using this
          refine ih hclient ps ?_ ?_
          · rw [hex, h1, hp.2]; simp
          · rw [h1]
            have : (w.sent ++ [buildRequest config] ++ ps).length = (w.sent ++ p :: ps).length := by
              simp
            rw [this]; exact hdo
      · cases hres
  | answered t t2 w w1 w2 config body0 resp0 _ hreq hrest ih =>
    have h1 := MakeRequest_answered_sent env _ config w w1 body0 resp0 hreq
    obtain ⟨extra, hex, hnil, _⟩ := Exchanges_sent env _ _ _ _ hrest
    cases hextra : extra with
    | nil =>
      rw [hnil hextra]
      exact updateCookies_Synced t resp0
    | cons x xs =>
      cases pre with
      | nil =>
        exfalso
        rw [hex, h1, hextra] at hsent
        have hlen := congrArg List.length hsent
        simp at hlen
      | cons p ps =>
        rw [hex, h1] at hsent
        have hp : buildRequest config = p ∧ extra = ps ++ [req] := by
          have := List.append_cancel_left (by
            simpa only [List.append_assoc, List.singleton_append, List.cons_append] using hsent)
          simpa using this
        refine ih (by rw [updateCookies_Client]; exact hclient) ps ?_ ?_
        · rw [hex, h1, hp.2]; simp
        · rw [h1]
          have : (w.sent ++ [buildRequest config] ++ ps).length = (w.sent ++ p :: ps).length := by
            simp
          rw [this]; exact hdo

/-! ## Every call is a sequence of exchanges -/

theorem Exchanges_trans (env : Env) (t t1 t2 : Twitter) (w w1 w2 : World)
    (h1 : Exchanges env t w t1 w1) (h2 : Exchanges env t1 w1 t2 w2) :
    Exchanges env t w t2 w2 := by
  induction h1 with
  | done => exact h2
  | failed t t3 w w3 w4 config e hhead hreq _ ih =>
    exact Exchanges.failed t t2 w w3 w2 config e hhead hreq (ih h2)
  | answered t t3 w w3 w4 config body resp hhead hreq _ ih =>
    exact Exchanges.answered t t2 w w3 w2 config body resp hhead hreq (ih h2)

/-- One call of `MakeRequest` followed, when it returns a response, by the
`// Update cookies` block. -/
theorem Exchanges_roundtrip (env : Env) (t : Twitter) (w w1 : World) (config : RequestConfig)
    (res : Except Error (List Char × Response))
    (hhead : headerGet (buildRequest config).Header "x-csrf-token".toList = t.Account.Ct0)
    (hreq : MakeRequest env t.Client config w = .ok (res, w1)) :
    Exchanges env t w
      (match res with
        | .error _ => t
        | .ok (_, resp) => t.updateCookies resp) w1 := by
  cases res with
  | error e => exact Exchanges.failed t t w w1 w1 config e hhead hreq (Exchanges.done t w1)
  | ok br =>
    obtain ⟨body, resp⟩ := br
    exact Exchanges.answered t _ w w1 w1 config body resp hhead hreq (Exchanges.done _ w1)

theorem Like_Exchanges (env : Env) (tweetID : List Char) (t t1 : Twitter) (w w1 : World)
    (r : ActionResponse) (h : Like env tweetID t w = .ok (r, t1, w1)) :
    Exchanges env t w t1 w1 := by
  unfold Like at h
  cases hid : resolveTweetID tweetID with
  | error p => simp [hid] at h
  | ok s =>
    cases s with
    | inl r0 =>
      simp only [hid, Except.ok.injEq, Prod.mk.injEq] at h
      rw [← h.2.1, ← h.2.2]; exact Exchanges.done t w
    | inr resolved =>
      simp only [hid] at h
      cases hreq : MakeRequest env t.Client (LikeRequest t resolved) w with
      | error p => simp [hreq] at h
      | ok rw1 =>
        obtain ⟨res, w2⟩ := rw1
        have hx := Exchanges_roundtrip env t w w2 _ res (csrf_LikeRequest t resolved) hreq
        cases res with
        | error e =>
          simp only [hreq, Except.ok.injEq, Prod.mk.injEq] at h
          rw [← h.2.1, ← h.2.2]; exact hx
        | ok br =>
          obtain ⟨body, resp⟩ := br
          simp only [hreq, Except.ok.injEq, Prod.mk.injEq] at h
          rw [← h.2.1, ← h.2.2]; exact hx

theorem Retweet_Exchanges (env : Env) (tweetID : List Char) (t t1 : Twitter) (w w1 : World)
    (r : ActionResponse) (h : Retweet env tweetID t w = .ok (r, t1, w1)) :
    Exchanges env t w t1 w1 := by
  unfold Retweet at h
  cases hid : resolveTweetID tweetID with
  | error p => simp [hid] at h
  | ok s =>
    cases s with
    | inl r0 =>
      simp only [hid, Except.ok.injEq, Prod.mk.injEq] at h
      rw [← h.2.1, ← h.2.2]; exact Exchanges.done t w
    | inr resolved =>
      simp only [hid] at h
      cases hreq : MakeRequest env t.Client (RetweetRequest t resolved) w with
      | error p => simp [hreq] at h
      | ok rw1 =>
        obtain ⟨res, w2⟩ := rw1
        have hx := Exchanges_roundtrip env t w w2 _ res (csrf_RetweetRequest t resolved) hreq
        cases res with
        | error e =>
          simp only [hreq, Except.ok.injEq, Prod.mk.injEq] at h
          rw [← h.2.1, ← h.2.2]; exact hx
        | ok br =>
          obtain ⟨body, resp⟩ := br
          simp only [hreq, Except.ok.injEq, Prod.mk.injEq] at h
          rw [← h.2.1, ← h.2.2]; exact hx

theorem Follow_Exchanges (env : Env) (username : List Char) (t t1 : Twitter) (w w1 : World)
    (r : ActionResponse) (h : Follow env username t w = .ok (r, t1, w1)) :
    Exchanges env t w t1 w1 := by
  unfold Follow at h
  cases hreq : MakeRequest env t.Client (FollowRequest t username) w with
  | error p => simp [hreq] at h
  | ok rw1 =>
    obtain ⟨res, w2⟩ := rw1
    have hx := Exchanges_roundtrip env t w w2 _ res (csrf_FollowRequest t username) hreq
    cases res with
    | error e =>
      simp only [hreq, Except.ok.injEq, Prod.mk.injEq] at h
      rw [← h.2.1, ← h.2.2]; exact hx
    | ok br =>
      obtain ⟨body, resp⟩ := br
      simp only [hreq, Except.ok.injEq, Prod.mk.injEq] at h
      rw [← h.2.1, ← h.2.2]; exact hx

theorem unfollowByID_Exchanges (env : Env) (userID : List Char) (t t1 : Twitter) (w w1 : World)
    (r : ActionResponse) (h : unfollowByID env userID t w = .ok (r, t1, w1)) :
    Exchanges env t w t1 w1 := by
  unfold unfollowByID at h
  cases hreq : MakeRequest env t.Client (UnfollowRequest t userID) w with
  | error p => simp [hreq] at h
  | ok rw1 =>
    obtain ⟨res, w2⟩ := rw1
    have hx := Exchanges_roundtrip env t w w2 _ res (csrf_UnfollowRequest t userID) hreq
    cases res with
    | error e =>
      simp only [hreq, Except.ok.injEq, Prod.mk.injEq] at h
      rw [← h.2.1, ← h.2.2]; exact hx
    | ok br =>
      obtain ⟨body, resp⟩ := br
      simp only [hreq, Except.ok.injEq, Prod.mk.injEq] at h
      rw [← h.2.1, ← h.2.2]; exact hx

theorem GetUserInfoByUsername_Exchanges (env : Env) (username : List Char) (t t1 : Twitter)
    (w w1 : World) (r : Option json.GoValue × ActionResponse)
    (h : GetUserInfoByUsername env username t w = .ok (r, t1, w1)) :
    Exchanges env t w t1 w1 := by
  unfold GetUserInfoByUsername at h
  cases hreq : MakeRequest env t.Client (UserInfoRequest t username) w with
  | error p => simp [hreq] at h
  | ok rw1 =>
    obtain ⟨res, w2⟩ := rw1
    have hx := Exchanges_roundtrip env t w w2 _ res (csrf_UserInfoRequest t username) hreq
    cases res with
    | error e =>
      simp only [hreq, Except.ok.injEq, Prod.mk.injEq] at h
      rw [← h.2.1, ← h.2.2]; exact hx
    | ok br =>
      obtain ⟨body, resp⟩ := br
      simp only [hreq, Except.ok.injEq, Prod.mk.injEq] at h
      rw [← h.2.1, ← h.2.2]; exact hx

theorem Unfollow_Exchanges (env : Env) (u : List Char) (t t1 : Twitter) (w w1 : World)
    (r : ActionResponse) (h : Unfollow env u t w = .ok (r, t1, w1)) :
    Exchanges env t w t1 w1 := by
  unfold Unfollow at h
  cases hnum : IsNumeric u with
  | true =>
    simp only [hnum, Bool.not_true, Bool.false_eq_true, if_false] at h
    exact unfollowByID_Exchanges env u t t1 w w1 r h
  | false =>
    simp only [hnum, Bool.not_false, if_true] at h
    cases hinfo : GetUserInfoByUsername env u t w with
    | error p => simp [hinfo] at h
    | ok x =>
      obtain ⟨⟨info, resp⟩, t2, w2⟩ := x
      have hx := GetUserInfoByUsername_Exchanges env u t t2 w w2 _ hinfo
      simp only [hinfo] at h
      cases hs : resp.Success with
      | false =>
        simp only [hs, Bool.not_false, if_true, Except.ok.injEq, Prod.mk.injEq] at h
        rw [← h.2.1, ← h.2.2]; exact hx
      | true =>
        simp only [hs, Bool.not_true, Bool.false_eq_true, if_false] at h
        cases info with
        | none => simp at h
        | some i =>
          simp only at h
          exact Exchanges_trans env t t2 t1 w w2 w1 hx
            (unfollowByID_Exchanges env _ t2 t1 w2 w1 r h)

theorem UploadMedia_Exchanges (env : Env) (m : List Char) (t t1 : Twitter) (w w1 : World)
    (r : List Char × Option Error) (h : UploadMedia env m t w = .ok (r, t1, w1)) :
    Exchanges env t w t1 w1 := by
  unfold UploadMedia at h
  cases hreq : MakeRequest env t.Client (UploadMediaRequest t m) w with
  | error p => simp [hreq] at h
  | ok rw1 =>
    obtain ⟨res, w2⟩ := rw1
    have hx := Exchanges_roundtrip env t w w2 _ res (csrf_UploadMediaRequest t m) hreq
    cases res with
    | error e =>
      simp only [hreq, Except.ok.injEq, Prod.mk.injEq] at h
      rw [← h.2.1, ← h.2.2]; exact hx
    | ok br =>
      obtain ⟨body, resp⟩ := br
      simp only [hreq] at h
      cases hdec : json.Unmarshal body MediaUploadResponse with
      | error e =>
        simp only [hdec, Except.ok.injEq, Prod.mk.injEq] at h
        rw [← h.2.1, ← h.2.2]; exact hx
      | ok response =>
        simp only [hdec] at h
        split at h <;>
          (simp only [Except.ok.injEq, Prod.mk.injEq] at h
           rw [← h.2.1, ← h.2.2]; exact hx)

theorem uploadIfMedia_Exchanges (env : Env) (m : Option (List Char)) (t t1 : Twitter)
    (w w1 : World) (r : ActionResponse ⊕ List Char)
    (h : uploadIfMedia env m t w = .ok (r, t1, w1)) : Exchanges env t w t1 w1 := by
  unfold uploadIfMedia at h
  cases m with
  | none =>
    simp only [Except.ok.injEq, Prod.mk.injEq] at h
    rw [← h.2.1, ← h.2.2]; exact Exchanges.done t w
  | some x =>
    simp only at h
    by_cases hx : x = []
    · simp only [hx, ne_eq, not_true_eq_false, if_false, Except.ok.injEq, Prod.mk.injEq] at h
      rw [← h.2.1, ← h.2.2]; exact Exchanges.done t w
    · simp only [ne_eq, hx, not_false_eq_true, if_true] at h
      cases hup : UploadMedia env x t w with
      | error p => simp [hup] at h
      | ok y =>
        obtain ⟨⟨mediaID, err⟩, t2, w2⟩ := y
        have hy := UploadMedia_Exchanges env x t t2 w w2 _ hup
        cases err with
        | none =>
          simp only [hup, Except.ok.injEq, Prod.mk.injEq] at h
          rw [← h.2.1, ← h.2.2]; exact hy
        | some e =>
          simp only [hup, Except.ok.injEq, Prod.mk.injEq] at h
          rw [← h.2.1, ← h.2.2]; exact hy

theorem postTweet_Exchanges (env : Env) (requestBody : Twitter → json.Value) (t t1 : Twitter)
    (w w1 : World) (r : ActionResponse) (h : postTweet env requestBody t w = .ok (r, t1, w1)) :
    Exchanges env t w t1 w1 := by
  unfold postTweet at h
  cases hm : env.Marshal (requestBody t) with
  | error e =>
    simp only [hm, Except.ok.injEq, Prod.mk.injEq] at h
    rw [← h.2.1, ← h.2.2]; exact Exchanges.done t w
  | ok jsonBody =>
    simp only [hm] at h
    cases hreq : MakeRequest env t.Client (CreateTweetRequest t jsonBody) w with
    | error p => simp [hreq] at h
    | ok rw1 =>
      obtain ⟨res, w2⟩ := rw1
      have hx := Exchanges_roundtrip env t w w2 _ res (csrf_CreateTweetRequest t jsonBody) hreq
      cases res with
      | error e =>
        simp only [hreq, Except.ok.injEq, Prod.mk.injEq] at h
        rw [← h.2.1, ← h.2.2]; exact hx
      | ok br =>
        obtain ⟨body, resp⟩ := br
        simp only [hreq, Except.ok.injEq, Prod.mk.injEq] at h
        rw [← h.2.1, ← h.2.2]; exact hx

theorem Tweet_Exchanges (env : Env) (content : List Char) (opts : Option TweetOptions)
    (t t1 : Twitter) (w w1 : World) (r : ActionResponse)
    (h : Tweet env content opts t w = .ok (r, t1, w1)) : Exchanges env t w t1 w1 := by
  unfold Tweet at h
  cases hup : uploadIfMedia env (opts.map (fun o => o.MediaBase64)) t w with
  | error p => simp [hup] at h
  | ok x =>
    obtain ⟨s, t2, w2⟩ := x
    have hx := uploadIfMedia_Exchanges env _ t t2 w w2 s hup
    cases s with
    | inl r0 =>
      simp only [hup, Except.ok.injEq, Prod.mk.injEq] at h
      rw [← h.2.1, ← h.2.2]; exact hx
    | inr mediaID =>
      simp only [hup] at h
      exact Exchanges_trans env t t2 t1 w w2 w1 hx (postTweet_Exchanges env _ t2 t1 w2 w1 r h)

theorem Comment_Exchanges (env : Env) (content tweetID : List Char)
    (opts : Option CommentOptions) (t t1 : Twitter) (w w1 : World) (r : ActionResponse)
    (h : Comment env content tweetID opts t w = .ok (r, t1, w1)) : Exchanges env t w t1 w1 := by
  unfold Comment at h
  cases hid : resolveTweetID tweetID with
  | error p => simp [hid] at h
  | ok s0 =>
    cases s0 with
    | inl r0 =>
      simp only [hid, Except.ok.injEq, Prod.mk.injEq] at h
      rw [← h.2.1, ← h.2.2]; exact Exchanges.done t w
    | inr resolved =>
      simp only [hid] at h
      cases hup : uploadIfMedia env (opts.map (fun o => o.MediaBase64)) t w with
      | error p => simp [hup] at h
      | ok x =>
        obtain ⟨s, t2, w2⟩ := x
        have hx := uploadIfMedia_Exchanges env _ t t2 w w2 s hup
        cases s with
        | inl r0 =>
          simp only [hup, Except.ok.injEq, Prod.mk.injEq] at h
          rw [← h.2.1, ← h.2.2]; exact hx
        | inr mediaID =>
          simp only [hup] at h
          exact Exchanges_trans env t t2 t1 w w2 w1 hx
            (postTweet_Exchanges env _ t2 t1 w2 w1 r h)

theorem getTweetDetails_Exchanges (env : Env) (tweetID : List Char) (t t1 : Twitter)
    (w w1 : World) (r : List Char × Option Error)
    (h : getTweetDetails env tweetID t w = .ok (r, t1, w1)) : Exchanges env t w t1 w1 := by
  unfold getTweetDetails at h
  cases hreq : MakeRequest env t.Client (TweetDetailsRequest t tweetID) w with
  | error p => simp [hreq] at h
  | ok rw1 =>
    obtain ⟨res, w2⟩ := rw1
    have hx := Exchanges_roundtrip env t w w2 _ res (csrf_TweetDetailsRequest t tweetID) hreq
    cases res with
    | error e =>
      simp only [hreq, Except.ok.injEq, Prod.mk.injEq] at h
      rw [← h.2.1, ← h.2.2]; exact hx
    | ok br =>
      obtain ⟨body, resp⟩ := br
      simp only [hreq, Except.ok.injEq, Prod.mk.injEq] at h
      rw [← h.2.1, ← h.2.2]; exact hx

theorem VotePoll_Exchanges (env : Env) (tweetID answer : List Char) (t t1 : Twitter)
    (w w1 : World) (r : ActionResponse) (h : VotePoll env tweetID answer t w = .ok (r, t1, w1)) :
    Exchanges env t w t1 w1 := by
  unfold VotePoll at h
  cases hid : resolveTweetID tweetID with
  | error p => simp [hid] at h
  | ok s0 =>
    cases s0 with
    | inl r0 =>
      simp only [hid, Except.ok.injEq, Prod.mk.injEq] at h
      rw [← h.2.1, ← h.2.2]; exact Exchanges.done t w
    | inr resolved =>
      simp only [hid] at h
      cases hdet : getTweetDetails env resolved t w with
      | error p => simp [hdet] at h
      | ok x =>
        obtain ⟨⟨details, err⟩, t2, w2⟩ := x
        have hx := getTweetDetails_Exchanges env resolved t t2 w w2 _ hdet
        cases err with
        | some e =>
          simp only [hdet, Except.ok.injEq, Prod.mk.injEq] at h
          rw [← h.2.1, ← h.2.2]; exact hx
        | none =>
          simp only [hdet] at h
          cases hpoll : pollInfo details with
          | error p => simp [hpoll] at h
          | ok pc =>
            obtain ⟨pollName, cardID⟩ := pc
            simp only [hpoll] at h
            cases hreq : MakeRequest env t2.Client
                (VotePollRequest t2 cardID resolved pollName answer) w2 with
            | error p => simp [hreq] at h
            | ok rw1 =>
              obtain ⟨res, w3⟩ := rw1
              have hy := Exchanges_roundtrip env t2 w2 w3 _ res
                (csrf_VotePollRequest t2 cardID resolved pollName answer) hreq
              cases res with
              | error e =>
                simp only [hreq, Except.ok.injEq, Prod.mk.injEq] at h
                rw [← h.2.1, ← h.2.2]; exact Exchanges_trans env t t2 _ w w2 _ hx hy
              | ok br =>
                obtain ⟨body, resp⟩ := br
                simp only [hreq, Except.ok.injEq, Prod.mk.injEq] at h
                rw [← h.2.1, ← h.2.2]; exact Exchanges_trans env t t2 _ w w2 _ hx hy

/-- Every call is a sequence of exchanges. -/
theorem perform_Exchanges (env : Env) (call : Call) (t t1 : Twitter) (w w1 : World)
    (h : perform env call t w = .ok (t1, w1)) : Exchanges env t w t1 w1 := by
  cases call with
  | like tweetID =>
    cases hx : Like env tweetID t w with
    | error p => simp [perform, hx, Except.map] at h
    | ok x =>
      obtain ⟨r, t2, w2⟩ := x
      simp only [perform, hx, Except.map, Except.ok.injEq, Prod.mk.injEq] at h
      rw [← h.1, ← h.2]; exact Like_Exchanges env tweetID t t2 w w2 r hx
  | retweet tweetID =>
    cases hx : Retweet env tweetID t w with
    | error p => simp [perform, hx, Except.map] at h
    | ok x =>
      obtain ⟨r, t2, w2⟩ := x
      simp only [perform, hx, Except.map, Except.ok.injEq, Prod.mk.injEq] at h
      rw [← h.1, ← h.2]; exact Retweet_Exchanges env tweetID t t2 w w2 r hx
  | follow username =>
    cases hx : Follow env username t w with
    | error p => simp [perform, hx, Except.map] at h
    | ok x =>
      obtain ⟨r, t2, w2⟩ := x
      simp only [perform, hx, Except.map, Except.ok.injEq, Prod.mk.injEq] at h
      rw [← h.1, ← h.2]; exact Follow_Exchanges env username t t2 w w2 r hx
  | unfollow u =>
    cases hx : Unfollow env u t w with
    | error p => simp [perform, hx, Except.map] at h
    | ok x =>
      obtain ⟨r, t2, w2⟩ := x
      simp only [perform, hx, Except.map, Except.ok.injEq, Prod.mk.injEq] at h
      rw [← h.1, ← h.2]; exact Unfollow_Exchanges env u t t2 w w2 r hx
  | userInfo username =>
    cases hx : GetUserInfoByUsername env username t w with
    | error p => simp [perform, hx, Except.map] at h
    | ok x =>
      obtain ⟨r, t2, w2⟩ := x
      simp only [perform, hx, Except.map, Except.ok.injEq, Prod.mk.injEq] at h
      rw [← h.1, ← h.2]; exact GetUserInfoByUsername_Exchanges env username t t2 w w2 r hx
  | uploadMedia m =>
    cases hx : UploadMedia env m t w with
    | error p => simp [perform, hx, Except.map] at h
    | ok x =>
      obtain ⟨r, t2, w2⟩ := x
      simp only [perform, hx, Except.map, Except.ok.injEq, Prod.mk.injEq] at h
      rw [← h.1, ← h.2]; exact UploadMedia_Exchanges env m t t2 w w2 r hx
  | tweet content opts =>
    cases hx : Tweet env content opts t w with
    | error p => simp [perform, hx, Except.map] at h
    | ok x =>
      obtain ⟨r, t2, w2⟩ := x
      simp only [perform, hx, Except.map, Except.ok.injEq, Prod.mk.injEq] at h
      rw [← h.1, ← h.2]; exact Tweet_Exchanges env content opts t t2 w w2 r hx
  | comment content tweetID opts =>
    cases hx : Comment env content tweetID opts t w with
    | error p => simp [perform, hx, Except.map] at h
    | ok x =>
      obtain ⟨r, t2, w2⟩ := x
      simp only [perform, hx, Except.map, Except.ok.injEq, Prod.mk.injEq] at h
      rw [← h.1, ← h.2]; exact Comment_Exchanges env content tweetID opts t t2 w w2 r hx
  | votePoll tweetID answer =>
    cases hx : VotePoll env tweetID answer t w with
    | error p => simp [perform, hx, Except.map] at h
    | ok x =>
      obtain ⟨r, t2, w2⟩ := x
      simp only [perform, hx, Except.map, Except.ok.injEq, Prod.mk.injEq] at h
      rw [← h.1, ← h.2]; exact VotePoll_Exchanges env tweetID answer t t2 w w2 r hx

/-! ## C1 -/

/-- C1. Token monotonicity: for any two sequential calls on one session (such
as `Like` followed by `Retweet`), if the last request of the first call was
answered by the transport without error (whatever the status and the body of
the response), then the `x-csrf-token` header of the first request issued by
the second call equals the `ct0` value that the cookie store holds after the
first call, that is after the cookies of the response were merged into it. -/
theorem token_monotonicity (env : Env) (first second : Call) (t t1 t2 : Twitter)
    (w w1 w2 : World) (cl : HttpClient) (earlier rest : List Request) (req1 req2 : Request)
    (resp : Response) (body v : List Char)
    (hfirst : perform env first t w = .ok (t1, w1))
    (hclient : t.Client = some cl)
    (hsent : w1.sent = w.sent ++ earlier ++ [req1])
    (hanswer : cl.Do (w.sent ++ earlier).length req1 = .ok resp)
    (hbody : resp.Body = .ok body)
    (hstore : t1.Cookies.GetCookieValue "ct0".toList = some v)
    (hsecond : perform env second t1 w1 = .ok (t2, w2))
    (hsent2 : w2.sent = w1.sent ++ req2 :: rest) :
    headerGet req2.Header "x-csrf-token".toList = v := by
  have hsync : Synced t1 :=
    Exchanges_Synced env t t1 w w1 cl (perform_Exchanges env first t t1 w w1 hfirst) hclient
      earlier req1 resp body hsent hanswer hbody
  obtain ⟨extra, hex, _, hhead⟩ :=
    Exchanges_sent env t1 t2 w1 w2 (perform_Exchanges env second t1 t2 w1 w2 hsecond)
  have hextra : extra = req2 :: rest := List.append_cancel_left (hex.symm.trans hsent2)
  rw [hhead req2 rest hextra]
  exact hsync v hstore

theorem token_monotonicity_witness :
    headerGet (buildRequest (RetweetRequest
      ((sessionWith (fixedClient rotatingResponse)).updateCookies rotatingResponse)
      "21".toList)).Header "x-csrf-token".toList = "rotated".toList :=
  token_monotonicity (envWith (fixedClient rotatingResponse)) (.like "20".toList)
    (.retweet "21".toList) (sessionWith (fixedClient rotatingResponse))
    ((sessionWith (fixedClient rotatingResponse)).updateCookies rotatingResponse)
    (((sessionWith (fixedClient rotatingResponse)).updateCookies
      rotatingResponse).updateCookies rotatingResponse)
    world0
    { world0 with sent := [buildRequest
      (LikeRequest (sessionWith (fixedClient rotatingResponse)) "20".toList)] }
    { world0 with sent := [buildRequest
        (LikeRequest (sessionWith (fixedClient rotatingResponse)) "20".toList),
      buildRequest (RetweetRequest
        ((sessionWith (fixedClient rotatingResponse)).updateCookies rotatingResponse)
        "21".toList)] }
    (fixedClient rotatingResponse) [] []
    (buildRequest (LikeRequest (sessionWith (fixedClient rotatingResponse)) "20".toList))
    (buildRequest (RetweetRequest
      ((sessionWith (fixedClient rotatingResponse)).updateCookies rotatingResponse)
      "21".toList))
    rotatingResponse "Internal Server Error".toList "rotated".toList
    (by rfl) (by rfl) (by rfl) (by rfl) (by rfl) (by decide) (by rfl) (by rfl)

/-! ## Facts about `strings` -/

theorem startsWith_nil (s : List Char) : startsWith s [] = true := by
  cases s <;> rfl

theorem startsWith_append_self (sep rest : List Char) : startsWith (sep ++ rest) sep = true := by
  induction sep with
  | nil => exact startsWith_nil _
  | cons c cs ih => simpa [startsWith] using ih

theorem startsWith_append_right (x sub b : List Char) (h : startsWith x sub = true) :
    startsWith (x ++ b) sub = true := by
  induction x generalizing sub with
  | nil =>
    cases sub with
    | nil => exact startsWith_nil _
    | cons s ss => simp [startsWith] at h
  | cons c cs ih =>
    cases sub with
    | nil => rfl
    | cons s ss =>
      simp only [startsWith, Bool.and_eq_true, List.cons_append] at h ⊢
      exact ⟨h.1, ih ss h.2⟩

theorem startsWith_append_cases (a b sub : List Char) (h : Char)
    (hs : startsWith (a ++ h :: b) sub = true) : startsWith a sub = true ∨ h ∈ sub := by
  induction a generalizing sub with
  | nil =>
    cases sub with
    | nil => exact Or.inl rfl
    | cons s ss =>
      simp only [List.nil_append, startsWith, Bool.and_eq_true, beq_iff_eq] at hs
      exact Or.inr (by simp [hs.1])
  | cons c cs ih =>
    cases sub with
    | nil => exact Or.inl rfl
    | cons s ss =>
      simp only [List.cons_append, startsWith, Bool.and_eq_true, beq_iff_eq] at hs ⊢
      rcases ih ss hs.2 with h1 | h1
      · exact Or.inl ⟨hs.1, h1⟩
      · exact Or.inr (List.mem_cons_of_mem _ h1)

theorem startsWith_mem (s sub : List Char) (h : startsWith s sub = true) :
    ∀ c ∈ sub, c ∈ s := by
  induction s generalizing sub with
  | nil =>
    cases sub with
    | nil => simp
    | cons s ss => simp [startsWith] at h
  | cons x xs ih =>
    cases sub with
    | nil => simp
    | cons s ss =>
      simp only [startsWith, Bool.and_eq_true, beq_iff_eq] at h
      intro c hc
      rcases List.mem_cons.mp hc with rfl | hc
      · simp [h.1]
      · exact List.mem_cons_of_mem _ (ih ss h.2 c hc)

theorem Contains_nil (s : List Char) : Contains s [] = true := by
  cases s <;> rfl

theorem Contains_mem (s sub : List Char) (h : Contains s sub = true) : ∀ c ∈ sub, c ∈ s := by
  induction s with
  | nil =>
    cases sub with
    | nil => simp
    | cons s ss => simp [Contains] at h
  | cons x xs ih =>
    simp only [Contains, Bool.or_eq_true] at h
    rcases h with h | h
    · exact startsWith_mem _ _ h
    · exact fun c hc => List.mem_cons_of_mem _ (ih h c hc)

theorem Contains_append_left (a b sub : List Char) (h : Contains a sub = true) :
    Contains (a ++ b) sub = true := by
  induction a with
  | nil =>
    cases sub with
    | nil => exact Contains_nil _
    | cons s ss => simp [Contains] at h
  | cons x xs ih =>
    simp only [Contains, Bool.or_eq_true, List.cons_append] at h ⊢
    rcases h with h | h
    · exact Or.inl (startsWith_append_right (x :: xs) sub b h)
    · exact Or.inr (ih h)

theorem Contains_append_right (a b sub : List Char) (h : Contains b sub = true) :
    Contains (a ++ b) sub = true := by
  induction a with
  | nil => simpa using h
  | cons x xs ih =>
    simp only [Contains, Bool.or_eq_true, List.cons_append]
    exact Or.inr ih

theorem Contains_append_false (a b sub : List Char) (h : Char)
    (ha : Contains a sub = false) (hb : Contains (h :: b) sub = false) (hh : h ∉ sub) :
    Contains (a ++ h :: b) sub = false := by
  induction a with
  | nil => simpa using hb
  | cons x xs ih =>
    simp only [Contains, Bool.or_eq_false_iff, List.cons_append] at ha ⊢
    refine ⟨?_, ih ha.2⟩
    cases hs : startsWith (x :: (xs ++ h :: b)) sub with
    | false => rfl
    | true =>
      rcases startsWith_append_cases (x :: xs) b sub h hs with h1 | h1
      · rw [ha.1] at h1; cases h1
      · exact absurd h1 hh

theorem Contains_singleton (s : List Char) (c : Char) : Contains s [c] = true ↔ c ∈ s := by
  induction s with
  | nil => simp [Contains]
  | cons x xs ih =>
    simp only [Contains, startsWith, Bool.or_eq_true, Bool.and_eq_true, beq_iff_eq,
      List.mem_cons, ih, startsWith_nil, and_true]
    constructor
    · rintro (h | h)
      · exact Or.inl h.symm
      · exact Or.inr h
    · rintro (h | h)
      · exact Or.inl h.symm
      · exact Or.inr h

theorem splitGo_length_pos (sep : List Char) (k : Nat) (s acc : List Char) :
    1 ≤ (splitGo sep k s acc).length := by
  induction s generalizing k acc with
  | nil => cases k <;> simp [splitGo]
  | cons c cs ih =>
    cases k with
    | zero =>
      simp only [splitGo]
      split
      · simp
      · exact ih 0 _
    | succ k => simpa [splitGo] using ih k acc

theorem splitGo_skip (sep x rest acc : List Char) :
    splitGo sep x.length (x ++ rest) acc = splitGo sep 0 rest acc := by
  induction x with
  | nil => rfl
  | cons c cs ih => simpa [splitGo] using ih

theorem splitGo_zero_cons (sep : List Char) (c : Char) (cs acc : List Char) :
    splitGo sep 0 (c :: cs) acc =
      if startsWith (c :: cs) sep then acc.reverse :: splitGo sep (sep.length - 1) cs []
      else splitGo sep 0 cs (c :: acc) := by
  simp [splitGo]

/-- Splitting at the first occurrence: when no occurrence of `sep` starts
inside `a`, the first piece of `a ++ sep ++ rest` is `a`. -/
theorem splitGo_first (sep a rest acc : List Char) (hsep : sep ≠ [])
    (h : ∀ y x, a = y ++ x → x ≠ [] → startsWith (x ++ (sep ++ rest)) sep = false) :
    splitGo sep 0 (a ++ (sep ++ rest)) acc = (acc.reverse ++ a) :: splitGo sep 0 rest [] := by
  induction a generalizing acc with
  | nil =>
    cases sep with
    | nil => exact absurd rfl hsep
    | cons s ss =>
      have h1 : startsWith (s :: (ss ++ rest)) (s :: ss) = true :=
        startsWith_append_self (s :: ss) rest
      rw [List.nil_append, List.cons_append, splitGo_zero_cons, h1, if_pos rfl,
        List.length_cons, Nat.add_sub_cancel, splitGo_skip, List.append_nil]
  | cons c cs ih =>
    have h1 : startsWith (c :: (cs ++ (sep ++ rest))) sep = false :=
      h [] (c :: cs) rfl (by simp)
    rw [List.cons_append, splitGo_zero_cons, h1, if_neg (by simp),
      ih (c :: acc) (fun y x hy hx => h (c :: y) x (by simp [hy]) hx)]
    simp

theorem splitGo_absent (sep s acc : List Char) (h : Contains s sep = false) :
    splitGo sep 0 s acc = [acc.reverse ++ s] := by
  induction s generalizing acc with
  | nil => simp [splitGo]
  | cons c cs ih =>
    simp only [Contains, Bool.or_eq_false_iff] at h
    simp only [splitGo, h.1, Bool.false_eq_true, if_false]
    rw [ih (c :: acc) h.2]
    simp

theorem splitGo_present (sep s acc : List Char) (h : Contains s sep = true) (hsep : sep ≠ []) :
    2 ≤ (splitGo sep 0 s acc).length := by
  induction s generalizing acc with
  | nil =>
    cases sep with
    | nil => exact absurd rfl hsep
    | cons s ss => simp [Contains] at h
  | cons c cs ih =>
    simp only [Contains, Bool.or_eq_true] at h
    simp only [splitGo]
    split
    · have := splitGo_length_pos sep (sep.length - 1) cs []
      simp only [List.length_cons]
      omega
    · rename_i hs
      rcases h with h | h
      · exact absurd h hs
      · exact ih (c :: acc) h

theorem Split_absent (s sep : List Char) (hsep : sep ≠ []) (h : Contains s sep = false) :
    Split s sep = [s] := by
  cases sep with
  | nil => exact absurd rfl hsep
  | cons c cs => simpa [Split] using splitGo_absent (c :: cs) s [] h

theorem index_one_of_Contains (s sep : List Char) (hsep : sep ≠ [])
    (h : Contains s sep = true) : ∃ part, index (Split s sep) 1 = .ok part := by
  have h2 : 2 ≤ (Split s sep).length := by
    cases sep with
    | nil => exact absurd rfl hsep
    | cons c cs => simpa [Split] using splitGo_present (c :: cs) s [] h (by simp)
  match hS : Split s sep, h2 with
  | _ :: part :: _, _ => exact ⟨part, by simp [index]⟩

theorem index_zero_Split (s sep : List Char) (hsep : sep ≠ []) :
    ∃ part, index (Split s sep) 0 = .ok part := by
  have h1 : 1 ≤ (Split s sep).length := by
    cases sep with
    | nil => exact absurd rfl hsep
    | cons c cs => simpa [Split] using splitGo_length_pos (c :: cs) 0 s []
  match hS : Split s sep, h1 with
  | part :: _, _ => exact ⟨part, by simp [index]⟩

theorem index_one_of_absent (s sep : List Char) (hsep : sep ≠ [])
    (h : Contains s sep = false) : index (Split s sep) 1 = .error .indexOutOfRange := by
  rw [Split_absent s sep hsep h]; rfl

/-- The pieces cut by a one-character separator are free of it, and made of
characters of the input. -/
theorem splitGo_single_mem (c : Char) (s acc piece : List Char)
    (h : piece ∈ splitGo [c] 0 s acc) (hacc : c ∉ acc) :
    c ∉ piece ∧ ∀ x ∈ piece, x ∈ acc ∨ x ∈ s := by
  induction s generalizing acc with
  | nil =>
    simp only [splitGo, List.mem_singleton] at h
    subst h
    exact ⟨by simpa using hacc, fun x hx => Or.inl (by simpa using hx)⟩
  | cons x xs ih =>
    rw [splitGo_zero_cons] at h
    split at h
    · rcases List.mem_cons.mp h with rfl | h
      · exact ⟨by simpa using hacc, fun y hy => Or.inl (by simpa using hy)⟩
      · have := ih [] h (by simp)
        exact ⟨this.1, fun y hy => Or.inr (List.mem_cons_of_mem _
          ((this.2 y hy).resolve_left (by simp)))⟩
    · rename_i hs
      have hxc : c ≠ x := by
        intro hcx
        apply hs
        simp [startsWith, hcx, startsWith_nil]
      have := ih (x :: acc) h (by simp [hxc, hacc])
      refine ⟨this.1, fun y hy => ?_⟩
      rcases this.2 y hy with h1 | h1
      · rcases List.mem_cons.mp h1 with rfl | h1
        · exact Or.inr (by simp)
        · exact Or.inl h1
      · exact Or.inr (List.mem_cons_of_mem _ h1)

theorem index_mem {α : Type} (xs : List α) (i : Nat) (x : α) (h : index xs i = .ok x) :
    x ∈ xs := by
  unfold index at h
  split at h
  · rename_i y hy
    cases h
    exact List.get?_mem hy
  · cases h

theorem Split_single_mem (c : Char) (s piece : List Char) (h : piece ∈ Split s [c]) :
    c ∉ piece ∧ ∀ x ∈ piece, x ∈ s := by
  have h1 : piece ∈ splitGo [c] 0 s [] := by simpa [Split] using h
  have := splitGo_single_mem c s [] piece h1 (by simp)
  exact ⟨this.1, fun x hx => (this.2 x hx).resolve_left (by simp)⟩

/-! ## Facts about the JSON decoder -/

theorem skipSpace_mem (s : List Char) (x : Char) (h : x ∈ json.skipSpace s) : x ∈ s := by
  induction s with
  | nil => simp [json.skipSpace] at h
  | cons c cs ih =>
    simp only [json.skipSpace] at h
    split at h
    · exact List.mem_cons_of_mem _ (ih h)
    · exact h

theorem parseValue_array_head (fuel depth : Nat) (s r : List Char) (xs : List json.Value)
    (h : json.parseValue fuel depth s = some (.array xs, r)) : ∃ t, s = '[' :: t := by
  cases fuel with
  | zero => simp [json.parseValue] at h
  | succ fuel =>
    cases s with
    | nil => simp [json.parseValue] at h
    | cons c t =>
      by_cases hc : c = '['
      · exact ⟨t, by rw [hc]⟩
      · exfalso
        simp only [json.parseValue, hc, if_false] at h
        repeat' split at h
        all_goals first
          | cases h
          | (simp only [Option.map_eq_some'] at h
             obtain ⟨a, _, h2⟩ := h
             cases h2)

theorem parse_array_mem (s : List Char) (xs : List json.Value)
    (h : json.parse s = some (.array xs)) : '[' ∈ s := by
  unfold json.parse at h
  split at h
  · cases h
  · rename_i v r hv
    split at h
    · cases h
      obtain ⟨t, ht⟩ := parseValue_array_head _ _ _ _ _ hv
      exact skipSpace_mem s _ (by rw [ht]; simp)
    · cases h

/-- A text without an opening bracket stores no element into the cookie list:
it is a syntax error, a type error, or `null`. -/
theorem Unmarshal_cookiesJson_elems (s : List Char) (g : json.GoValue) (hs : '[' ∉ s)
    (h : json.Unmarshal s cookiesJson = .ok g) : g.elems = [] := by
  unfold json.Unmarshal at h
  split at h
  · cases h
  · rename_i v hv
    cases v with
    | array xs => exact absurd (parse_array_mem s xs hv) hs
    | null =>
      simp only [json.decode, cookiesJson] at h
      cases h
      rfl
    | bool b => simp [json.decode, cookiesJson] at h
    | string b => simp [json.decode, cookiesJson] at h
    | number b => simp [json.decode, cookiesJson] at h
    | object b => simp [json.decode, cookiesJson] at h

/-- The text that `SetAuthCookies` hands to the decoder when the credential
has both brackets: it exists (no index is out of range) and has no opening
bracket. -/
theorem SetAuthCookies_jsonPart (twitterAuth : List Char)
    (hopen : Contains twitterAuth "[".toList = true) :
    ∃ afterOpen jsonPart, index (Split twitterAuth "[".toList) 1 = .ok afterOpen ∧
      index (Split afterOpen "]".toList) 0 = .ok jsonPart ∧ '[' ∉ jsonPart := by
  obtain ⟨afterOpen, h1⟩ := index_one_of_Contains twitterAuth "[".toList (by decide) hopen
  obtain ⟨jsonPart, h2⟩ := index_zero_Split afterOpen "]".toList (by decide)
  refine ⟨afterOpen, jsonPart, h1, h2, fun hmem => ?_⟩
  have ha := Split_single_mem '[' twitterAuth afterOpen (index_mem _ _ _ h1)
  have hj := Split_single_mem ']' afterOpen jsonPart (index_mem _ _ _ h2)
  exact ha.1 (hj.2 _ hmem)

/-- A credential with both brackets never gets through `SetAuthCookies`: the
call returns a decode error or the missing-token error, and leaves the cookie
store and the world as they were. -/
theorem SetAuthCookies_of_brackets (env : Env) (accountIndex : Int) (cookieClient : CookieClient)
    (twitterAuth : List Char) (w : World)
    (hopen : Contains twitterAuth "[".toList = true)
    (hclose : Contains twitterAuth "]".toList = true) :
    ∃ afterOpen jsonPart, index (Split twitterAuth "[".toList) 1 = .ok afterOpen ∧
      index (Split afterOpen "]".toList) 0 = .ok jsonPart ∧
      ((∃ e, json.Unmarshal jsonPart cookiesJson = .error e ∧
          SetAuthCookies env accountIndex cookieClient twitterAuth w =
            .ok (([], [], some (.Fmt (fmtInt accountIndex ++
              " | Failed to decode account json cookies: ".toList) (.Json e))), cookieClient, w)) ∨
       (∃ g, json.Unmarshal jsonPart cookiesJson = .ok g ∧
          SetAuthCookies env accountIndex cookieClient twitterAuth w =
            .ok (([], [], some (.New "failed to get csrf token".toList)), cookieClient, w))) := by
  obtain ⟨afterOpen, jsonPart, h1, h2, h3⟩ := SetAuthCookies_jsonPart twitterAuth hopen
  refine ⟨afterOpen, jsonPart, h1, h2, ?_⟩
  cases hu : json.Unmarshal jsonPart cookiesJson with
  | error e =>
    refine Or.inl ⟨e, rfl, ?_⟩
    simp only [SetAuthCookies, hopen, hclose, Bool.and_self, if_true, h1, h2, hu]
  | ok g =>
    refine Or.inr ⟨g, rfl, ?_⟩
    have hg := Unmarshal_cookiesJson_elems jsonPart g h3 hu
    simp only [SetAuthCookies, hopen, hclose, Bool.and_self, if_true, h1, h2, hu, hg,
      List.foldl_nil]

/-- Every way `SetAuthCookies` can end: it always returns, with a nil error
only on the bare-secret path (the credential itself and a non-empty token), and
otherwise with the missing-token error, the decode error or the generator
error. -/
theorem SetAuthCookies_outcomes (env : Env) (accountIndex : Int) (cookieClient : CookieClient)
    (twitterAuth : List Char) (w : World) :
    ∃ authToken csrfToken err store w1,
      SetAuthCookies env accountIndex cookieClient twitterAuth w =
        .ok ((authToken, csrfToken, err), store, w1) ∧
      ((err = none ∧ authToken = twitterAuth ∧ csrfToken ≠ []) ∨
       err = some (.New "failed to get csrf token".toList) ∨
       (∃ e, err = some (.Fmt (fmtInt accountIndex ++
          " | Failed to decode account json cookies: ".toList) (.Json e))) ∨
       (∃ e, err = some (.Fmt (fmtInt accountIndex ++
          " | Failed to generate CSRF token: ".toList) e))) := by
  by_cases hb : Contains twitterAuth "[".toList = true ∧ Contains twitterAuth "]".toList = true
  · obtain ⟨_, _, _, _, h⟩ :=
      SetAuthCookies_of_brackets env accountIndex cookieClient twitterAuth w hb.1 hb.2
    rcases h with ⟨e, _, h⟩ | ⟨g, _, h⟩
    · exact ⟨_, _, _, _, _, h, Or.inr (Or.inr (Or.inl ⟨e, rfl⟩))⟩
    · exact ⟨_, _, _, _, _, h, Or.inr (Or.inl rfl)⟩
  · have hb2 : (Contains twitterAuth "[".toList && Contains twitterAuth "]".toList) = false := by
      cases h1 : Contains twitterAuth "[".toList <;>
        cases h2 : Contains twitterAuth "]".toList <;> simp_all
    by_cases hlen : byteLen twitterAuth < 60
    · cases hgen : twitter_utils.GenerateCSRFToken env w with
      | mk r w1 =>
        cases r with
        | error e =>
          refine ⟨[], [], some (.Fmt (fmtInt accountIndex ++
            " | Failed to generate CSRF token: ".toList) e), cookieClient, w1, ?_,
            Or.inr (Or.inr (Or.inr ⟨e, rfl⟩))⟩
          simp only [SetAuthCookies, hb2, hlen, hgen, if_true, if_false, Bool.false_eq_true]
        | ok tok =>
          exact ⟨_, _, _, _, _,
            SetAuthCookies_of_bare env accountIndex cookieClient twitterAuth tok w w1 hb hlen hgen,
            Or.inl ⟨rfl, rfl, GenerateCSRFToken_ne_nil env w w1 tok hgen⟩⟩
    · refine ⟨[], [], some (.New "failed to get csrf token".toList), cookieClient, w, ?_,
        Or.inr (Or.inl rfl)⟩
      simp only [SetAuthCookies, hb2, hlen, if_false, Bool.false_eq_true]

/-- The last branch of `SetAuthCookies`: a credential without both brackets
that is 60 bytes or longer. -/
theorem SetAuthCookies_of_long (env : Env) (accountIndex : Int) (cookieClient : CookieClient)
    (twitterAuth : List Char) (w : World)
    (hb : Contains twitterAuth "[".toList = false ∨ Contains twitterAuth "]".toList = false)
    (hlen : 60 ≤ byteLen twitterAuth) :
    SetAuthCookies env accountIndex cookieClient twitterAuth w =
      .ok (([], [], some (.New "failed to get csrf token".toList)), cookieClient, w) := by
  have hb2 : (Contains twitterAuth "[".toList && Contains twitterAuth "]".toList) = false := by
    rcases hb with h | h
    · rw [h]; rfl
    · rw [h, Bool.and_false]
  have hlen2 : ¬ byteLen twitterAuth < 60 := by omega
  simp only [SetAuthCookies, hb2, hlen2, if_false, Bool.false_eq_true]

/-! ## C11 -/

/-- C11. Missing token is an error: `SetAuthCookies` always returns, and it
returns a nil error only together with a non-empty CSRF token; a failure that is
neither the decode error of the structured path nor the generator error of the
bare-secret path is `failed to get csrf token`.  In particular, for every
credential that lacks `[` or lacks `]` and is 60 bytes or longer, it returns that
error and leaves the cookie store (and the world) unchanged. -/
theorem SetAuthCookies_missing_token (env : Env) (accountIndex : Int)
    (cookieClient : CookieClient) (twitterAuth : List Char) (w : World) :
    (∃ authToken csrfToken err store w1,
      SetAuthCookies env accountIndex cookieClient twitterAuth w =
        .ok ((authToken, csrfToken, err), store, w1) ∧
      ((err = none ∧ csrfToken ≠ []) ∨
       err = some (.New "failed to get csrf token".toList) ∨
       (∃ e, err = some (.Fmt (fmtInt accountIndex ++
          " | Failed to decode account json cookies: ".toList) (.Json e))) ∨
       (∃ e, err = some (.Fmt (fmtInt accountIndex ++
          " | Failed to generate CSRF token: ".toList) e)))) ∧
    ((Contains twitterAuth "[".toList = false ∨ Contains twitterAuth "]".toList = false) →
      60 ≤ byteLen twitterAuth →
      SetAuthCookies env accountIndex cookieClient twitterAuth w =
        .ok (([], [], some (.New "failed to get csrf token".toList)), cookieClient, w)) := by
  refine ⟨?_, SetAuthCookies_of_long env accountIndex cookieClient twitterAuth w⟩
  obtain ⟨a, c, err, store, w1, h, hc⟩ :=
    SetAuthCookies_outcomes env accountIndex cookieClient twitterAuth w
  refine ⟨a, c, err, store, w1, h, ?_⟩
  rcases hc with h1 | h1 | h1 | h1
  · exact Or.inl ⟨h1.1, h1.2.2⟩
  · exact Or.inr (Or.inl h1)
  · exact Or.inr (Or.inr (Or.inl h1))
  · exact Or.inr (Or.inr (Or.inr h1))

theorem SetAuthCookies_missing_token_witness :
    SetAuthCookies (envWith deadClient) 0 NewCookieClient longCredential world0 =
      .ok (([], [], some (.New "failed to get csrf token".toList)), NewCookieClient, world0) :=
  (SetAuthCookies_missing_token (envWith deadClient) 0 NewCookieClient longCredential world0).2
    (Or.inl (by decide)) (by decide)

/-! ## C12 -/

/-- C12. Decode failure is atomic: when the credential contains both `[` and
`]`, the text `jsonPart` that `SetAuthCookies` extracts exists, and whenever
decoding it into the list of string-to-string objects fails with `e`,
`SetAuthCookies` returns the decode error that wraps `e` with the cookie store
unchanged and the world unchanged (no random bytes are read: the bare-secret
path is not entered). -/
theorem SetAuthCookies_decode_failure_atomic (env : Env) (accountIndex : Int)
    (cookieClient : CookieClient) (twitterAuth : List Char) (w : World)
    (hopen : Contains twitterAuth "[".toList = true)
    (hclose : Contains twitterAuth "]".toList = true) :
    ∃ afterOpen jsonPart, index (Split twitterAuth "[".toList) 1 = .ok afterOpen ∧
      index (Split afterOpen "]".toList) 0 = .ok jsonPart ∧
      ∀ e, json.Unmarshal jsonPart cookiesJson = .error e →
        SetAuthCookies env accountIndex cookieClient twitterAuth w =
          .ok (([], [], some (.Fmt (fmtInt accountIndex ++
            " | Failed to decode account json cookies: ".toList) (.Json e))), cookieClient, w) := by
  obtain ⟨afterOpen, jsonPart, h1, h2, h⟩ :=
    SetAuthCookies_of_brackets env accountIndex cookieClient twitterAuth w hopen hclose
  refine ⟨afterOpen, jsonPart, h1, h2, fun e he => ?_⟩
  rcases h with ⟨e1, hu, h⟩ | ⟨g, hu, _⟩
  · rw [hu] at he
    cases he
    exact h
  · rw [hu] at he
    cases he

theorem SetAuthCookies_decode_failure_atomic_witness :
    SetAuthCookies (envWith deadClient) 7 NewCookieClient "a[x]b".toList world0 =
      .ok (([], [], some (.Fmt (fmtInt 7 ++ " | Failed to decode account json cookies: ".toList)
        (.Json .syntaxError))), NewCookieClient, world0) := by
  obtain ⟨afterOpen, jsonPart, h1, h2, h⟩ :=
    SetAuthCookies_decode_failure_atomic (envWith deadClient) 7 NewCookieClient "a[x]b".toList
      world0 (by decide) (by decide)
  have e1 : afterOpen = "x]b".toList :=
    (Except.ok.inj ((show index (Split "a[x]b".toList "[".toList) 1 = .ok "x]b".toList by
      decide).symm.trans h1)).symm
  subst e1
  have e2 : jsonPart = "x".toList :=
    (Except.ok.inj ((show index (Split "x]b".toList "]".toList) 0 = .ok "x".toList by
      decide).symm.trans h2)).symm
  subst e2
  exact h .syntaxError rfl

/-- With an HTTP client at hand `MakeRequest` always returns. -/
theorem MakeRequest_total (env : Env) (c : HttpClient) (config : RequestConfig) (w : World) :
    ∃ res w1, MakeRequest env (some c) config w = .ok (res, w1) := by
  cases h1 : env.NewRequest config.Method config.URL with
  | some err => exact ⟨_, _, by simp only [MakeRequest, h1]; rfl⟩
  | none =>
    cases h2 : c.Do w.sent.length (buildRequest config) with
    | error err => exact ⟨_, _, by simp only [MakeRequest, h1, h2]; rfl⟩
    | ok resp =>
      cases h3 : resp.Body with
      | error err => exact ⟨_, _, by simp only [MakeRequest, h1, h2, h3]; rfl⟩
      | ok body => exact ⟨_, _, by simp only [MakeRequest, h1, h2, h3]; rfl⟩

/-- With an HTTP client at hand the loop of `GetTwitterUsername` always
returns. -/
theorem getTwitterUsernameLoop_total (env : Env) (c : HttpClient) (config : Config)
    (csrfToken : List Char) (n : Nat) (store : CookieClient) (w : World) :
    ∃ r, getTwitterUsernameLoop env (some c) config csrfToken n store w = .ok r := by
  induction n generalizing store w with
  | zero => exact ⟨_, rfl⟩
  | succ n ih =>
    obtain ⟨res, w1, h⟩ := MakeRequest_total env c (viewerRequest config store csrfToken) w
    simp only [getTwitterUsernameLoop, h]
    cases res with
    | error e => exact ih store w1
    | ok br =>
      obtain ⟨bodyBytes, resp⟩ := br
      simp only
      split
      · exact ih _ w1
      · split
        · split
          · exact ih _ w1
          · exact ⟨_, rfl⟩
        · split
          · exact ⟨_, rfl⟩
          · split
            · exact ⟨_, rfl⟩
            · exact ih _ w1

/-- The loop of `init` always returns, and leaves `Account.AuthToken` as it
found it. -/
theorem initLoop_AuthToken (env : Env) (n : Nat) (i : Int) (t : Twitter) (w : World) :
    ∃ err t1 w1, initLoop env n i t w = .ok (err, t1, w1) ∧
      t1.Account.AuthToken = t.Account.AuthToken := by
  induction n generalizing i t w with
  | zero => exact ⟨_, _, _, rfl, rfl⟩
  | succ n ih =>
    cases hc : CreateHttpClient env t.Account.Proxy w with
    | mk r w1 =>
      cases r with
      | error e =>
        obtain ⟨err, t1, w2, h, ha⟩ := ih (i + 1) t w1
        exact ⟨err, t1, w2, by simp only [initLoop, hc, h], ha⟩
      | ok cl =>
        obtain ⟨a, c, err, store, w2, hset, hcase⟩ :=
          SetAuthCookies_outcomes env i t.Cookies t.Account.AuthToken w1
        cases err with
        | some e =>
          obtain ⟨err, t1, w3, h, ha⟩ :=
            ih (i + 1) { Account := t.Account, Client := some cl, Config := t.Config,
                         Cookies := store } w2
          exact ⟨err, t1, w3, by simp only [initLoop, hc, hset, h], ha⟩
        | none =>
          have hauth : a = t.Account.AuthToken := by
            rcases hcase with h1 | h1 | ⟨_, h1⟩ | ⟨_, h1⟩
            · exact h1.2.1
            · cases h1
            · cases h1
            · cases h1
          subst hauth
          obtain ⟨⟨⟨username, newCsrfToken, gerr, status⟩, store3, w3⟩, hget⟩ :=
            getTwitterUsernameLoop_total env cl t.Config c t.Config.MaxRetries.toNat store w2
          cases gerr with
          | none =>
            simp only [initLoop, hc, hset, GetTwitterUsername, hget]
            exact ⟨_, _, _, rfl, rfl⟩
          | some e =>
            cases status with
            | StatusUnknown =>
              obtain ⟨err, t1, w4, h, ha⟩ :=
                ih (i + 1) { Account := { t.Account with AuthToken := t.Account.AuthToken, Ct0 := c },
                             Client := some cl, Config := t.Config, Cookies := store3 } w3
              exact ⟨err, t1, w4, by simp only [initLoop, hc, hset, GetTwitterUsername, hget, h],
                ha⟩
            | _ =>
              simp only [initLoop, hc, hset, GetTwitterUsername, hget]
              exact ⟨_, _, _, rfl, rfl⟩

/-! ## Facts about `hex.EncodeToString` -/

theorem hexDigit_hextable (n : Fin 16) :
    hextable.get? n.val = some (twitter_utils.hexDigit n.val) := by
  revert n
  decide

theorem hexDigit_injective (n m : Fin 16)
    (h : twitter_utils.hexDigit n.val = twitter_utils.hexDigit m.val) : n = m := by
  revert n m
  decide

theorem EncodeToString_cons (b : Fin 256) (bs : List (Fin 256)) :
    twitter_utils.EncodeToString (b :: bs) =
      twitter_utils.hexDigit (b.val / 16) :: twitter_utils.hexDigit (b.val % 16) ::
        twitter_utils.EncodeToString bs := by
  simp [twitter_utils.EncodeToString]

theorem EncodeToString_length (bs : List (Fin 256)) :
    (twitter_utils.EncodeToString bs).length = 2 * bs.length := by
  induction bs with
  | nil => rfl
  | cons b bs ih => rw [EncodeToString_cons]; simp [ih]; omega

theorem EncodeToString_get (bs : List (Fin 256)) (i : Nat) (b : Fin 256)
    (h : bs.get? i = some b) :
    (twitter_utils.EncodeToString bs).get? (2 * i) = hextable.get? (b.val / 16) ∧
    (twitter_utils.EncodeToString bs).get? (2 * i + 1) = hextable.get? (b.val % 16) := by
  induction bs generalizing i with
  | nil => simp at h
  | cons x xs ih =>
    rw [EncodeToString_cons]
    cases i with
    | zero =>
      simp only [List.get?_cons_zero, Option.some.injEq] at h
      subst h
      have h1 := hexDigit_hextable ⟨x.val / 16, by omega⟩
      have h2 := hexDigit_hextable ⟨x.val % 16, by omega⟩
      exact ⟨h1.symm, h2.symm⟩
    | succ i =>
      simp only [List.get?_cons_succ] at h
      have := ih i h
      have e1 : 2 * (i + 1) = (2 * i) + 1 + 1 := by omega
      rw [e1]
      exact this

theorem EncodeToString_mem (bs : List (Fin 256)) :
    ∀ c ∈ twitter_utils.EncodeToString bs, c ∈ hextable := by
  induction bs with
  | nil => simp [twitter_utils.EncodeToString]
  | cons x xs ih =>
    rw [EncodeToString_cons]
    intro c hc
    have h1 := hexDigit_hextable ⟨x.val / 16, by omega⟩
    have h2 := hexDigit_hextable ⟨x.val % 16, by omega⟩
    rcases List.mem_cons.mp hc with rfl | hc
    · exact List.get?_mem h1
    · rcases List.mem_cons.mp hc with rfl | hc
      · exact List.get?_mem h2
      · exact ih c hc

theorem EncodeToString_injective (xs ys : List (Fin 256))
    (h : twitter_utils.EncodeToString xs = twitter_utils.EncodeToString ys) : xs = ys := by
  induction xs generalizing ys with
  | nil =>
    cases ys with
    | nil => rfl
    | cons y ys => rw [EncodeToString_cons] at h; cases h
  | cons x xs ih =>
    cases ys with
    | nil => rw [EncodeToString_cons] at h; cases h
    | cons y ys =>
      rw [EncodeToString_cons, EncodeToString_cons] at h
      simp only [List.cons.injEq] at h
      have h1 := hexDigit_injective ⟨x.val / 16, by omega⟩ ⟨y.val / 16, by omega⟩ h.1
      have h2 := hexDigit_injective ⟨x.val % 16, by omega⟩ ⟨y.val % 16, by omega⟩ h.2.1
      simp only [Fin.mk.injEq] at h1 h2
      have hxy : x = y := by
        apply Fin.ext
        omega
      rw [hxy, ih ys h.2.2]

theorem get_ofFn_bytes (bytes : Fin 16 → Fin 256) (i : Fin 16) :
    (List.ofFn bytes).get? i.val = some (bytes i) := by
  rw [List.get?_ofFn]
  simp only [List.ofFnNthVal, i.isLt, dif_pos]

theorem GenerateCSRFToken_of_bytes (env : Env) (w : World) (bytes : Fin 16 → Fin 256)
    (h : env.RandRead w.randomReads = .ok bytes) :
    (twitter_utils.GenerateCSRFToken env w).1 =
      .ok (twitter_utils.EncodeToString (List.ofFn bytes)) := by
  simp only [twitter_utils.GenerateCSRFToken, h]

/-! ## C13 -/

/-- C13. Generated security token format: when the random source delivers the
16 bytes `bytes`, `GenerateCSRFToken` returns without error a token of exactly
32 characters, each in `0-9a-f`; the characters at positions `2i` and `2i+1` are
the digits of the table `0123456789abcdef` for the high and the low half of byte
`i`; and a run of `GenerateCSRFToken` that returns the same token was given the
same 16 bytes. -/
theorem GenerateCSRFToken_format (env : Env) (w : World) (bytes : Fin 16 → Fin 256)
    (h : env.RandRead w.randomReads = .ok bytes) :
    ∃ tok, (twitter_utils.GenerateCSRFToken env w).1 = .ok tok ∧
      tok.length = 32 ∧
      (∀ c ∈ tok, c ∈ hextable) ∧
      (∀ i : Fin 16, tok.get? (2 * i.val) = hextable.get? ((bytes i).val / 16) ∧
        tok.get? (2 * i.val + 1) = hextable.get? ((bytes i).val % 16)) ∧
      (∀ (env2 : Env) (w2 : World) (bytes2 : Fin 16 → Fin 256),
        env2.RandRead w2.randomReads = .ok bytes2 →
        (twitter_utils.GenerateCSRFToken env2 w2).1 = .ok tok → bytes2 = bytes) := by
  refine ⟨twitter_utils.EncodeToString (List.ofFn bytes), GenerateCSRFToken_of_bytes env w bytes h,
    ?_, EncodeToString_mem _, ?_, ?_⟩
  · rw [EncodeToString_length, List.length_ofFn]
  · exact fun i => EncodeToString_get _ i.val (bytes i) (get_ofFn_bytes bytes i)
  · intro env2 w2 bytes2 h2 htok
    rw [GenerateCSRFToken_of_bytes env2 w2 bytes2 h2] at htok
    exact List.ofFn_injective (EncodeToString_injective _ _ (Except.ok.inj htok))

theorem GenerateCSRFToken_format_witness :
    ∃ tok, (twitter_utils.GenerateCSRFToken (envWith deadClient) world0).1 = .ok tok ∧
      tok.length = 32 ∧
      (∀ c ∈ tok, c ∈ hextable) ∧
      (∀ i : Fin 16, tok.get? (2 * i.val) = hextable.get? (((fun _ => 7 : Fin 16 → Fin 256) i).val / 16) ∧
        tok.get? (2 * i.val + 1) = hextable.get? (((fun _ => 7 : Fin 16 → Fin 256) i).val % 16)) ∧
      (∀ (env2 : Env) (w2 : World) (bytes2 : Fin 16 → Fin 256),
        env2.RandRead w2.randomReads = .ok bytes2 →
        (twitter_utils.GenerateCSRFToken env2 w2).1 = .ok tok → bytes2 = fun _ => 7) :=
  GenerateCSRFToken_format (envWith deadClient) world0 (fun _ => 7) rfl

/-! ## C16 -/

/-- C16. The credential is immutable: for every session (whatever its
credential), every environment and every behaviour of the transport, `init`
returns (with or without an error), and `Account.AuthToken` of the session it
leaves behind equals `Account.AuthToken` of the session it started from; so the
account that `NewTwitter` was given, created by `NewAccount` with the credential
`credential`, still has `AuthToken = credential` afterwards. -/
theorem init_keeps_credential (env : Env) (t : Twitter) (w : World)
    (credential ct0 proxy : List Char) (config : Option Config) :
    (∃ err t1 w1, init env t w = .ok (err, t1, w1) ∧
      t1.Account.AuthToken = t.Account.AuthToken) ∧
    (∃ r t1 w1, NewTwitter env (NewAccount credential ct0 proxy) config w = .ok (r, t1, w1) ∧
      t1.Account.AuthToken = credential) := by
  refine ⟨initLoop_AuthToken env t.Config.MaxRetries.toNat 0 t w, ?_⟩
  obtain ⟨err, t1, w1, h, ha⟩ := initLoop_AuthToken env (config.getD NewConfig).MaxRetries.toNat 0
    { Account := NewAccount credential ct0 proxy, Client := none, Config := config.getD NewConfig,
      Cookies := NewCookieClient } w
  cases err with
  | none => exact ⟨(some t1, none), t1, w1, by simp only [NewTwitter, init, h], ha⟩
  | some e =>
    exact ⟨(none, some (.Wrap "failed to initialize Twitter client: ".toList e)), t1, w1,
      by simp only [NewTwitter, init, h], ha⟩

theorem init_keeps_credential_witness :
    (∃ err t1 w1, init (envWith deadClient) (sessionWith deadClient) world0 = .ok (err, t1, w1) ∧
      t1.Account.AuthToken = "secret".toList) ∧
    (∃ r t1 w1, NewTwitter (envWith deadClient) (NewAccount exportXY "csrf0".toList []) none
        world0 = .ok (r, t1, w1) ∧
      t1.Account.AuthToken = exportXY) :=
  init_keeps_credential (envWith deadClient) (sessionWith deadClient) world0 exportXY
    "csrf0".toList [] none

/-! ## Facts about `TrimSpace` and digit strings -/

theorem IsNumeric_mem (d : List Char) (h : IsNumeric d = true) :
    ∀ c ∈ d, 48 ≤ c.toNat ∧ c.toNat ≤ 57 := by
  intro c hc
  have := List.all_eq_true.mp h c hc
  simp only [Bool.not_eq_true', Bool.or_eq_false_iff, decide_eq_false_iff_not] at this
  omega

theorem digit_not_space (c : Char) (h : 48 ≤ c.toNat ∧ c.toNat ≤ 57) :
    strings.isSpace c = false := by
  simp only [strings.isSpace, Bool.or_eq_false_iff, beq_eq_false_iff_ne, ne_eq,
    Bool.and_eq_false_iff, decide_eq_false_iff_not]
  omega

theorem digit_ne (c x : Char) (h : 48 ≤ c.toNat ∧ c.toNat ≤ 57)
    (hx : x.toNat < 48 ∨ 57 < x.toNat) : c ≠ x := by
  intro e
  subst e
  omega

theorem dropWhile_stop (a r : List Char) (c : Char) (hc : strings.isSpace c = false) :
    (a ++ c :: r).dropWhile strings.isSpace = a.dropWhile strings.isSpace ++ c :: r := by
  induction a with
  | nil => simp [List.dropWhile, hc]
  | cons x xs ih =>
    cases hx : strings.isSpace x with
    | true => simpa [List.dropWhile, hx] using ih
    | false => simp [List.dropWhile, hx]

theorem trimRight_stop (l r : List Char) (c : Char) (hc : strings.isSpace c = false) :
    trimRight (l ++ c :: r) = l ++ c :: trimRight r := by
  unfold trimRight
  rw [List.reverse_append, List.reverse_cons, List.append_assoc, List.singleton_append,
    dropWhile_stop _ _ _ hc]
  simp

theorem TrimSpace_eq (s : List Char) : TrimSpace s = trimRight (s.dropWhile strings.isSpace) :=
  rfl

theorem trimRight_spaces (y ws : List Char) (h : ∀ c ∈ ws, strings.isSpace c = true) :
    trimRight (y ++ ws) = trimRight y := by
  unfold trimRight
  rw [List.reverse_append, List.dropWhile_append_of_pos (fun a ha => h a (List.mem_reverse.mp ha))]

/-- White space around the input is dropped by `TrimSpace`. -/
theorem TrimSpace_surround (ws s ws1 : List Char) (h : ∀ c ∈ ws, strings.isSpace c = true)
    (h1 : ∀ c ∈ ws1, strings.isSpace c = true) : TrimSpace (ws ++ s ++ ws1) = TrimSpace s := by
  rw [TrimSpace_eq, TrimSpace_eq, List.append_assoc, List.dropWhile_append_of_pos h,
    List.dropWhile_append]
  split
  · rename_i he
    have hnil : s.dropWhile strings.isSpace = [] := List.isEmpty_iff.mp he
    rw [hnil, List.dropWhile_eq_nil_iff.mpr h1]
  · exact trimRight_spaces _ _ h1

theorem Contains_dropWhile (p sub : List Char) (h : Contains p sub = false) :
    Contains (p.dropWhile strings.isSpace) sub = false := by
  cases hc : Contains (p.dropWhile strings.isSpace) sub with
  | false => rfl
  | true =>
    have := Contains_append_right (p.takeWhile strings.isSpace) _ sub hc
    rw [List.takeWhile_append_dropWhile, h] at this
    cases this

theorem Contains_trimRight (q sub : List Char) (h : Contains q sub = false) :
    Contains (trimRight q) sub = false := by
  cases hc : Contains (trimRight q) sub with
  | false => rfl
  | true =>
    have hq : q = trimRight q ++ (q.reverse.takeWhile strings.isSpace).reverse := by
      unfold trimRight
      rw [← List.reverse_append, List.takeWhile_append_dropWhile, List.reverse_reverse]
    have := Contains_append_left (trimRight q) (q.reverse.takeWhile strings.isSpace).reverse sub hc
    rw [← hq, h] at this
    cases this

/-! ## Splitting a status link -/

/-- No occurrence of `status/` straddles the end of a text that is followed by
`status/`: the separator overlaps itself nowhere. -/
theorem startsWith_status_straddle (x rest : List Char) (hx : x ≠ [])
    (h : startsWith x "status/".toList = false) :
    startsWith (x ++ ("status/".toList ++ rest)) "status/".toList = false := by
  rcases x with _ | ⟨c1, _ | ⟨c2, _ | ⟨c3, _ | ⟨c4, _ | ⟨c5, _ | ⟨c6, _ | ⟨c7, x⟩⟩⟩⟩⟩⟩⟩
  · exact absurd rfl hx
  all_goals
    simp only [String.toList, startsWith, List.cons_append, List.nil_append, Bool.and_eq_false_iff,
      beq_eq_false_iff_ne, ne_eq, Bool.and_true, startsWith_nil] at h ⊢
    try simp
  · exact h

theorem Contains_suffix_false (y x sub : List Char) (h : Contains (y ++ x) sub = false) :
    Contains x sub = false := by
  cases hc : Contains x sub with
  | false => rfl
  | true => rw [Contains_append_right y x sub hc] at h; cases h

theorem startsWith_of_Contains_false (x sub : List Char) (hx : x ≠ [])
    (h : Contains x sub = false) : startsWith x sub = false := by
  cases x with
  | nil => exact absurd rfl hx
  | cons c cs =>
    simp only [Contains, Bool.or_eq_false_iff] at h
    exact h.1

/-- The first piece of `a ++ "status/" ++ rest` is `a` when `a` has no
`status/`. -/
theorem splitGo_status (a rest : List Char) (h : Contains a "status/".toList = false) :
    Split (a ++ ("status/".toList ++ rest)) "status/".toList =
      a :: splitGo "status/".toList 0 rest [] := by
  have := splitGo_first "status/".toList a rest [] (by decide) (fun y x hy hx =>
    startsWith_status_straddle x rest hx
      (startsWith_of_Contains_false x _ hx (Contains_suffix_false y x _ (hy ▸ h))))
  simpa [Split] using this

/-- The first piece of a split starts with what was read before. -/
theorem splitGo_head (sep s acc : List Char) :
    ∃ x tail, splitGo sep 0 s acc = (acc.reverse ++ x) :: tail := by
  induction s generalizing acc with
  | nil => exact ⟨[], [], by simp [splitGo]⟩
  | cons c cs ih =>
    rw [splitGo_zero_cons]
    split
    · exact ⟨[], splitGo sep (sep.length - 1) cs [], by simp⟩
    · obtain ⟨x, tail, h⟩ := ih (c :: acc)
      exact ⟨c :: x, tail, by rw [h]; simp⟩

/-- Characters that differ from the first character of the separator are read
into the current piece. -/
theorem splitGo_peel (s : Char) (ss pre rest acc : List Char) (h : ∀ c ∈ pre, c ≠ s) :
    splitGo (s :: ss) 0 (pre ++ rest) acc = splitGo (s :: ss) 0 rest (pre.reverse ++ acc) := by
  induction pre generalizing acc with
  | nil => rfl
  | cons c cs ih =>
    have hc : startsWith (c :: (cs ++ rest)) (s :: ss) = false := by
      simp [startsWith, h c (by simp)]
    rw [List.cons_append, splitGo_zero_cons, hc, if_neg (by simp),
      ih (c :: acc) (fun x hx => h x (List.mem_cons_of_mem _ hx))]
    simp

/-- The first piece cut by a one-character separator from `a ++ c :: rest` is
`a` when `a` is free of `c`. -/
theorem Split_single_first (c : Char) (a rest : List Char) (h : c ∉ a) :
    index (Split (a ++ c :: rest) [c]) 0 = .ok a := by
  have h1 : splitGo [c] 0 (a ++ c :: rest) [] = splitGo [c] 0 (c :: rest) (a.reverse ++ []) :=
    splitGo_peel c [] a (c :: rest) [] (fun x hx e => h (e ▸ hx))
  have h2 : startsWith (c :: rest) [c] = true := by simp [startsWith, startsWith_nil]
  simp [Split, h1, splitGo_zero_cons, h2, index]

theorem digits_free (d : List Char) (hdigits : IsNumeric d = true) (x : Char)
    (hx : x.toNat < 48 ∨ 57 < x.toNat) : x ∉ d :=
  fun hmem => digit_ne x x (IsNumeric_mem d hdigits x hmem) hx rfl

theorem Contains_digits (d sub : List Char) (hdigits : IsNumeric d = true) (x : Char)
    (hx : x.toNat < 48 ∨ 57 < x.toNat) (hsub : x ∈ sub) : Contains d sub = false := by
  cases hc : Contains d sub with
  | false => rfl
  | true => exact absurd (Contains_mem d sub hc x hsub) (digits_free d hdigits x hx)

theorem Contains_status_digits (d : List Char) (hdigits : IsNumeric d = true) :
    Contains ("status/".toList ++ d) "tweet_id=".toList = false := by
  cases hc : Contains ("status/".toList ++ d) "tweet_id=".toList with
  | false => rfl
  | true =>
    have hw := Contains_mem _ _ hc 'w' (by decide)
    rcases List.mem_append.mp hw with h | h
    · exact absurd h (by decide)
    · exact absurd h (digits_free d hdigits 'w' (by decide))

/-- The trimmed form of a status link without query. -/
theorem TrimSpace_status (p d : List Char) (hd : d ≠ []) (hdigits : IsNumeric d = true) :
    TrimSpace (p ++ "status/".toList ++ d) =
      p.dropWhile strings.isSpace ++ ("status/".toList ++ d) := by
  obtain ⟨di, dl, rfl⟩ : ∃ di dl, d = di ++ [dl] :=
    ⟨d.dropLast, d.getLast hd, (List.dropLast_append_getLast hd).symm⟩
  have hdl : strings.isSpace dl = false :=
    digit_not_space dl (IsNumeric_mem _ hdigits dl (by simp))
  have e1 : p ++ "status/".toList ++ (di ++ [dl]) = p ++ 's' :: ("tatus/".toList ++ (di ++ [dl])) := by
    rw [List.append_assoc]; rfl
  have e2 : p.dropWhile strings.isSpace ++ 's' :: ("tatus/".toList ++ (di ++ [dl])) =
      (p.dropWhile strings.isSpace ++ "status/".toList ++ di) ++ dl :: [] := by
    simp
  rw [TrimSpace_eq, e1, dropWhile_stop p _ 's' (by decide), e2, trimRight_stop _ _ dl hdl]
  simp [trimRight]

/-- The trimmed form of a status link with a query. -/
theorem TrimSpace_status_query (p d q : List Char) :
    TrimSpace (p ++ "status/".toList ++ d ++ "?".toList ++ q) =
      p.dropWhile strings.isSpace ++ ("status/".toList ++ (d ++ '?' :: trimRight q)) := by
  have e1 : p ++ "status/".toList ++ d ++ "?".toList ++ q =
      p ++ 's' :: ("tatus/".toList ++ d ++ '?' :: q) := by
    simp
  have e2 : p.dropWhile strings.isSpace ++ 's' :: ("tatus/".toList ++ d ++ '?' :: q) =
      (p.dropWhile strings.isSpace ++ "status/".toList ++ d) ++ '?' :: q := by
    simp
  rw [TrimSpace_eq, e1, dropWhile_stop p _ 's' (by decide), e2, trimRight_stop _ _ '?' (by decide)]
  simp

/-- The run of `ExtractTweetID` on a trimmed status link without query. -/
theorem ExtractTweetID_status (p d : List Char)
    (hp1 : Contains p "tweet_id=".toList = false) (hp2 : Contains p "?".toList = false)
    (hp3 : Contains p "status/".toList = false) (hd : d ≠ []) (hdigits : IsNumeric d = true) :
    ExtractTweetID (p ++ "status/".toList ++ d) = .ok (d, none) := by
  have q1 := Contains_dropWhile p _ hp1
  have q2 := Contains_dropWhile p _ hp2
  have q3 := Contains_dropWhile p _ hp3
  generalize hp : p.dropWhile strings.isSpace = p1 at q1 q2 q3
  have hT : TrimSpace (p ++ "status/".toList ++ d) = p1 ++ ("status/".toList ++ d) := by
    rw [TrimSpace_status p d hd hdigits, hp]
  have c1 : Contains (p1 ++ ("status/".toList ++ d)) "tweet_id=".toList = false :=
    Contains_append_false p1 ("tatus/".toList ++ d) _ 's' q1 (Contains_status_digits d hdigits)
      (by decide)
  have c2 : Contains (p1 ++ ("status/".toList ++ d)) "?".toList = false := by
    cases hc : Contains (p1 ++ ("status/".toList ++ d)) "?".toList with
    | false => rfl
    | true =>
      have hm := (Contains_singleton _ '?').mp hc
      rcases List.mem_append.mp hm with h | h
      · have h2 : Contains p1 "?".toList = true := (Contains_singleton p1 '?').mpr h
        rw [q2] at h2; cases h2
      · rcases List.mem_append.mp h with h | h
        · exact absurd h (by decide)
        · exact absurd h (digits_free d hdigits '?' (by decide))
  have c3 : Contains (p1 ++ ("status/".toList ++ d)) "status/".toList = true :=
    Contains_append_right p1 _ _ (Contains_append_left _ d _ (by decide))
  have sp : Split (p1 ++ ("status/".toList ++ d)) "status/".toList = [p1, d] := by
    rw [splitGo_status p1 d q3,
      splitGo_absent _ d [] (Contains_digits d _ hdigits 's' (by decide) (by decide))]
    rfl
  simp only [ExtractTweetID, hT, c1, c2, c3, sp, index, List.get?, if_true, if_false,
    Bool.false_eq_true]

/-- The run of `ExtractTweetID` on a status link with a query. -/
theorem ExtractTweetID_status_query (p d q : List Char)
    (hp1 : Contains p "tweet_id=".toList = false) (hp3 : Contains p "status/".toList = false)
    (hdigits : IsNumeric d = true) (hq : Contains q "tweet_id=".toList = false) :
    ExtractTweetID (p ++ "status/".toList ++ d ++ "?".toList ++ q) = .ok (d, none) := by
  have q1 := Contains_dropWhile p _ hp1
  have q3 := Contains_dropWhile p _ hp3
  have r1 := Contains_trimRight q _ hq
  generalize hp : p.dropWhile strings.isSpace = p1 at q1 q3
  generalize hr : trimRight q = qr at r1
  have hT : TrimSpace (p ++ "status/".toList ++ d ++ "?".toList ++ q) =
      p1 ++ ("status/".toList ++ (d ++ '?' :: qr)) := by
    rw [TrimSpace_status_query p d q, hp, hr]
  have y : Contains ('?' :: qr) "tweet_id=".toList = false := by
    simp only [Contains, Bool.or_eq_false_iff]
    exact ⟨rfl, r1⟩
  have x : Contains ("status/".toList ++ (d ++ '?' :: qr)) "tweet_id=".toList = false := by
    rw [← List.append_assoc]
    exact Contains_append_false _ qr _ '?' (Contains_status_digits d hdigits) y (by decide)
  have c1 : Contains (p1 ++ ("status/".toList ++ (d ++ '?' :: qr))) "tweet_id=".toList = false :=
    Contains_append_false p1 ("tatus/".toList ++ (d ++ '?' :: qr)) _ 's' q1 x (by decide)
  have c2 : Contains (p1 ++ ("status/".toList ++ (d ++ '?' :: qr))) "?".toList = true :=
    (Contains_singleton _ '?').mpr (by simp)
  have hpeel : splitGo "status/".toList 0 ((d ++ ['?']) ++ qr) [] =
      splitGo "status/".toList 0 qr ((d ++ ['?']).reverse ++ []) :=
    splitGo_peel 's' "tatus/".toList (d ++ ['?']) qr [] (fun c hc => by
      rcases List.mem_append.mp hc with h | h
      · exact digit_ne c 's' (IsNumeric_mem d hdigits c h) (by decide)
      · rw [List.mem_singleton.mp h]; decide)
  obtain ⟨rest, tail, hhead⟩ := splitGo_head "status/".toList qr ((d ++ ['?']).reverse ++ [])
  have sp : Split (p1 ++ ("status/".toList ++ (d ++ '?' :: qr))) "status/".toList =
      p1 :: (d ++ '?' :: rest) :: tail := by
    rw [splitGo_status p1 _ q3]
    have e : d ++ '?' :: qr = (d ++ ['?']) ++ qr := by simp
    rw [e, hpeel, hhead]
    simp
  have hid : index (Split (d ++ '?' :: rest) "?".toList) 0 = .ok d :=
    Split_single_first '?' d rest (digits_free d hdigits '?' (by decide))
  have h1 : index (p1 :: (d ++ '?' :: rest) :: tail) 1 = .ok (d ++ '?' :: rest) := rfl
  simp only [ExtractTweetID, hT, c1, c2, sp, h1, hid, if_true, if_false, Bool.false_eq_true]

/-! ## C18 -/

/-- C18. `ExtractTweetID` extracts the ID from a status URL: for every prefix `p`
that contains none of `tweet_id=`, `?` and `status/` and every non-empty string
`d` of decimal digits, `ExtractTweetID (p ++ "status/" ++ d)` returns `(d, nil)`;
for every query text `q` without `tweet_id=`,
`ExtractTweetID (p ++ "status/" ++ d ++ "?" ++ q)` returns `(d, nil)` too; and for
every input `s`, white space `ws` before it and `ws1` after it do not change the
result. -/
theorem ExtractTweetID_status_url (p d q ws ws1 : List Char)
    (hp1 : Contains p "tweet_id=".toList = false) (hp2 : Contains p "?".toList = false)
    (hp3 : Contains p "status/".toList = false) (hd : d ≠ []) (hdigits : IsNumeric d = true)
    (hq : Contains q "tweet_id=".toList = false)
    (hws : ∀ c ∈ ws, strings.isSpace c = true) (hws1 : ∀ c ∈ ws1, strings.isSpace c = true) :
    ExtractTweetID (p ++ "status/".toList ++ d) = .ok (d, none) ∧
    ExtractTweetID (p ++ "status/".toList ++ d ++ "?".toList ++ q) = .ok (d, none) ∧
    ∀ s, ExtractTweetID (ws ++ s ++ ws1) = ExtractTweetID s := by
  refine ⟨ExtractTweetID_status p d hp1 hp2 hp3 hd hdigits,
    ExtractTweetID_status_query p d q hp1 hp3 hdigits hq, fun s => ?_⟩
  simp only [ExtractTweetID, TrimSpace_surround ws s ws1 hws hws1]

theorem ExtractTweetID_status_url_witness :
    ExtractTweetID ("https://x.com/user/".toList ++ "status/".toList ++ "1234567890".toList) =
      .ok ("1234567890".toList, none) ∧
    ExtractTweetID ("https://x.com/user/".toList ++ "status/".toList ++ "1234567890".toList ++
      "?".toList ++ "s=20".toList) = .ok ("1234567890".toList, none) ∧
    ∀ s, ExtractTweetID (" ".toList ++ s ++ "\n".toList) = ExtractTweetID s :=
  ExtractTweetID_status_url "https://x.com/user/".toList "1234567890".toList "s=20".toList
    " ".toList "\n".toList (by decide) (by decide) (by decide) (by decide) (by decide) (by decide)
    (by decide) (by decide)

/-! ## C14 -/

/-- C14, failing run. With the default `MaxRetries = 3`, the token `csrf0` and a
transport that answers every identity request with status 500, the cookie
`ct0=rotated` and an unrecognised body, `GetTwitterUsername` sends three
requests: the second and the third carry the received cookie `ct0=rotated` in
their `cookie` header but still the old token `csrf0` as `x-csrf-token`. -/
theorem GetTwitterUsername_retry_keeps_old_token :
    (GetTwitterUsername (envWith (fixedClient rotatingResponse))
      (some (fixedClient rotatingResponse)) NewCookieClient NewConfig "csrf0".toList
      world0).toOption.map
      (fun r => r.2.2.sent.map (fun q =>
        (headerGet q.Header "x-csrf-token".toList, headerGet q.Header "cookie".toList))) =
    some [("csrf0".toList, []), ("csrf0".toList, "ct0=rotated".toList),
          ("csrf0".toList, "ct0=rotated".toList)] := by
  decide

/-! ## C15 -/

/-- C15, failing run. When the identity response answers for `bob` and sets the
`ct0` cookie to the empty value, `init` returns without error and leaves
`Account.Ct0` empty. -/
theorem init_succeeds_with_empty_token :
    (init (envWith (fixedClient emptyTokenResponse)) (sessionWith (fixedClient emptyTokenResponse))
      world0).toOption.map (fun r => (r.1, r.2.1.Account.Ct0, r.2.1.Account.Username)) =
    some (none, [], "bob".toList) := by
  decide

/-! ## C17 -/

/-- C17, failing run. When the tweet-details request is answered with the
locked-account body, which has neither `"name":"poll` nor `card://`, `VotePoll`
ends with an index out of range instead of returning an `ActionResponse`. -/
theorem VotePoll_index_out_of_range :
    (VotePoll (envWith (fixedClient lockedDetailsResponse)) "12".toList "1".toList
      (sessionWith (fixedClient lockedDetailsResponse)) world0).map (fun r => r.1) =
    .error .indexOutOfRange := by
  decide

/-! ## C19 -/

/-- C19, failing run. On the bare ID `1234567890` `ExtractTweetID` returns the
empty ID and the error `failed to get tweet ID from your link: 1234567890`. -/
theorem ExtractTweetID_bare_ID_rejected :
    ExtractTweetID "1234567890".toList =
      .ok ([], some (.New "failed to get tweet ID from your link: 1234567890".toList)) := by
  decide

/-! ## C20 -/

/-- C20, failing run. On the link `https://x.com/foo?bar`, which has a `?` but
no `status/`, `ExtractTweetID` ends with an index out of range. -/
theorem ExtractTweetID_index_out_of_range :
    ExtractTweetID "https://x.com/foo?bar".toList = .error .indexOutOfRange := by
  decide

/-! ## The failing runs in general -/

/-- A string of digits has no white space to trim. -/
theorem TrimSpace_digits (d : List Char) (hdigits : IsNumeric d = true) : TrimSpace d = d := by
  rcases List.eq_nil_or_concat d with rfl | ⟨di, dl, rfl⟩
  · rfl
  · rw [List.concat_eq_append] at hdigits ⊢
    have hdl : strings.isSpace dl = false :=
      digit_not_space dl (IsNumeric_mem _ hdigits dl (by simp))
    have hdrop : (di ++ [dl]).dropWhile strings.isSpace = di ++ [dl] := by
      cases di with
      | nil => simp [List.dropWhile, hdl]
      | cons c cs =>
        have hc : strings.isSpace c = false :=
          digit_not_space c (IsNumeric_mem _ hdigits c (by simp))
        simp [List.dropWhile, hc]
    rw [TrimSpace_eq, hdrop, trimRight_stop di [] dl hdl]
    rfl

/-- The run of `ExtractTweetID` on a string of digits. -/
theorem ExtractTweetID_digits (d : List Char) (hdigits : IsNumeric d = true) :
    ExtractTweetID d =
      .ok ([], some (.New ("failed to get tweet ID from your link: ".toList ++ d))) := by
  have c1 := Contains_digits d "tweet_id=".toList hdigits 't' (by decide) (by decide)
  have c2 := Contains_digits d "?".toList hdigits '?' (by decide) (by decide)
  have c3 := Contains_digits d "status/".toList hdigits 's' (by decide) (by decide)
  simp only [ExtractTweetID, TrimSpace_digits d hdigits, c1, c2, c3, if_false,
    Bool.false_eq_true]

/-- The second branch of `ExtractTweetID` on a link without `status/`. -/
theorem ExtractTweetID_query_only (tweetLink : List Char)
    (h1 : Contains (TrimSpace tweetLink) "tweet_id=".toList = false)
    (h2 : Contains (TrimSpace tweetLink) "?".toList = true)
    (h3 : Contains (TrimSpace tweetLink) "status/".toList = false) :
    ExtractTweetID tweetLink = .error .indexOutOfRange := by
  simp only [ExtractTweetID, h1, h2, index_one_of_absent _ _ (by decide) h3, if_true, if_false,
    Bool.false_eq_true]

/-- The block `// Extract poll info from tweet details` fails with an index out
of range as soon as one of its two markers is missing. -/
theorem pollInfo_out_of_range (tweetDetails : List Char)
    (h : Contains tweetDetails "\"name\":\"poll".toList = false ∨
      Contains tweetDetails "card://".toList = false) :
    pollInfo tweetDetails = .error .indexOutOfRange := by
  cases hname : Contains tweetDetails "\"name\":\"poll".toList with
  | false =>
    simp only [pollInfo, index_one_of_absent _ _ (by decide) hname]
  | true =>
    have hcard : Contains tweetDetails "card://".toList = false := by
      rcases h with h | h
      · rw [hname] at h; cases h
      · exact h
    obtain ⟨afterName, h1⟩ := index_one_of_Contains tweetDetails _ (by decide) hname
    obtain ⟨nameTail, h2⟩ := index_zero_Split afterName "\"".toList (by decide)
    simp only [pollInfo, h1, h2, index_one_of_absent _ _ (by decide) hcard]

/-- The request of `GetTwitterUsername` carries the token it was given. -/
theorem csrf_viewerRequest (config : Config) (store : CookieClient) (tok : List Char) :
    headerGet (buildRequest (viewerRequest config store tok)).Header "x-csrf-token".toList =
      tok := by
  apply csrf_buildRequest _ (DefaultConfig.Headers ++
    [⟨"authorization".toList, config.Constants.BearerToken⟩,
     ⟨"cookie".toList, store.CookiesToHeader⟩,
     ⟨"origin".toList, "https://twitter.com".toList⟩,
     ⟨"referer".toList, "https://twitter.com/".toList⟩])
    [⟨"x-twitter-active-user".toList, "no".toList⟩, ⟨"user-agent".toList, UserAgent⟩]
  · rw [List.append_assoc]
    rfl
  · intro p hp
    simp only [List.mem_cons, List.mem_singleton, List.not_mem_nil, or_false] at hp
    rcases hp with rfl | rfl <;> decide

/-- Every request sent by the loop of `GetTwitterUsername` carries the token
the function was called with, whatever the answers were. -/
theorem getTwitterUsernameLoop_token (env : Env) (httpClient : Option HttpClient)
    (config : Config) (tok : List Char) (n : Nat) (store : CookieClient) (w : World)
    (r : (List Char × List Char × Option Error × ActionStatus) × CookieClient × World)
    (h : getTwitterUsernameLoop env httpClient config tok n store w = .ok r) :
    ∃ reqs, r.2.2.sent = w.sent ++ reqs ∧
      ∀ q ∈ reqs, headerGet q.Header "x-csrf-token".toList = tok := by
  induction n generalizing store w with
  | zero =>
    simp only [getTwitterUsernameLoop] at h
    cases h
    exact ⟨[], by simp, by simp⟩
  | succ n ih =>
    cases hm : MakeRequest env httpClient (viewerRequest config store tok) w with
    | error p => simp only [getTwitterUsernameLoop, hm] at h; cases h
    | ok res =>
      obtain ⟨res1, w1⟩ := res
      have hstep : ∃ reqs, w1.sent = w.sent ++ reqs ∧
          ∀ q ∈ reqs, headerGet q.Header "x-csrf-token".toList = tok := by
        rcases MakeRequest_sent env httpClient _ w w1 res1 hm with e | e
        · exact ⟨[], by simp [e], by simp⟩
        · exact ⟨[buildRequest (viewerRequest config store tok)], e, fun q hq => by
            rw [List.mem_singleton.mp hq]
            exact csrf_viewerRequest config store tok⟩
      obtain ⟨reqs1, hs1, hq1⟩ := hstep
      have hfin : r.2.2 = w1 → ∃ reqs, r.2.2.sent = w.sent ++ reqs ∧
          ∀ q ∈ reqs, headerGet q.Header "x-csrf-token".toList = tok :=
        fun e => ⟨reqs1, by rw [e, hs1], hq1⟩
      have hrec : ∀ store2, getTwitterUsernameLoop env httpClient config tok n store2 w1 = .ok r →
          ∃ reqs, r.2.2.sent = w.sent ++ reqs ∧
          ∀ q ∈ reqs, headerGet q.Header "x-csrf-token".toList = tok := by
        intro store2 h2
        obtain ⟨reqs2, hs2, hq2⟩ := ih store2 w1 h2
        refine ⟨reqs1 ++ reqs2, by rw [hs2, hs1, List.append_assoc], fun q hq => ?_⟩
        rcases List.mem_append.mp hq with hq | hq
        · exact hq1 q hq
        · exact hq2 q hq
      simp only [getTwitterUsernameLoop, hm] at h
      cases res1 with
      | error e => exact hrec _ h
      | ok br =>
        obtain ⟨bodyBytes, resp⟩ := br
        simp only at h
        repeat' split at h
        all_goals first
          | exact hrec _ h
          | (cases h; exact hfin rfl)

/-! ## C21 -/

theorem digit_mem_table (c : Char) (h : 48 ≤ c.toNat ∧ c.toNat ≤ 57) :
    c ∈ "0123456789".toList := by
  have hc : c = Char.ofNat c.toNat := (Char.ofNat_toNat c).symm
  obtain ⟨n, hn⟩ : ∃ n, c.toNat = n := ⟨_, rfl⟩
  rw [hn] at h hc
  obtain ⟨h1, h2⟩ := h
  rw [hc]
  interval_cases n <;> decide

/-- C21. `IsNumeric` recognises digit strings: for every string `s` (empty or
not), `IsNumeric s` is true if and only if every character of `s` is one of the
ASCII digits `0123456789`; `IsNumeric "123456"` is true and `IsNumeric "user123"`
is false. -/
theorem IsNumeric_iff_digits (s : List Char) :
    (IsNumeric s = true ↔ ∀ c ∈ s, c ∈ "0123456789".toList) ∧
    IsNumeric "123456".toList = true ∧ IsNumeric "user123".toList = false := by
  refine ⟨⟨fun h c hc => digit_mem_table c (IsNumeric_mem s h c hc), fun h => ?_⟩,
    by decide, by decide⟩
  apply List.all_eq_true.mpr
  intro c hc
  have hm := h c hc
  have : 48 ≤ c.toNat ∧ c.toNat ≤ 57 := by
    simp only [String.toList, List.mem_cons, List.mem_singleton, List.not_mem_nil,
      or_false] at hm
    rcases hm with rfl | rfl | rfl | rfl | rfl | rfl | rfl | rfl | rfl | rfl <;> decide
  simp only [Bool.not_eq_true', Bool.or_eq_false_iff, decide_eq_false_iff_not]
  omega

theorem IsNumeric_iff_digits_witness :
    (IsNumeric "2024".toList = true ↔ ∀ c ∈ "2024".toList, c ∈ "0123456789".toList) ∧
    IsNumeric "123456".toList = true ∧ IsNumeric "user123".toList = false :=
  IsNumeric_iff_digits "2024".toList

/-! ## C22 -/

/-- C22, failing run. `IsNumeric ""` is true, so `Unfollow ""` takes its argument
for a numeric user ID: it runs the part of `Unfollow` that posts the request for
the user ID `""`, without looking the name up. -/
theorem IsNumeric_empty_is_true (env : Env) (t : Twitter) (w : World) :
    IsNumeric [] = true ∧ Unfollow env [] t w = unfollowByID env [] t w :=
  ⟨rfl, Unfollow_numeric env [] t w rfl⟩

/-! ## C26 -/

/-- C26. Bracketed credentials lose their brackets before decoding: for every
credential with both `[` and `]`, the text `jsonPart` that `SetAuthCookies` hands
to the decoder (the piece after the first `[`, up to the next `]`) exists and
has neither `[` nor `]`, so it is not the text of a JSON array; and
`SetAuthCookies` returns a non-nil error with empty tokens, leaving the cookie
store (no `auth_token` or `ct0` cookie added) and the world as they were. -/
theorem SetAuthCookies_brackets_stripped (env : Env) (accountIndex : Int)
    (cookieClient : CookieClient) (twitterAuth : List Char) (w : World)
    (hopen : Contains twitterAuth "[".toList = true)
    (hclose : Contains twitterAuth "]".toList = true) :
    ∃ afterOpen jsonPart, index (Split twitterAuth "[".toList) 1 = .ok afterOpen ∧
      index (Split afterOpen "]".toList) 0 = .ok jsonPart ∧
      '[' ∉ jsonPart ∧ ']' ∉ jsonPart ∧
      (∀ elems, json.parse jsonPart ≠ some (.array elems)) ∧
      ∃ err, SetAuthCookies env accountIndex cookieClient twitterAuth w =
        .ok (([], [], some err), cookieClient, w) := by
  obtain ⟨afterOpen, jsonPart, h1, h2, h⟩ :=
    SetAuthCookies_of_brackets env accountIndex cookieClient twitterAuth w hopen hclose
  obtain ⟨afterOpen1, jsonPart1, g1, g2, g3⟩ := SetAuthCookies_jsonPart twitterAuth hopen
  have e1 : afterOpen1 = afterOpen := Except.ok.inj (g1.symm.trans h1)
  subst e1
  have e2 : jsonPart1 = jsonPart := Except.ok.inj (g2.symm.trans h2)
  subst e2
  refine ⟨afterOpen1, jsonPart1, h1, h2, g3,
    (Split_single_mem ']' afterOpen1 jsonPart1 (index_mem _ _ _ h2)).1,
    fun elems he => g3 (parse_array_mem jsonPart1 elems he), ?_⟩
  rcases h with ⟨e, _, h⟩ | ⟨g, _, h⟩
  · exact ⟨_, h⟩
  · exact ⟨_, h⟩

theorem SetAuthCookies_brackets_stripped_witness :
    ∃ afterOpen jsonPart, index (Split exportXY "[".toList) 1 = .ok afterOpen ∧
      index (Split afterOpen "]".toList) 0 = .ok jsonPart ∧
      '[' ∉ jsonPart ∧ ']' ∉ jsonPart ∧
      (∀ elems, json.parse jsonPart ≠ some (.array elems)) ∧
      ∃ err, SetAuthCookies (envWith deadClient) 0 NewCookieClient exportXY world0 =
        .ok (([], [], some err), NewCookieClient, world0) :=
  SetAuthCookies_brackets_stripped (envWith deadClient) 0 NewCookieClient exportXY world0
    (by decide) (by decide)

/-! ## The requests of `init` -/

/-- The loop of `GetTwitterUsername` with `n` turns sends at most `n` requests,
each of them an identity request. -/
theorem getTwitterUsernameLoop_requests (env : Env) (httpClient : Option HttpClient)
    (config : Config) (tok : List Char) (n : Nat) (store : CookieClient) (w : World)
    (r : (List Char × List Char × Option Error × ActionStatus) × CookieClient × World)
    (h : getTwitterUsernameLoop env httpClient config tok n store w = .ok r) :
    ∃ reqs, r.2.2.sent = w.sent ++ reqs ∧ reqs.length ≤ n ∧
      ∀ q ∈ reqs, ∃ store1, q = buildRequest (viewerRequest config store1 tok) := by
  induction n generalizing store w with
  | zero =>
    simp only [getTwitterUsernameLoop] at h
    cases h
    exact ⟨[], by simp, by simp, by simp⟩
  | succ n ih =>
    cases hm : MakeRequest env httpClient (viewerRequest config store tok) w with
    | error p => simp only [getTwitterUsernameLoop, hm] at h; cases h
    | ok res =>
      obtain ⟨res1, w1⟩ := res
      have hstep : ∃ reqs, w1.sent = w.sent ++ reqs ∧ reqs.length ≤ 1 ∧
          ∀ q ∈ reqs, ∃ store1, q = buildRequest (viewerRequest config store1 tok) := by
        rcases MakeRequest_sent env httpClient _ w w1 res1 hm with e | e
        · exact ⟨[], by simp [e], by simp, by simp⟩
        · exact ⟨[buildRequest (viewerRequest config store tok)], e, by simp, fun q hq =>
            ⟨store, List.mem_singleton.mp hq⟩⟩
      obtain ⟨reqs1, hs1, hl1, hq1⟩ := hstep
      have hfin : r.2.2 = w1 → ∃ reqs, r.2.2.sent = w.sent ++ reqs ∧ reqs.length ≤ n + 1 ∧
          ∀ q ∈ reqs, ∃ store1, q = buildRequest (viewerRequest config store1 tok) :=
        fun e => ⟨reqs1, by rw [e, hs1], by omega, hq1⟩
      have hrec : ∀ store2, getTwitterUsernameLoop env httpClient config tok n store2 w1 = .ok r →
          ∃ reqs, r.2.2.sent = w.sent ++ reqs ∧ reqs.length ≤ n + 1 ∧
          ∀ q ∈ reqs, ∃ store1, q = buildRequest (viewerRequest config store1 tok) := by
        intro store2 h2
        obtain ⟨reqs2, hs2, hl2, hq2⟩ := ih store2 w1 h2
        refine ⟨reqs1 ++ reqs2, by rw [hs2, hs1, List.append_assoc], ?_, fun q hq => ?_⟩
        · rw [List.length_append]; omega
        · rcases List.mem_append.mp hq with hq | hq
          · exact hq1 q hq
          · exact hq2 q hq
      simp only [getTwitterUsernameLoop, hm] at h
      cases res1 with
      | error e => exact hrec _ h
      | ok br =>
        obtain ⟨bodyBytes, resp⟩ := br
        simp only at h
        repeat' split at h
        all_goals first
          | exact hrec _ h
          | (cases h; exact hfin rfl)

theorem GenerateCSRFToken_sent (env : Env) (w : World) :
    (twitter_utils.GenerateCSRFToken env w).2.sent = w.sent := by
  unfold twitter_utils.GenerateCSRFToken
  cases env.RandRead w.randomReads <;> rfl

/-- `SetAuthCookies` sends no request. -/
theorem SetAuthCookies_sent (env : Env) (accountIndex : Int) (cookieClient : CookieClient)
    (twitterAuth : List Char) (w w1 : World) (r : List Char × List Char × Option Error)
    (store : CookieClient)
    (h : SetAuthCookies env accountIndex cookieClient twitterAuth w = .ok (r, store, w1)) :
    w1.sent = w.sent := by
  by_cases hb : Contains twitterAuth "[".toList = true ∧ Contains twitterAuth "]".toList = true
  · obtain ⟨_, _, _, _, h2⟩ :=
      SetAuthCookies_of_brackets env accountIndex cookieClient twitterAuth w hb.1 hb.2
    rcases h2 with ⟨_, _, h2⟩ | ⟨_, _, h2⟩
    all_goals
      rw [h2] at h
      simp only [Except.ok.injEq, Prod.mk.injEq] at h
      rw [← h.2.2]
  · have hb2 : (Contains twitterAuth "[".toList && Contains twitterAuth "]".toList) = false := by
      cases h1 : Contains twitterAuth "[".toList <;>
        cases h2 : Contains twitterAuth "]".toList <;> simp_all
    have hg := GenerateCSRFToken_sent env w
    cases hgen : twitter_utils.GenerateCSRFToken env w with
    | mk res wg =>
      rw [hgen] at hg
      simp only at hg
      cases res with
      | error e =>
        simp only [SetAuthCookies, hb2, hgen, Bool.false_eq_true, if_false] at h
        split at h
        all_goals
          simp only [Except.ok.injEq, Prod.mk.injEq] at h
          first
            | (rw [← h.2.2, hg])
            | (rw [← h.2.2])
      | ok tok =>
        simp only [SetAuthCookies, hb2, hgen, Bool.false_eq_true, if_false] at h
        repeat' split at h
        all_goals
          simp only [Except.ok.injEq, Prod.mk.injEq] at h
          first
            | (rw [← h.2.2, hg])
            | (rw [← h.2.2])

/-- The loop of `init` with `n` turns always returns; it sends at most
`n * MaxRetries` requests, each of them an identity request. -/
theorem initLoop_requests (env : Env) (n : Nat) (i : Int) (t : Twitter) (w : World) :
    ∃ err t1 w1 reqs, initLoop env n i t w = .ok (err, t1, w1) ∧
      w1.sent = w.sent ++ reqs ∧ reqs.length ≤ n * t.Config.MaxRetries.toNat ∧
      ∀ q ∈ reqs, ∃ store tok, q = buildRequest (viewerRequest t.Config store tok) := by
  induction n generalizing i t w with
  | zero => exact ⟨_, _, _, [], rfl, by simp, by simp, by simp⟩
  | succ n ih =>
    have hmul : (n + 1) * t.Config.MaxRetries.toNat =
        n * t.Config.MaxRetries.toNat + t.Config.MaxRetries.toNat := Nat.succ_mul _ _
    cases hc : CreateHttpClient env t.Account.Proxy w with
    | mk r w1 =>
      have hw1 : w1.sent = w.sent := by
        simp only [CreateHttpClient, Prod.mk.injEq] at hc
        rw [← hc.2]
      cases r with
      | error e =>
        obtain ⟨err, t1, w2, reqs, h, hs, hl, hq⟩ := ih (i + 1) t w1
        exact ⟨err, t1, w2, reqs, by simp only [initLoop, hc, h], by rw [hs, hw1], by omega, hq⟩
      | ok cl =>
        obtain ⟨a, c, err, store, w2, hset, _⟩ :=
          SetAuthCookies_outcomes env i t.Cookies t.Account.AuthToken w1
        have hw2 : w2.sent = w.sent := by
          rw [SetAuthCookies_sent env i t.Cookies t.Account.AuthToken w1 w2 _ store hset, hw1]
        cases err with
        | some e =>
          obtain ⟨err, t1, w3, reqs, h, hs, hl, hq⟩ :=
            ih (i + 1) { Account := t.Account, Client := some cl, Config := t.Config,
                         Cookies := store } w2
          exact ⟨err, t1, w3, reqs, by simp only [initLoop, hc, hset, h], by rw [hs, hw2],
            by simp only at hl; omega, hq⟩
        | none =>
          obtain ⟨⟨⟨username, newCsrfToken, gerr, status⟩, store3, w3⟩, hget⟩ :=
            getTwitterUsernameLoop_total env cl t.Config c t.Config.MaxRetries.toNat store w2
          obtain ⟨reqs1, hs1, hl1, hq1⟩ :=
            getTwitterUsernameLoop_requests env (some cl) t.Config c _ store w2 _ hget
          simp only at hs1
          have hfin : ∃ reqs, w3.sent = w.sent ++ reqs ∧
              reqs.length ≤ (n + 1) * t.Config.MaxRetries.toNat ∧
              ∀ q ∈ reqs, ∃ store tok, q = buildRequest (viewerRequest t.Config store tok) :=
            ⟨reqs1, by rw [hs1, hw2], by omega, fun q hq => (hq1 q hq).elim fun s hs => ⟨s, c, hs⟩⟩
          cases gerr with
          | none =>
            obtain ⟨reqs, h1, h2, h3⟩ := hfin
            simp only [initLoop, hc, hset, GetTwitterUsername, hget]
            exact ⟨_, _, _, reqs, rfl, h1, h2, h3⟩
          | some e =>
            cases status with
            | StatusUnknown =>
              obtain ⟨err, t1, w4, reqs, h, hs, hl, hq⟩ :=
                ih (i + 1) { Account := { t.Account with AuthToken := a, Ct0 := c },
                             Client := some cl, Config := t.Config, Cookies := store3 } w3
              refine ⟨err, t1, w4, reqs1 ++ reqs,
                by simp only [initLoop, hc, hset, GetTwitterUsername, hget, h],
                by rw [hs, hs1, hw2, List.append_assoc], ?_, fun q hq2 => ?_⟩
              · simp only at hl
                rw [List.length_append]
                omega
              · rcases List.mem_append.mp hq2 with hq2 | hq2
                · exact (hq1 q hq2).elim fun s hs => ⟨s, c, hs⟩
                · exact hq q hq2
            | _ =>
              obtain ⟨reqs, h1, h2, h3⟩ := hfin
              simp only [initLoop, hc, hset, GetTwitterUsername, hget]
              exact ⟨_, _, _, reqs, rfl, h1, h2, h3⟩

/-! ## C25 -/

/-- C25. Initialization always terminates with a bounded number of requests: for
every session (hence every value of `MaxRetries`, zero and negative included),
every environment and every behaviour of the transport, `init` returns; the
requests it sent are identity requests and their number is at most
`MaxRetries * MaxRetries`; when `MaxRetries <= 0` it sends none, leaves the
session and the world untouched, and returns the exhaustion error. -/
theorem init_bounded_requests (env : Env) (t : Twitter) (w : World) :
    ∃ err t1 w1 reqs, init env t w = .ok (err, t1, w1) ∧
      w1.sent = w.sent ++ reqs ∧
      (reqs.length : Int) ≤ t.Config.MaxRetries * t.Config.MaxRetries ∧
      (∀ q ∈ reqs, ∃ store tok, q = buildRequest (viewerRequest t.Config store tok)) ∧
      (t.Config.MaxRetries ≤ 0 → reqs = [] ∧ t1 = t ∧ w1 = w ∧
        err = some (.New ("failed to initialize after ".toList ++ fmtInt t.Config.MaxRetries ++
          " retries".toList))) := by
  obtain ⟨err, t1, w1, reqs, h, hs, hl, hq⟩ :=
    initLoop_requests env t.Config.MaxRetries.toNat 0 t w
  have h : init env t w = .ok (err, t1, w1) := h
  refine ⟨err, t1, w1, reqs, h, hs, ?_, hq, fun hle => ?_⟩
  · by_cases hpos : 0 ≤ t.Config.MaxRetries
    · have hcast : ((t.Config.MaxRetries.toNat : Nat) : Int) = t.Config.MaxRetries :=
        Int.toNat_of_nonneg hpos
      calc (reqs.length : Int)
          ≤ ((t.Config.MaxRetries.toNat * t.Config.MaxRetries.toNat : Nat) : Int) := by
            exact_mod_cast hl
        _ = t.Config.MaxRetries * t.Config.MaxRetries := by
            rw [Nat.cast_mul, hcast]
    · have h0 : t.Config.MaxRetries.toNat = 0 := Int.toNat_eq_zero.mpr (by omega)
      rw [h0] at hl
      have hlen : reqs.length = 0 := by omega
      rw [hlen]
      exact_mod_cast mul_self_nonneg t.Config.MaxRetries
  · have h0 : t.Config.MaxRetries.toNat = 0 := Int.toNat_eq_zero.mpr hle
    have h2 : init env t w = .ok (some (.New ("failed to initialize after ".toList ++
        fmtInt t.Config.MaxRetries ++ " retries".toList)), t, w) := by
      simp only [init, h0, initLoop]
    have h3 := h.symm.trans h2
    simp only [Except.ok.injEq, Prod.mk.injEq] at h3
    have h := h3
    rw [h0] at hl
    have hnil : reqs = [] := List.length_eq_zero.mp (by omega)
    exact ⟨hnil, h.2.1, h.2.2, h.1⟩

theorem init_bounded_requests_witness :
    init (envWith deadClient) (sessionRetries deadClient (-1)) world0 =
      .ok (some (.New "failed to initialize after -1 retries".toList),
        sessionRetries deadClient (-1), world0) := by
  obtain ⟨err, t1, w1, reqs, h, _, _, _, h0⟩ :=
    init_bounded_requests (envWith deadClient) (sessionRetries deadClient (-1)) world0
  obtain ⟨_, ht, hw, he⟩ := h0 (by decide)
  rw [h, ht, hw, he]
  rfl

/-! ## The account check `IsValid` -/

theorem updateCookies_Username (t : Twitter) (resp : Response) :
    (t.updateCookies resp).Account.Username = t.Account.Username := by
  cases h : (t.Cookies.SetCookieFromResponse resp).GetCookieValue "ct0".toList <;>
    simp only [Twitter.updateCookies, h]

/-- The loop of `IsValid` stops at the first entry whose screen name matches. -/
theorem findCurrentUser_first (simpleFold : Char → Char) (username : List Char)
    (pre post : List json.GoValue) (u : json.GoValue)
    (hpre : ∀ x ∈ pre, EqualFold simpleFold (x.field "screen_name".toList).str username = false)
    (hu : EqualFold simpleFold (u.field "screen_name".toList).str username = true) :
    findCurrentUser simpleFold username (pre ++ u :: post) = some u := by
  induction pre with
  | nil => simp only [List.nil_append, findCurrentUser, hu, if_true]
  | cons x xs ih =>
    simp only [List.cons_append, findCurrentUser, hpre x (List.mem_cons_self _ _),
      Bool.false_eq_true, if_false]
    exact ih (fun y hy => hpre y (List.mem_cons_of_mem _ hy))

/-- The loop of `IsValid` either finds no matching entry, or returns the first
one. -/
theorem findCurrentUser_cases (simpleFold : Char → Char) (username : List Char)
    (users : List json.GoValue) :
    (findCurrentUser simpleFold username users = none ∧
      ∀ x ∈ users, EqualFold simpleFold (x.field "screen_name".toList).str username = false) ∨
    (∃ pre u post, users = pre ++ u :: post ∧
      (∀ x ∈ pre, EqualFold simpleFold (x.field "screen_name".toList).str username = false) ∧
      EqualFold simpleFold (u.field "screen_name".toList).str username = true ∧
      findCurrentUser simpleFold username users = some u) := by
  induction users with
  | nil => exact Or.inl ⟨rfl, by simp⟩
  | cons x xs ih =>
    cases hx : EqualFold simpleFold (x.field "screen_name".toList).str username with
    | true =>
      exact Or.inr ⟨[], x, xs, rfl, by simp, hx, by simp only [findCurrentUser, hx, if_true]⟩
    | false =>
      rcases ih with ⟨h1, h2⟩ | ⟨pre, u, post, h1, h2, h3, h4⟩
      · refine Or.inl ⟨by simp only [findCurrentUser, hx, Bool.false_eq_true, if_false, h1], ?_⟩
        intro y hy
        rcases List.mem_cons.mp hy with rfl | hy
        · exact hx
        · exact h2 y hy
      · refine Or.inr ⟨x :: pre, u, post, by rw [h1]; rfl, ?_, h3,
          by simp only [findCurrentUser, hx, Bool.false_eq_true, if_false, h4]⟩
        intro y hy
        rcases List.mem_cons.mp hy with rfl | hy
        · exact hx
        · exact h2 y hy

/-- A run of `IsValid` whose request is answered. -/
theorem IsValid_answered (env : Env) (simpleFold : Char → Char) (t : Twitter) (w w1 : World)
    (body : List Char) (resp : Response)
    (hreq : MakeRequest env t.Client (IsValidRequest t) w = .ok (.ok (body, resp), w1)) :
    IsValid env simpleFold t w =
      .ok (IsValidResult simpleFold t.Account.Username resp.StatusCode body,
        t.updateCookies resp, w1) := by
  simp only [IsValid, hreq, updateCookies_Username]

/-- The three ways `IsValidResult` ends for a 2xx response whose body decodes. -/
theorem IsValidResult_decoded (simpleFold : Char → Char) (username body : List Char)
    (statusCode : Int) (response : json.GoValue)
    (h2xx : statusCode ≥ 200 ∧ statusCode ≤ 299)
    (hdec : json.Unmarshal body MultiUserResponse = .ok response) :
    IsValidResult simpleFold username statusCode body =
      match findCurrentUser simpleFold username (response.field "users".toList).elems with
      | none =>
        (none, { Success := false
                 Error := some (.New "account not found in response".toList)
                 Status := .StatusUnknown })
      | some currentUser =>
        if (currentUser.field "is_auth_valid".toList).toBool = true then
          (some { AccountInfo.zero with
                  Username := (currentUser.field "screen_name".toList).str
                  Name := (currentUser.field "name".toList).str
                  Suspended := (currentUser.field "is_suspended".toList).toBool
                  Protected := (currentUser.field "is_protected".toList).toBool
                  Verified := (currentUser.field "is_verified".toList).toBool },
            { Success := true, Error := none, Status := .StatusSuccess })
        else
          (some { AccountInfo.zero with
                  Username := (currentUser.field "screen_name".toList).str
                  Suspended := (currentUser.field "is_suspended".toList).toBool },
            { Success := false, Error := some .ErrAuthFailed, Status := .StatusAuthError }) := by
  simp only [IsValidResult, h2xx, and_self, if_true, hdec]
  cases findCurrentUser simpleFold username (response.field "users".toList).elems with
  | none => rfl
  | some u =>
    simp only
    cases hv : (u.field "is_auth_valid".toList).toBool <;>
      simp only [Bool.not_false, Bool.not_true, if_true, if_false, Bool.false_eq_true]

/-! ## C29 -/

/-- C29. `IsValid` looks the account up by case-insensitive first match: when the
request is answered with a 2xx status and a body that decodes to the user list
`users`, then (1) if `u` is the first entry of `users` whose `screen_name` equals
the session username under `EqualFold`, `IsValid` returns `Success = true` with
the `AccountInfo` copied from `u` (username, name, suspended, protected,
verified) when `u` has `is_auth_valid = true`, and `StatusAuthError` when it has
`is_auth_valid = false`; (2) if no entry matches it returns `StatusUnknown` with
`account not found in response` and no `AccountInfo`; (3) so `Success` is true
exactly when there is a first match and it has `is_auth_valid = true`. -/
theorem IsValid_first_match (env : Env) (simpleFold : Char → Char) (t : Twitter) (w w1 : World)
    (body : List Char) (resp : Response) (response : json.GoValue)
    (hreq : MakeRequest env t.Client (IsValidRequest t) w = .ok (.ok (body, resp), w1))
    (h2xx : resp.StatusCode ≥ 200 ∧ resp.StatusCode ≤ 299)
    (hdec : json.Unmarshal body MultiUserResponse = .ok response) :
    (∀ pre u post, (response.field "users".toList).elems = pre ++ u :: post →
      (∀ x ∈ pre,
        EqualFold simpleFold (x.field "screen_name".toList).str t.Account.Username = false) →
      EqualFold simpleFold (u.field "screen_name".toList).str t.Account.Username = true →
      ((u.field "is_auth_valid".toList).toBool = true →
        IsValid env simpleFold t w =
          .ok ((some { AccountInfo.zero with
                       Username := (u.field "screen_name".toList).str
                       Name := (u.field "name".toList).str
                       Suspended := (u.field "is_suspended".toList).toBool
                       Protected := (u.field "is_protected".toList).toBool
                       Verified := (u.field "is_verified".toList).toBool },
                { Success := true, Error := none, Status := .StatusSuccess }),
            t.updateCookies resp, w1)) ∧
      ((u.field "is_auth_valid".toList).toBool = false →
        IsValid env simpleFold t w =
          .ok ((some { AccountInfo.zero with
                       Username := (u.field "screen_name".toList).str
                       Suspended := (u.field "is_suspended".toList).toBool },
                { Success := false, Error := some .ErrAuthFailed, Status := .StatusAuthError }),
            t.updateCookies resp, w1))) ∧
    ((∀ x ∈ (response.field "users".toList).elems,
        EqualFold simpleFold (x.field "screen_name".toList).str t.Account.Username = false) →
      IsValid env simpleFold t w =
        .ok ((none, { Success := false
                      Error := some (.New "account not found in response".toList)
                      Status := .StatusUnknown }),
          t.updateCookies resp, w1)) ∧
    (∀ r t1 w2, IsValid env simpleFold t w = .ok (r, t1, w2) →
      (r.2.Success = true ↔
        ∃ pre u post, (response.field "users".toList).elems = pre ++ u :: post ∧
          (∀ x ∈ pre,
            EqualFold simpleFold (x.field "screen_name".toList).str t.Account.Username = false) ∧
          EqualFold simpleFold (u.field "screen_name".toList).str t.Account.Username = true ∧
          (u.field "is_auth_valid".toList).toBool = true)) := by
  have hrun := IsValid_answered env simpleFold t w w1 body resp hreq
  rw [IsValidResult_decoded simpleFold t.Account.Username body resp.StatusCode response h2xx
    hdec] at hrun
  refine ⟨fun pre u post hu hpre hmatch => ?_, fun hnone => ?_, fun r t1 w2 hr => ?_⟩
  · have hfind := findCurrentUser_first simpleFold t.Account.Username pre post u hpre hmatch
    rw [← hu] at hfind
    rw [hfind] at hrun
    refine ⟨fun hv => ?_, fun hv => ?_⟩
    · rw [hrun]; simp only [hv, if_true]
    · rw [hrun]; simp only [hv, Bool.false_eq_true, if_false]
  · rcases findCurrentUser_cases simpleFold t.Account.Username
      (response.field "users".toList).elems with ⟨h1, _⟩ | ⟨pre, u, post, h1, _, h3, _⟩
    · rw [h1] at hrun
      exact hrun
    · have := hnone u (by rw [h1]; simp)
      rw [h3] at this
      cases this
  · rcases findCurrentUser_cases simpleFold t.Account.Username
      (response.field "users".toList).elems with ⟨h1, h2⟩ | ⟨pre, u, post, h1, h2, h3, h4⟩
    · rw [h1] at hrun
      have hr2 := hr.symm.trans hrun
      simp only [Except.ok.injEq, Prod.mk.injEq] at hr2
      rw [hr2.1]
      constructor
      · intro h; cases h
      · rintro ⟨pre, u, post, hu, _, hm, _⟩
        have := h2 u (by rw [hu]; simp)
        rw [hm] at this
        cases this
    · rw [h4] at hrun
      have hr2 := hr.symm.trans hrun
      simp only [Except.ok.injEq, Prod.mk.injEq] at hr2
      rw [hr2.1]
      cases hv : (u.field "is_auth_valid".toList).toBool
      · simp only [Bool.false_eq_true, if_false, false_iff, not_exists, not_and]
        intro pre2 u2 post2 hu2 hpre2 hm2 hv2
        have hf := findCurrentUser_first simpleFold t.Account.Username pre2 post2 u2 hpre2 hm2
        rw [← hu2, h4] at hf
        cases hf
        rw [hv] at hv2
        cases hv2
      · simp only [if_true, true_iff]
        exact ⟨pre, u, post, h1, h2, h3, hv⟩

set_option maxRecDepth 20000 in
theorem IsValid_first_match_witness :
    IsValid (envWith (fixedClient accountsResponse)) asciiFold
      (sessionNamed (fixedClient accountsResponse) "Bob".toList) world0 =
      .ok ((some { AccountInfo.zero with
                   Username := "BOB".toList, Name := "B".toList, Protected := true },
            { Success := true, Error := none, Status := .StatusSuccess }),
        (sessionNamed (fixedClient accountsResponse) "Bob".toList).updateCookies accountsResponse,
        ⟨[buildRequest (IsValidRequest (sessionNamed (fixedClient accountsResponse)
          "Bob".toList))], 0, 0⟩) :=
  ((IsValid_first_match (envWith (fixedClient accountsResponse)) asciiFold
    (sessionNamed (fixedClient accountsResponse) "Bob".toList) world0 _ accountsBody
    accountsResponse accountsDecoded rfl (by decide) rfl).1
    [userEntry "Alice".toList [] false true] (userEntry "BOB".toList "B".toList true true)
    [userEntry "bob".toList [] false true] rfl (by decide) (by decide)).1 (by decide)

/-! ## The shapes of the responses -/

theorem FiveShapes_unknown (e : Error) :
    FiveShapes { Success := false, Error := some e, Status := .StatusUnknown } :=
  Or.inl ⟨e, rfl⟩

theorem FiveShapes_success :
    FiveShapes { Success := true, Error := none, Status := .StatusSuccess } :=
  Or.inr (Or.inl rfl)

theorem FiveShapes_already :
    FiveShapes { Success := true, Error := none, Status := .StatusAlreadyDone } :=
  Or.inr (Or.inr (Or.inl rfl))

theorem errorResponse_shape (body : List Char) : FiveShapes (errorResponse body) := by
  unfold errorResponse
  split
  · exact Or.inr (Or.inr (Or.inr (Or.inl rfl)))
  · split
    · exact Or.inr (Or.inr (Or.inr (Or.inr rfl)))
    · exact FiveShapes_unknown _

theorem LikeResult_shape (statusCode : Int) (body : List Char) :
    FiveShapes (LikeResult statusCode body) := by
  unfold LikeResult
  repeat' split
  all_goals first
    | exact FiveShapes_unknown _
    | exact FiveShapes_success
    | exact FiveShapes_already
    | exact errorResponse_shape _

theorem RetweetResult_shape (statusCode : Int) (body : List Char) :
    FiveShapes (RetweetResult statusCode body) := by
  unfold RetweetResult
  repeat' split
  all_goals first
    | exact FiveShapes_unknown _
    | exact FiveShapes_success
    | exact FiveShapes_already
    | exact errorResponse_shape _

theorem FollowResult_shape (statusCode : Int) (body : List Char) :
    FiveShapes (FollowResult statusCode body) := by
  unfold FollowResult
  repeat' split
  all_goals first
    | exact FiveShapes_unknown _
    | exact FiveShapes_success
    | exact errorResponse_shape _

theorem TweetResult_shape (statusCode : Int) (body : List Char) :
    FiveShapes (TweetResult statusCode body) := by
  unfold TweetResult
  repeat' split
  all_goals first
    | exact FiveShapes_unknown _
    | exact FiveShapes_success
    | exact FiveShapes_already
    | exact errorResponse_shape _

theorem VotePollResult_shape (statusCode : Int) (body : List Char) :
    FiveShapes (VotePollResult statusCode body) := by
  unfold VotePollResult
  split
  · exact FiveShapes_success
  · exact errorResponse_shape _

theorem UserInfoResult_shape (statusCode : Int) (body : List Char) :
    FiveShapes (UserInfoResult statusCode body).2 := by
  unfold UserInfoResult
  repeat' split
  all_goals first
    | exact FiveShapes_unknown _
    | exact FiveShapes_success
    | exact errorResponse_shape _

theorem IsValidResult_shape (simpleFold : Char → Char) (username : List Char) (statusCode : Int)
    (body : List Char) : FiveShapes (IsValidResult simpleFold username statusCode body).2 := by
  unfold IsValidResult
  repeat' split
  all_goals first
    | exact FiveShapes_unknown _
    | exact FiveShapes_success
    | exact Or.inr (Or.inr (Or.inr (Or.inl rfl)))
    | exact Or.inr (Or.inr (Or.inr (Or.inr rfl)))

theorem resolveTweetID_shape (tweetID : List Char) (r : ActionResponse)
    (h : resolveTweetID tweetID = .ok (.inl r)) : FiveShapes r := by
  unfold resolveTweetID at h
  repeat' split at h
  all_goals first
    | (cases h; exact FiveShapes_unknown _)
    | cases h

theorem Like_shape (env : Env) (tweetID : List Char) (t t1 : Twitter) (w w1 : World)
    (r : ActionResponse) (h : Like env tweetID t w = .ok (r, t1, w1)) : FiveShapes r := by
  unfold Like at h
  split at h
  · cases h
  · rename_i r0 hid
    cases h
    exact resolveTweetID_shape _ _ hid
  · split at h
    · cases h
    · cases h; exact FiveShapes_unknown _
    · cases h; exact LikeResult_shape _ _

theorem Retweet_shape (env : Env) (tweetID : List Char) (t t1 : Twitter) (w w1 : World)
    (r : ActionResponse) (h : Retweet env tweetID t w = .ok (r, t1, w1)) : FiveShapes r := by
  unfold Retweet at h
  split at h
  · cases h
  · rename_i r0 hid
    cases h
    exact resolveTweetID_shape _ _ hid
  · split at h
    · cases h
    · cases h; exact FiveShapes_unknown _
    · cases h; exact RetweetResult_shape _ _

theorem Follow_shape (env : Env) (username : List Char) (t t1 : Twitter) (w w1 : World)
    (r : ActionResponse) (h : Follow env username t w = .ok (r, t1, w1)) : FiveShapes r := by
  unfold Follow at h
  split at h
  · cases h
  · cases h; exact FiveShapes_unknown _
  · cases h; exact FollowResult_shape _ _

theorem unfollowByID_shape (env : Env) (userID : List Char) (t t1 : Twitter) (w w1 : World)
    (r : ActionResponse) (h : unfollowByID env userID t w = .ok (r, t1, w1)) :
    FiveShapes r := by
  unfold unfollowByID at h
  split at h
  · cases h
  · cases h; exact FiveShapes_unknown _
  · cases h; exact FollowResult_shape _ _

theorem GetUserInfoByUsername_shape (env : Env) (username : List Char) (t t1 : Twitter)
    (w w1 : World) (r : Option json.GoValue × ActionResponse)
    (h : GetUserInfoByUsername env username t w = .ok (r, t1, w1)) : FiveShapes r.2 := by
  unfold GetUserInfoByUsername at h
  split at h
  · cases h
  · cases h; exact FiveShapes_unknown _
  · cases h; exact UserInfoResult_shape _ _

theorem Unfollow_shape (env : Env) (userIDOrUsername : List Char) (t t1 : Twitter)
    (w w1 : World) (r : ActionResponse)
    (h : Unfollow env userIDOrUsername t w = .ok (r, t1, w1)) : FiveShapes r := by
  unfold Unfollow at h
  split at h
  · split at h
    · cases h
    · rename_i info resp t2 w2 hinfo
      split at h
      · cases h
        exact GetUserInfoByUsername_shape env _ t _ w _ (info, r) hinfo
      · split at h
        · cases h
        · exact unfollowByID_shape env _ _ _ _ _ r h
  · exact unfollowByID_shape env _ _ _ _ _ r h

theorem postTweet_shape (env : Env) (requestBody : Twitter → json.Value) (t t1 : Twitter)
    (w w1 : World) (r : ActionResponse)
    (h : postTweet env requestBody t w = .ok (r, t1, w1)) : FiveShapes r := by
  unfold postTweet at h
  split at h
  · cases h; exact FiveShapes_unknown _
  · split at h
    · cases h
    · cases h; exact FiveShapes_unknown _
    · cases h; exact TweetResult_shape _ _

theorem uploadIfMedia_shape (env : Env) (m : Option (List Char)) (t t1 : Twitter)
    (w w1 : World) (r : ActionResponse)
    (h : uploadIfMedia env m t w = .ok (.inl r, t1, w1)) : FiveShapes r := by
  unfold uploadIfMedia at h
  repeat' split at h
  all_goals first
    | (cases h; exact FiveShapes_unknown _)
    | cases h

theorem Tweet_shape (env : Env) (content : List Char) (opts : Option TweetOptions)
    (t t1 : Twitter) (w w1 : World) (r : ActionResponse)
    (h : Tweet env content opts t w = .ok (r, t1, w1)) : FiveShapes r := by
  unfold Tweet at h
  split at h
  · cases h
  · rename_i r0 t2 w2 hup
    cases h
    exact uploadIfMedia_shape env _ t _ w _ _ hup
  · exact postTweet_shape env _ _ _ _ _ r h

theorem Comment_shape (env : Env) (content tweetID : List Char) (opts : Option CommentOptions)
    (t t1 : Twitter) (w w1 : World) (r : ActionResponse)
    (h : Comment env content tweetID opts t w = .ok (r, t1, w1)) : FiveShapes r := by
  unfold Comment at h
  split at h
  · cases h
  · rename_i r0 hid
    cases h
    exact resolveTweetID_shape _ _ hid
  · split at h
    · cases h
    · rename_i r0 t2 w2 hup
      cases h
      exact uploadIfMedia_shape env _ t _ w _ _ hup
    · exact postTweet_shape env _ _ _ _ _ r h

theorem VotePoll_shape (env : Env) (tweetID answer : List Char) (t t1 : Twitter)
    (w w1 : World) (r : ActionResponse)
    (h : VotePoll env tweetID answer t w = .ok (r, t1, w1)) : FiveShapes r := by
  unfold VotePoll at h
  split at h
  · cases h
  · rename_i r0 hid
    cases h
    exact resolveTweetID_shape _ _ hid
  · repeat' split at h
    all_goals first
      | (cases h; exact FiveShapes_unknown _)
      | (cases h; exact VotePollResult_shape _ _)
      | cases h

theorem IsValid_shape (env : Env) (simpleFold : Char → Char) (t t1 : Twitter) (w w1 : World)
    (r : Option AccountInfo × ActionResponse)
    (h : IsValid env simpleFold t w = .ok (r, t1, w1)) : FiveShapes r.2 := by
  unfold IsValid at h
  split at h
  · cases h
  · cases h; exact FiveShapes_unknown _
  · cases h; exact IsValidResult_shape _ _ _ _

theorem FiveShapes_WellFormed (r : ActionResponse) (h : FiveShapes r) : WellFormed r := by
  rcases h with ⟨e, rfl⟩ | rfl | rfl | rfl | rfl <;> simp [WellFormed]

theorem FiveShapes_used (r : ActionResponse) (h : FiveShapes r) : ¬ UnusedStatus r.Status := by
  rcases h with ⟨e, rfl⟩ | rfl | rfl | rfl | rfl <;> simp [UnusedStatus]

/-- The four ways the loop of `GetTwitterUsername` ends: success, a locked
account, a rejected token (reported as `StatusAuthError`), or exhaustion. -/
theorem getTwitterUsernameLoop_status (env : Env) (httpClient : Option HttpClient)
    (config : Config) (tok : List Char) (n : Nat) (store store1 : CookieClient) (w w1 : World)
    (username newCsrfToken : List Char) (err : Option Error) (status : ActionStatus)
    (h : getTwitterUsernameLoop env httpClient config tok n store w =
      .ok ((username, newCsrfToken, err, status), store1, w1)) :
    (err = none ∧ status = .StatusSuccess) ∨
    (err = some .ErrAccountLocked ∧ status = .StatusLocked) ∨
    (err = some .ErrInvalidToken ∧ status = .StatusAuthError) ∨
    (err = some .ErrUnknown ∧ status = .StatusUnknown) := by
  induction n generalizing store w with
  | zero =>
    simp only [getTwitterUsernameLoop] at h
    cases h
    exact Or.inr (Or.inr (Or.inr ⟨rfl, rfl⟩))
  | succ n ih =>
    simp only [getTwitterUsernameLoop] at h
    repeat' split at h
    all_goals first
      | exact ih _ _ h
      | (cases h; exact Or.inl ⟨rfl, rfl⟩)
      | (cases h; exact Or.inr (Or.inl ⟨rfl, rfl⟩))
      | (cases h; exact Or.inr (Or.inr (Or.inl ⟨rfl, rfl⟩)))
      | cases h

/-- The loop of `init` never returns the error of its `invalid token` branch. -/
theorem initLoop_no_invalid_token (env : Env) (n : Nat) (i : Int) (t t1 : Twitter)
    (w w1 : World) (err : Option Error) (h : initLoop env n i t w = .ok (err, t1, w1)) (e : Error) :
    err ≠ some (.Wrap "invalid token: ".toList e) := by
  induction n generalizing i t w with
  | zero =>
    simp only [initLoop] at h
    cases h
    intro he
    cases he
  | succ n ih =>
    simp only [initLoop] at h
    repeat' split at h
    all_goals first
      | exact ih _ _ _ h
      | (cases h; done)
      | (cases h
         intro he
         exact absurd (Error.Wrap.inj (Option.some.inj he)).1 (by decide))
      | (cases h
         intro he
         cases he
         done)
      | (rename_i hget
         rcases getTwitterUsernameLoop_status _ _ _ _ _ _ _ _ _ _ _ _ _ hget with
           h1 | h1 | h1 | h1 <;> cases h1.2)

/-! ## C23 -/

/-- C23, failing run. When the upload request is answered with status 200 and
the body `{}`, which decodes as JSON and carries no `media_id_string`,
`UploadMedia` returns the empty media ID with a nil error; `Tweet` with that
media then goes on to send the `CreateTweet` request and, when that one is
answered with a posted tweet, returns `Success = true`. -/
theorem UploadMedia_missing_id_is_no_error :
    (UploadMedia (envWith uploadThenTweetClient) "aGk=".toList
      (sessionWith uploadThenTweetClient) world0).map (fun r => r.1) = .ok ([], none) ∧
    (Tweet (envWith uploadThenTweetClient) "hi".toList (some ⟨[], "aGk=".toList⟩)
      (sessionWith uploadThenTweetClient) world0).toOption.map
      (fun r => (r.1, r.2.2.sent.map (fun q => q.URL))) =
    some ({ Success := true, Error := none, Status := .StatusSuccess },
      ["https://upload.twitter.com/1.1/media/upload.json".toList,
       "https://twitter.com/i/api/graphql/bDE2rBtZb3uyrczSZ_pI9g/CreateTweet".toList]) := by
  decide

/-! ## C28 -/

/-- C28. Identity resolution can succeed without an identity: the identity
response with status 400 and the body
`{"errors":[{"message":"screen_name is required"}]}` has the text `screen_name`
and decodes as JSON with an empty `data.viewer.user_results.result.legacy.screen_name`;
on it `GetTwitterUsername` returns `StatusSuccess` with a nil error and the empty
username after one request, and `init` returns nil with `Account.Username`
empty. -/
theorem identity_resolved_without_identity :
    Contains namelessIdentityBody "screen_name".toList = true ∧
    (json.Unmarshal namelessIdentityBody getUsernameJSON).toOption.map screenNameOf = some [] ∧
    (GetTwitterUsername (envWith (fixedClient namelessIdentityResponse))
      (some (fixedClient namelessIdentityResponse)) NewCookieClient NewConfig "csrf0".toList
      world0).toOption.map (fun r => (r.1, r.2.2.sent.length)) =
      some (([], "abc".toList, none, .StatusSuccess), 1) ∧
    (init (envWith (fixedClient namelessIdentityResponse))
      (sessionWith (fixedClient namelessIdentityResponse)) world0).toOption.map
      (fun r => (r.1, r.2.1.Account.Username, r.2.2.sent.length)) = some (none, [], 1) := by
  decide

/-! ## C27 -/

/-- C27. Outcome well-formedness: in every `ActionResponse` returned by `Like`,
`Retweet`, `Follow`, `Unfollow`, `Tweet`, `Comment`, `GetUserInfoByUsername` and
`IsValid`, on every path, `Success` is true if and only if `Error` is nil, and
if and only if `Status` is `StatusSuccess` or `StatusAlreadyDone`. -/
theorem outcomes_well_formed (env : Env) (simpleFold : Char → Char) (t : Twitter) (w : World) :
    (∀ tweetID r t1 w1, Like env tweetID t w = .ok (r, t1, w1) → WellFormed r) ∧
    (∀ tweetID r t1 w1, Retweet env tweetID t w = .ok (r, t1, w1) → WellFormed r) ∧
    (∀ username r t1 w1, Follow env username t w = .ok (r, t1, w1) → WellFormed r) ∧
    (∀ userIDOrUsername r t1 w1,
      Unfollow env userIDOrUsername t w = .ok (r, t1, w1) → WellFormed r) ∧
    (∀ content opts r t1 w1, Tweet env content opts t w = .ok (r, t1, w1) → WellFormed r) ∧
    (∀ content tweetID opts r t1 w1,
      Comment env content tweetID opts t w = .ok (r, t1, w1) → WellFormed r) ∧
    (∀ username info r t1 w1,
      GetUserInfoByUsername env username t w = .ok ((info, r), t1, w1) → WellFormed r) ∧
    (∀ info r t1 w1, IsValid env simpleFold t w = .ok ((info, r), t1, w1) → WellFormed r) :=
  ⟨fun _ r _ _ h => FiveShapes_WellFormed r (Like_shape env _ t _ w _ r h),
   fun _ r _ _ h => FiveShapes_WellFormed r (Retweet_shape env _ t _ w _ r h),
   fun _ r _ _ h => FiveShapes_WellFormed r (Follow_shape env _ t _ w _ r h),
   fun _ r _ _ h => FiveShapes_WellFormed r (Unfollow_shape env _ t _ w _ r h),
   fun _ _ r _ _ h => FiveShapes_WellFormed r (Tweet_shape env _ _ t _ w _ r h),
   fun _ _ _ r _ _ h => FiveShapes_WellFormed r (Comment_shape env _ _ _ t _ w _ r h),
   fun _ info r _ _ h =>
     FiveShapes_WellFormed r (GetUserInfoByUsername_shape env _ t _ w _ (info, r) h),
   fun info r _ _ h => FiveShapes_WellFormed r (IsValid_shape env simpleFold t _ w _ (info, r) h)⟩

theorem outcomes_well_formed_witness :
    WellFormed { Success := false, Error := some .ErrAccountLocked, Status := .StatusLocked } :=
  (outcomes_well_formed (envWith (fixedClient lockedViewerResponse)) asciiFold
    (sessionWith (fixedClient lockedViewerResponse)) world0).1 "12".toList _
    ((sessionWith (fixedClient lockedViewerResponse)).updateCookies lockedViewerResponse)
    ⟨[buildRequest (LikeRequest (sessionWith (fixedClient lockedViewerResponse)) "12".toList)],
      0, 0⟩ rfl

/-! ## C30 -/

/-- C30. Only five outcome kinds are ever produced: no path of `Like`, `Retweet`,
`Follow`, `Unfollow`, `Tweet`, `Comment`, `VotePoll`, `GetUserInfoByUsername` or
`IsValid` returns `StatusNotFound`, `StatusRateLimited` or `StatusInvalidToken`;
`GetTwitterUsername` never returns `StatusInvalidToken`, and reports the rejected
token (`ErrInvalidToken`) as `StatusAuthError`; so `init` never returns the error
of its `invalid token` branch. -/
theorem only_five_outcome_kinds (env : Env) (simpleFold : Char → Char) (t : Twitter)
    (w : World) :
    (∀ tweetID r t1 w1, Like env tweetID t w = .ok (r, t1, w1) → ¬ UnusedStatus r.Status) ∧
    (∀ tweetID r t1 w1, Retweet env tweetID t w = .ok (r, t1, w1) → ¬ UnusedStatus r.Status) ∧
    (∀ username r t1 w1, Follow env username t w = .ok (r, t1, w1) → ¬ UnusedStatus r.Status) ∧
    (∀ userIDOrUsername r t1 w1,
      Unfollow env userIDOrUsername t w = .ok (r, t1, w1) → ¬ UnusedStatus r.Status) ∧
    (∀ content opts r t1 w1,
      Tweet env content opts t w = .ok (r, t1, w1) → ¬ UnusedStatus r.Status) ∧
    (∀ content tweetID opts r t1 w1,
      Comment env content tweetID opts t w = .ok (r, t1, w1) → ¬ UnusedStatus r.Status) ∧
    (∀ tweetID answer r t1 w1,
      VotePoll env tweetID answer t w = .ok (r, t1, w1) → ¬ UnusedStatus r.Status) ∧
    (∀ username info r t1 w1,
      GetUserInfoByUsername env username t w = .ok ((info, r), t1, w1) →
      ¬ UnusedStatus r.Status) ∧
    (∀ info r t1 w1,
      IsValid env simpleFold t w = .ok ((info, r), t1, w1) → ¬ UnusedStatus r.Status) ∧
    (∀ httpClient cookieClient config csrfToken username newCsrfToken err status store1 w1,
      GetTwitterUsername env httpClient cookieClient config csrfToken w =
        .ok ((username, newCsrfToken, err, status), store1, w1) →
      status ≠ .StatusInvalidToken ∧ (err = some .ErrInvalidToken → status = .StatusAuthError)) ∧
    (∀ err t1 w1 e, init env t w = .ok (err, t1, w1) →
      err ≠ some (.Wrap "invalid token: ".toList e)) := by
  refine ⟨fun _ r _ _ h => FiveShapes_used r (Like_shape env _ t _ w _ r h),
    fun _ r _ _ h => FiveShapes_used r (Retweet_shape env _ t _ w _ r h),
    fun _ r _ _ h => FiveShapes_used r (Follow_shape env _ t _ w _ r h),
    fun _ r _ _ h => FiveShapes_used r (Unfollow_shape env _ t _ w _ r h),
    fun _ _ r _ _ h => FiveShapes_used r (Tweet_shape env _ _ t _ w _ r h),
    fun _ _ _ r _ _ h => FiveShapes_used r (Comment_shape env _ _ _ t _ w _ r h),
    fun _ _ r _ _ h => FiveShapes_used r (VotePoll_shape env _ _ t _ w _ r h),
    fun _ info r _ _ h =>
      FiveShapes_used r (GetUserInfoByUsername_shape env _ t _ w _ (info, r) h),
    fun info r _ _ h => FiveShapes_used r (IsValid_shape env simpleFold t _ w _ (info, r) h),
    ?_, fun err t1 w1 e h => initLoop_no_invalid_token env _ 0 t t1 w w1 err h e⟩
  intro httpClient cookieClient config csrfToken username newCsrfToken err status store1 w1 h
  rcases getTwitterUsernameLoop_status env httpClient config csrfToken _ cookieClient store1 w w1
    username newCsrfToken err status h with h1 | h1 | h1 | h1
  · exact ⟨by rw [h1.2]; decide, fun he => by rw [h1.1] at he; cases he⟩
  · exact ⟨by rw [h1.2]; decide, fun he => by rw [h1.1] at he; cases he⟩
  · exact ⟨by rw [h1.2]; decide, fun _ => h1.2⟩
  · exact ⟨by rw [h1.2]; decide, fun he => by rw [h1.1] at he; cases he⟩

theorem only_five_outcome_kinds_witness :
    GetTwitterUsername (envWith (fixedClient rejectedViewerResponse))
      (some (fixedClient rejectedViewerResponse)) NewCookieClient NewConfig "csrf0".toList
      world0 =
      .ok (([], "rotated".toList, some .ErrInvalidToken, .StatusAuthError),
        NewCookieClient.SetCookieFromResponse rejectedViewerResponse,
        ⟨[buildRequest (viewerRequest NewConfig NewCookieClient "csrf0".toList)], 0, 0⟩) ∧
    ActionStatus.StatusAuthError ≠ ActionStatus.StatusInvalidToken ∧
    (some Error.ErrInvalidToken = some Error.ErrInvalidToken →
      ActionStatus.StatusAuthError = ActionStatus.StatusAuthError) :=
  ⟨rfl, (only_five_outcome_kinds (envWith (fixedClient rejectedViewerResponse)) asciiFold
    (sessionWith (fixedClient rejectedViewerResponse)) world0).2.2.2.2.2.2.2.2.2.1
    (some (fixedClient rejectedViewerResponse)) NewCookieClient NewConfig "csrf0".toList []
    "rotated".toList (some .ErrInvalidToken) .StatusAuthError
    (NewCookieClient.SetCookieFromResponse rejectedViewerResponse)
    ⟨[buildRequest (viewerRequest NewConfig NewCookieClient "csrf0".toList)], 0, 0⟩ rfl⟩

/-! ## C24 -/

/-- C24, counterexample. A request configuration whose two pairs carry the key
`Header-Order:`, with the values `a` and `b`: the key occurs in more than one
pair, yet the request handed to the transport does not hold `b`, the value of
the last pair, under that key.  The assignment of the order list after the
loop replaces the entry: the header map holds the list of the two keys under
`Header-Order:`, and `Header.Get` on the request gives `Header-Order:`. -/
theorem order_key_holds_order_list_not_last_value :
    orderKeyConfig.Headers.map (fun p => (p.Key, p.Value)) =
      [("Header-Order:".toList, "a".toList), ("Header-Order:".toList, "b".toList)] ∧
    (MakeRequest (envWith deadClient) (some deadClient) orderKeyConfig world0).toOption.map
        (fun r => r.2.sent.map (fun q => q.Header)) =
      some [[("Header-Order:".toList, ["Header-Order:".toList, "Header-Order:".toList]),
        ("PHeader-Order:".toList,
          [":authority".toList, ":method".toList, ":path".toList, ":scheme".toList])]] ∧
    headerGet (buildRequest orderKeyConfig).Header "Header-Order:".toList =
      "Header-Order:".toList ∧
    headerGet (buildRequest orderKeyConfig).Header "Header-Order:".toList ≠ "b".toList := by
  decide

/-- C24, amended. Header order and overrides: for every request config, (1) the
header-order list that `MakeRequest` attaches to the request, the entry of the
header map under `http.HeaderOrderKey`, is the sequence of the keys of
`config.Headers` in list order, repeated keys included, and the entry under
`http.PHeaderOrderKey` is the list of the four pseudo header names; (2) for every
key other than these two order keys, the header map holds one value under the
key, the value of the last pair with that key, and `Header.Get` gives it, keys
being compared as header names (by their canonical form, which ignores letter
case); (3) when the request can be built, that request is the one handed to the
transport; (4) for `Like` the order is the keys of `DefaultConfig` followed by
the keys of the action, and `content-type` is sent as `application/json`, the
value of the action. -/
theorem header_order_and_overrides (env : Env) (c : HttpClient) (config : RequestConfig)
    (w : World) (t : Twitter) (tweetID : List Char) :
    (headerIndex (buildRequest config).Header HeaderOrderKey =
        config.Headers.map (fun p => p.Key) ∧
      headerIndex (buildRequest config).Header PHeaderOrderKey =
        [":authority".toList, ":method".toList, ":path".toList, ":scheme".toList]) ∧
    (∀ pre p post key, config.Headers = pre ++ p :: post →
      CanonicalMIMEHeaderKey key = CanonicalMIMEHeaderKey p.Key →
      (∀ q ∈ post, CanonicalMIMEHeaderKey q.Key ≠ CanonicalMIMEHeaderKey key) →
      CanonicalMIMEHeaderKey key ≠ HeaderOrderKey →
      CanonicalMIMEHeaderKey key ≠ PHeaderOrderKey →
      headerIndex (buildRequest config).Header (CanonicalMIMEHeaderKey key) = [p.Value] ∧
        headerGet (buildRequest config).Header key = p.Value) ∧
    (env.NewRequest config.Method config.URL = none →
      ∃ res, MakeRequest env (some c) config w =
        .ok (res, { w with sent := w.sent ++ [buildRequest config] })) ∧
    headerIndex (buildRequest (LikeRequest t tweetID)).Header HeaderOrderKey =
      DefaultConfig.Headers.map (fun p => p.Key) ++ (graphqlHeaders t).map (fun p => p.Key) ∧
    headerGet (buildRequest (LikeRequest t tweetID)).Header "content-type".toList =
      "application/json".toList := by
  refine ⟨⟨headerIndex_buildRequest_order config, headerIndex_buildRequest_pseudo config⟩,
    fun pre p post key hcfg hkey hpost hord hpord => ?_, fun hnew => ?_, ?_, ?_⟩
  · have h1 : headerGet (buildRequest config).Header key =
        headerGet (buildRequest config).Header p.Key := by
      simp only [headerGet, hkey]
    rw [h1, hkey]
    exact ⟨headerIndex_buildRequest config pre post p.Key p.Value hcfg
        (fun q hq => by rw [← hkey]; exact hpost q hq) (by rw [← hkey]; exact hord)
        (by rw [← hkey]; exact hpord),
      headerGet_buildRequest config pre post p.Key p.Value hcfg
        (fun q hq => by rw [← hkey]; exact hpost q hq) (by rw [← hkey]; exact hord)
        (by rw [← hkey]; exact hpord)⟩
  · cases h2 : c.Do w.sent.length (buildRequest config) with
    | error err => exact ⟨_, by simp only [MakeRequest, hnew, h2]; rfl⟩
    | ok resp =>
      cases h3 : resp.Body with
      | error err => exact ⟨_, by simp only [MakeRequest, hnew, h2, h3]; rfl⟩
      | ok body => exact ⟨_, by simp only [MakeRequest, hnew, h2, h3]; rfl⟩
  · rw [headerIndex_buildRequest_order]
    simp only [LikeRequest, List.map_append]
  · apply headerGet_buildRequest _ (DefaultConfig.Headers ++ (graphqlHeaders t).take 2)
      ((graphqlHeaders t).drop 3)
    · simp only [LikeRequest, graphqlHeaders]
      rw [List.append_assoc]
      rfl
    · intro p hp
      simp only [graphqlHeaders, List.drop, List.mem_cons, List.mem_singleton, List.not_mem_nil,
        or_false] at hp
      rcases hp with rfl | rfl | rfl | rfl | rfl <;> dsimp only <;> decide
    · decide
    · decide

theorem header_order_and_overrides_witness :
    headerIndex (buildRequest (LikeRequest (sessionWith deadClient) "12".toList)).Header
        HeaderOrderKey =
      ["accept".toList, "accept-encoding".toList, "content-type".toList, "origin".toList,
       "sec-ch-ua-mobile".toList, "sec-ch-ua-platform".toList, "sec-fetch-dest".toList,
       "sec-fetch-mode".toList, "sec-fetch-site".toList, "user-agent".toList,
       "accept".toList, "authorization".toList, "content-type".toList, "cookie".toList,
       "origin".toList, "x-csrf-token".toList, "x-twitter-active-user".toList,
       "x-twitter-auth-type".toList] ∧
    headerIndex (buildRequest (LikeRequest (sessionWith deadClient) "12".toList)).Header
        "Content-Type".toList = ["application/json".toList] ∧
    headerGet (buildRequest (LikeRequest (sessionWith deadClient) "12".toList)).Header
      "Content-Type".toList = "application/json".toList := by
  have h := header_order_and_overrides (envWith deadClient) deadClient
    (LikeRequest (sessionWith deadClient) "12".toList) world0 (sessionWith deadClient)
    "12".toList
  refine ⟨h.1.1.trans (by decide), ?_⟩
  exact h.2.1 (DefaultConfig.Headers ++ (graphqlHeaders (sessionWith deadClient)).take 2)
    ⟨"content-type".toList, "application/json".toList⟩
    ((graphqlHeaders (sessionWith deadClient)).drop 3) "Content-Type".toList (by decide)
    (by decide) (by decide) (by decide) (by decide)

end TwitterAPI
